import Mathlib

/-!
# ID3-Tagging-Library: integer codec, encoding codec, text frames, frame factory, tag assembler

A shallow embedding of `ID3Functions.cpp`, `Frames/ID3TextFrame.cpp`,
`ID3FrameID.cpp`, `ID3FrameFactory.cpp` and `ID3Tag.cpp`, with the properties
of the specification stated and proved (or refuted) over it.

Conventions of the embedding.
* A byte is a natural number below 256; `std::vector<uint8_t>` and
  `std::string` are lists of bytes.
* `unsigned long long` is a natural number reduced modulo `2 ^ 64` wherever
  the C++ operation can wrap.
* Six things are outside the C++ source and are gathered in a `Host`:
  the value of a shift by 64 or more (undefined in C++), the value found by
  an index past the end of a vector (undefined in C++), the UTF-16 to
  UTF-8 conversion of the ICU library, the bytes of a local object that
  was not initialised, the result of `atoi` on a number that does not fit
  an `int` (undefined in C), and what becomes of a string computed by a
  function that has written past the end of a heap buffer (undefined in
  C++).  Theorems quantify over every `Host` unless they say otherwise.
* `ulong` is taken as 64 bits wide; file offsets, tag sizes and frame sizes are
  far below `2 ^ 63`, and their sums are taken without wrap.
-/

namespace ID3

/-- A `std::vector<uint8_t>` (and a `std::string`): a list of bytes. -/
abbrev ByteArray := List Nat

/-- What the source takes from outside itself. -/
structure Host where
  /-- The 64-bit value that `1ULL << k` produces when `k ≥ 64`. -/
  shlUndef : Nat → Nat
  /-- The byte that `v[i]` produces when `i ≥ v.size()`. -/
  oob : Nat → Nat
  /-- ICU: `icu::UnicodeString(units, n).toUTF8String`, from UTF-16 code
  units to UTF-8 bytes. -/
  toUTF8 : List Nat → ByteArray
  /-- The byte found at index `i` of a local object that was not initialised. -/
  uninit : Nat → Nat
  /-- The value that `atoi` returns for a string whose number does not fit an
  `int`. -/
  atoiOverflow : List Nat → Int
  /-- The string that a function returns after it has written one element past
  the end of a buffer made by `new[]`, from the string that it would return
  had the write done no harm. -/
  heapOverflow : ByteArray → ByteArray

/-- Reading `a[i]` of a vector. -/
def readAt (H : Host) (a : ByteArray) (i : Nat) : Nat :=
  a.getD i (H.oob i % 256)

/-- The expression `1ULL << k` on `unsigned long long`. -/
def shl1 (H : Host) (k : Nat) : Nat :=
  if k < 64 then 2 ^ k else H.shlUndef k % 2 ^ 64

/-! ## Integer codec (`ID3Functions.cpp`) -/

/-- The loop `for(int i = 1; i < size; i++) value = (value << shiftSize) + *array++`
of `byteIntVal`: `steps` iterations left, the next byte read is `a[i]`. -/
def byteIntValLoop (H : Host) (a : ByteArray) (shiftSize : Nat) : Nat → Nat → Nat → Nat
  | 0, _, value => value
  | steps + 1, i, value =>
      byteIntValLoop H a shiftSize steps (i + 1) ((value * 2 ^ shiftSize + readAt H a i) % 2 ^ 64)

/-- Source: `ID3::byteIntVal(uint8_t* array, int size, bool synchsafe)`; `none` is
the null pointer. -/
def byteIntVal (H : Host) (array : Option ByteArray) (size : Int) (synchsafe : Bool) : Nat :=
  match array with
  | none => 0
  | some a =>
    if size < 1 then 0
    else
      let shiftSize := if synchsafe then 7 else 8
      byteIntValLoop H a shiftSize (size.toNat - 1) 1 (readAt H a 0)

/-- The loop `while(val > 0) { byteVector.push_back(val % modVal); val >>= shiftSize; }`
of `intToByteArray`; `fuel` bounds the number of iterations. -/
def minimalLoop (shiftSize modVal : Nat) : Nat → Nat → ByteArray → ByteArray
  | 0, _, byteVector => byteVector
  | fuel + 1, val, byteVector =>
      if val > 0 then
        minimalLoop shiftSize modVal fuel (val / 2 ^ shiftSize) (byteVector ++ [val % modVal])
      else byteVector

/-- The loop `for(int i = length - 1; i >= 0; i--) { byteVector[i] = val % modVal; val >>= shiftSize; }`
of `intToByteArray`: the first argument is `i + 1`. -/
def fillLoop (shiftSize modVal : Nat) : Nat → Nat → ByteArray → ByteArray
  | 0, _, byteVector => byteVector
  | i + 1, val, byteVector =>
      fillLoop shiftSize modVal i (val / 2 ^ shiftSize) (byteVector.set i (val % modVal))

/-- Source: `ID3::intToByteArray(unsigned long long val, ushort length, bool synchsafe)`.
The minimal-length loop divides a positive `val` by at least 128 each time, so
`val` iterations are enough for it to reach 0. -/
def intToByteArray (H : Host) (val : Nat) (length : Nat) (synchsafe : Bool) : ByteArray :=
  let shiftSize := if synchsafe then 7 else 8
  let modVal := if synchsafe then 0x80 else 0x100
  if length = 0 then
    (minimalLoop shiftSize modVal val val []).reverse
  else
    let byteVector := List.replicate length 0
    let bound := (shl1 H (length * shiftSize) + 2 ^ 64 - 1) % 2 ^ 64
    let val := if val > bound then bound else val
    fillLoop shiftSize modVal length val byteVector

/-! ## Encoding codec (`ID3Functions.cpp`) -/

/-- Modelled from the spec: the `FrameEncoding` enum is declared in
`Frames/ID3Frame.hpp`, which is absent; section 4.A gives its values. -/
def ENCODING_LATIN1 : Nat := 0x00

/-- Modelled from the spec: see `ENCODING_LATIN1`. -/
def ENCODING_UTF16BOM : Nat := 0x01

/-- Modelled from the spec: see `ENCODING_LATIN1`. -/
def ENCODING_UTF16 : Nat := 0x02

/-- Modelled from the spec: see `ENCODING_LATIN1`. -/
def ENCODING_UTF8 : Nat := 0x03

/-- The statement `if(start < 0) start = 0;`. -/
def setStart (start : Int) : Int :=
  if start < 0 then 0 else start

/-- The statement `if(end < 0 || static_cast<ulong>(end) > v.size()) end = v.size();`. -/
def setEnd (end_ : Int) (size : Nat) : Int :=
  if end_ < 0 ∨ end_ > (size : Int) then (size : Int) else end_

/-- The little-endian loop of `utf16toutf8`,
`for(int i = 0; i < u16sSize; i += 2) utf16CharArr[i/2] = (u16s[start+offset+i+1] << 8) + u16s[start+offset+i]`:
the code units written, in the order of the indices `i/2`; `steps` iterations
are left. -/
def utf16LoopLE (H : Host) (u16s : ByteArray) (start offset : Nat) : Nat → Nat → List Nat → List Nat
  | 0, _, utf16CharArr => utf16CharArr
  | steps + 1, i, utf16CharArr =>
      utf16LoopLE H u16s start offset steps (i + 2)
        (utf16CharArr ++
          [(readAt H u16s (start + offset + i + 1) * 2 ^ 8 + readAt H u16s (start + offset + i)) % 2 ^ 16])

/-- The big-endian loop of `utf16toutf8`,
`for(int i = 0; i < u16sSize; i += 2) utf16CharArr[i/2] = (u16s[start+offset+i] << 8) + u16s[start+i+offset+1]`. -/
def utf16LoopBE (H : Host) (u16s : ByteArray) (start offset : Nat) : Nat → Nat → List Nat → List Nat
  | 0, _, utf16CharArr => utf16CharArr
  | steps + 1, i, utf16CharArr =>
      utf16LoopBE H u16s start offset steps (i + 2)
        (utf16CharArr ++
          [(readAt H u16s (start + offset + i) * 2 ^ 8 + readAt H u16s (start + i + offset + 1)) % 2 ^ 16])

/-- The string that `utf16toutf8` returns, from the string `toReturn` that the
conversion gives: the buffer `new uint16_t[u16sSize / 2]` has `u16sSize / 2`
elements and the loops write the elements `0, 1, ...` up to the index
`(u16sSize + 1) / 2 - 1`, so for an odd `u16sSize` the last write is one
element past the end of the buffer, and what is returned after it is left to
the host. -/
def utf16Returned (H : Host) (u16sSize : Nat) (toReturn : ByteArray) : ByteArray :=
  if u16sSize / 2 < (u16sSize + 1) / 2 then H.heapOverflow toReturn else toReturn

/-- Source: `ID3::utf16toutf8(const ByteArray& u16s, long start, long end)`.  The loops
run for `i = 0, 2, 4, ...` while `i < u16sSize`, that is `(u16sSize + 1) / 2`
times; the `UnicodeString` is built from the first `(u16sSize - offset) / 2`
code units. -/
def utf16toutf8 (H : Host) (u16s : ByteArray) (start end_ : Int) : ByteArray :=
  let start := setStart start
  let end_ := setEnd end_ u16s.length
  if end_ - start < 2 then []
  else
    let u16sSize := (end_ - start).toNat
    let start := start.toNat
    if readAt H u16s start = 0xFF ∧ readAt H u16s (start + 1) = 0xFE then
      let offset := 2
      let utf16CharArr := utf16LoopLE H u16s start offset ((u16sSize + 1) / 2) 0 []
      utf16Returned H u16sSize (H.toUTF8 (utf16CharArr.take ((u16sSize - offset) / 2)))
    else
      let offset := if readAt H u16s start = 0xFE ∧ readAt H u16s (start + 1) = 0xFF then 2 else 0
      let utf16CharArr := utf16LoopBE H u16s start offset ((u16sSize + 1) / 2) 0 []
      utf16Returned H u16sSize (H.toUTF8 (utf16CharArr.take ((u16sSize - offset) / 2)))

/-- The loop `for(long i = start; i < end; i++)` of `latin1toutf8`; the bytes
`utf8CharArr[0 .. curPos)` written so far are the accumulator. -/
def latin1Loop (H : Host) (latin1s : ByteArray) : Nat → Nat → ByteArray → ByteArray
  | 0, _, utf8CharArr => utf8CharArr
  | steps + 1, i, utf8CharArr =>
      let curChar := readAt H latin1s i
      if curChar < 0x80 then
        latin1Loop H latin1s steps (i + 1) (utf8CharArr ++ [curChar])
      else
        latin1Loop H latin1s steps (i + 1)
          (utf8CharArr ++ [0xC0 ||| (curChar >>> 6), 0x80 ||| (curChar &&& 0x3F)])

/-- Source: `ID3::latin1toutf8(const ByteArray& latin1s, long start, long end)`. -/
def latin1toutf8 (H : Host) (latin1s : ByteArray) (start end_ : Int) : ByteArray :=
  let start := setStart start
  let end_ := setEnd end_ latin1s.length
  if end_ ≤ start then []
  else latin1Loop H latin1s (end_ - start).toNat start.toNat []

/-- Source: `ID3::getUTF8String(uint8_t encoding, const ByteArray& bytes, long start, long end)`.
The UTF-8 case is `std::string(bytes.begin()+start, bytes.begin()+end)`. -/
def getUTF8String (H : Host) (encoding : Nat) (bytes : ByteArray) (start end_ : Int) : ByteArray :=
  let start := setStart start
  let end_ := setEnd end_ bytes.length
  if end_ ≤ start then []
  else if encoding = ENCODING_UTF16BOM ∨ encoding = ENCODING_UTF16 then
    utf16toutf8 H bytes start end_
  else if encoding = ENCODING_UTF8 then
    (bytes.drop start.toNat).take (end_ - start).toNat
  else
    latin1toutf8 H bytes start end_

/-- The default argument `end = -1` of `getUTF8String`, `utf16toutf8` and
`latin1toutf8` (declared in `ID3Functions.hpp`, which is absent): the callers
that omit `end` read to the end of the vector. -/
def END_DEFAULT : Int := -1

/-! ### Reference UTF-8 encoding (Unicode standard, for stating results) -/

/-- UTF-8 bytes of one code point, after the Unicode standard. -/
def utf8OfCodePoint (cp : Nat) : ByteArray :=
  if cp < 0x80 then [cp]
  else if cp < 0x800 then [0xC0 + cp / 64, 0x80 + cp % 64]
  else if cp < 0x10000 then [0xE0 + cp / 4096, 0x80 + cp / 64 % 64, 0x80 + cp % 64]
  else [0xF0 + cp / 262144, 0x80 + cp / 4096 % 64, 0x80 + cp / 64 % 64, 0x80 + cp % 64]

/-- Code points of a sequence of UTF-16 code units: a high surrogate
followed by a low surrogate is one supplementary code point, a lone
surrogate becomes U+FFFD. -/
def codePointsOfUTF16 : List Nat → List Nat
  | [] => []
  | [u] => if 0xD800 ≤ u ∧ u < 0xE000 then [0xFFFD] else [u]
  | u :: v :: rest =>
      if 0xD800 ≤ u ∧ u < 0xDC00 ∧ 0xDC00 ≤ v ∧ v < 0xE000 then
        (0x10000 + (u - 0xD800) * 1024 + (v - 0xDC00)) :: codePointsOfUTF16 rest
      else if 0xD800 ≤ u ∧ u < 0xE000 then 0xFFFD :: codePointsOfUTF16 (v :: rest)
      else u :: codePointsOfUTF16 (v :: rest)

/-- A conformant UTF-16 to UTF-8 conversion. -/
def utf16UnitsToUTF8 (units : List Nat) : ByteArray :=
  (codePointsOfUTF16 units).flatMap utf8OfCodePoint

/-- The big-endian 16-bit code units of a byte sequence of even length. -/
def unitsBE : ByteArray → List Nat
  | hi :: lo :: rest => (hi * 256 + lo) :: unitsBE rest
  | _ => []

/-- The little-endian 16-bit code units of a byte sequence of even length. -/
def unitsLE : ByteArray → List Nat
  | lo :: hi :: rest => (hi * 256 + lo) :: unitsLE rest
  | _ => []

/-- The image of one Latin-1 byte in the words of section 4.A: values below
0x80 copy through, the others give `0xC0 | (c >> 6)`, `0x80 | (c & 0x3F)`. -/
def latin1Image (c : Nat) : ByteArray :=
  if c < 0x80 then [c] else [0xC0 ||| (c >>> 6), 0x80 ||| (c &&& 0x3F)]

/-! ## Frame identifiers (`ID3FrameID.cpp`) -/

/-- Source: `FrameID::FRAME_STR_LIST`. -/
def FRAME_STR_LIST : List String :=
  ["AENC", "APIC", "ASPI", "COMM", "COMR", "ENCR", "EQU2", "EQUA", "ETCO", "GEOB",
   "GRID", "IPLS", "LINK", "MCDI", "MLLT", "OWNE", "PCNT", "POPM", "POSS", "PRIV",
   "RBUF", "RVA2", "RVAD", "RVRB", "SEEK", "SIGN", "SYLT", "SYTC", "TALB", "TBPM",
   "TCOM", "TCON", "TCOP", "TDAT", "TDEN", "TDLY", "TDOR", "TDRC", "TDRL", "TDTG",
   "TENC", "TEXT", "TFLT", "TIPL", "TIME", "TIT1", "TIT2", "TIT3", "TKEY", "TLAN",
   "TLEN", "TMCL", "TMED", "TMOO", "TOAL", "TOFL", "TOLY", "TOPE", "TORY", "TOWN",
   "TPE1", "TPE2", "TPE3", "TPE4", "TPOS", "TPRO", "TPUB", "TRCK", "TRDA", "TRSN",
   "TRSO", "TSO2", "TSOA", "TSOC", "TSOP", "TSOT", "TSIZ", "TSRC", "TSSE", "TSST",
   "TXXX", "TYER", "UFID", "USER", "USLT", "WCOM", "WCOP", "WOAF", "WOAR", "WOAS",
   "WORS", "WPAY", "WPUB", "WXXX", "XXXX"]

/-- Modelled from the spec: the `Frames` enum is declared in `ID3FrameID.hpp`,
which is absent.  `FRAME_STR_ENUM_MAP` casts the position of a frame ID in
`FRAME_STR_LIST` to its enum value, so the enum value of the frame with the
4-character ID `s` is that position. -/
def FRAMEID (s : String) : Nat := FRAME_STR_LIST.indexOf s

/-- Modelled from the spec: the sentinel `UNKNOWN` of the enum, whose
4-character form is `XXXX`. -/
def FRAME_UNKNOWN_FRAME : Nat := FRAMEID "XXXX"

/-- Modelled from the spec: the enum value given to a v2.2 frame ID with no
v2.4 equivalent; `FRAME_STR_LIST` comments `XXXX` as that frame. -/
def FRAME_UNKNOWN_V2_2_FRAME : Nat := FRAMEID "XXXX"

/-- Modelled from the spec: enum constant of `APIC` (see `FRAMEID`). -/
def FRAME_PICTURE : Nat := FRAMEID "APIC"
/-- Modelled from the spec: enum constant of `COMM` (see `FRAMEID`). -/
def FRAME_COMMENT : Nat := FRAMEID "COMM"
/-- Modelled from the spec: enum constant of `TXXX` (see `FRAMEID`). -/
def FRAME_CUSTOM_USER_INFO : Nat := FRAMEID "TXXX"
/-- Modelled from the spec: enum constant of `USLT` (see `FRAMEID`). -/
def FRAME_UNSYNCHRONISED_LYRICS : Nat := FRAMEID "USLT"
/-- Modelled from the spec: enum constant of `USER` (see `FRAMEID`). -/
def FRAME_TERMS_OF_USE : Nat := FRAMEID "USER"
/-- Modelled from the spec: enum constant of `WXXX` (see `FRAMEID`). -/
def FRAME_USER_DEFINED_URL : Nat := FRAMEID "WXXX"
/-- Modelled from the spec: enum constant of `TBPM` (see `FRAMEID`). -/
def FRAME_BPM : Nat := FRAMEID "TBPM"
/-- Modelled from the spec: enum constant of `TDAT` (see `FRAMEID`). -/
def FRAME_DATE : Nat := FRAMEID "TDAT"
/-- Modelled from the spec: enum constant of `TDLY` (see `FRAMEID`). -/
def FRAME_PLAYLIST_DELAY : Nat := FRAMEID "TDLY"
/-- Modelled from the spec: enum constant of `TIME` (see `FRAMEID`). -/
def FRAME_TIME : Nat := FRAMEID "TIME"
/-- Modelled from the spec: enum constant of `TLEN` (see `FRAMEID`). -/
def FRAME_LENGTH : Nat := FRAMEID "TLEN"
/-- Modelled from the spec: enum constant of `TORY` (see `FRAMEID`). -/
def FRAME_ORIGINAL_RELEASE_YEAR : Nat := FRAMEID "TORY"
/-- Modelled from the spec: enum constant of `TYER` (see `FRAMEID`). -/
def FRAME_YEAR : Nat := FRAMEID "TYER"
/-- Modelled from the spec: enum constant of `IPLS` (see `FRAMEID`). -/
def FRAME_INVOLVED_PEOPLE : Nat := FRAMEID "IPLS"
/-- Modelled from the spec: enum constant of `PCNT` (see `FRAMEID`). -/
def FRAME_PLAY_COUNT : Nat := FRAMEID "PCNT"
/-- Modelled from the spec: enum constant of `POPM` (see `FRAMEID`). -/
def FRAME_POPULARIMETER : Nat := FRAMEID "POPM"
/-- Modelled from the spec: enum constant of `ETCO` (see `FRAMEID`). -/
def FRAME_EVENT_TIMING_CODES : Nat := FRAMEID "ETCO"

/-- The loop `for(ushort i = 0; i < frames.size(); i++) conversionMap.emplace(frames[i], static_cast<Frames>(i))`
that builds `FRAME_STR_ENUM_MAP`: `emplace` keeps the first entry of a key. -/
def emplaceAll : List String → Nat → List (String × Nat) → List (String × Nat)
  | [], _, conversionMap => conversionMap
  | s :: rest, i, conversionMap =>
      emplaceAll rest (i + 1)
        (if (conversionMap.lookup s).isSome then conversionMap else conversionMap ++ [(s, i)])

/-- Source: `FrameID::FRAME_STR_ENUM_MAP`. -/
def FRAME_STR_ENUM_MAP : List (String × Nat) := emplaceAll FRAME_STR_LIST 0 []

/-- Source: `FrameID::getFrameName(const std::string& frameID)`. -/
def getFrameName (frameID : String) : Nat :=
  match FRAME_STR_ENUM_MAP.lookup frameID with
  | none => FRAME_UNKNOWN_FRAME
  | some e => e

/-- Source: `FrameID::getFrameName(const Frames frameID)`. -/
def getFrameNameOfEnum (frameID : Nat) : String :=
  if frameID ≥ FRAME_STR_LIST.length then
    FRAME_STR_LIST.getD (FRAME_STR_LIST.length - 1) ""
  else FRAME_STR_LIST.getD frameID ""

/-- The class `FrameID`: the members `enumID` and `strID` (`strLen` is
`strID.size()`). -/
structure FrameID where
  enumID : Nat
  strID : String
  deriving DecidableEq, Repr

/-- Source: `FrameID::FrameID(const std::string& frameID)`. -/
def FrameID.ofString (frameID : String) : FrameID :=
  let enumID := getFrameName frameID
  { enumID := enumID, strID := if enumID = FRAME_UNKNOWN_FRAME then "XXXX" else frameID }

/-- Source: `FrameID::FrameID(const Frames frameID)`. -/
def FrameID.ofEnum (frameID : Nat) : FrameID :=
  { enumID := frameID, strID := getFrameNameOfEnum frameID }

/-- Source: `FrameID::V2_FRAME_CONVERSION_MAP`, as written: the values are built by
`FrameID(const char*)`, that is `FrameID.ofString`. -/
def V2_FRAME_CONVERSION_LIST : List (String × String) :=
  [("BUF", "RBUF"), ("COM", "COMM"), ("CNT", "PCNT"), ("CRA", "AENC"), ("ETC", "ETCO"),
   ("EQU", "EQUA"), ("GEO", "GEOB"), ("IPL", "TIPL"), ("LNK", "LINK"), ("MLL", "MLLT"),
   ("PIC", "APIC"), ("POP", "POPM"), ("RVA", "RVAD"), ("REV", "RVRB"), ("STC", "SYTC"),
   ("SLT", "USLT"), ("TT1", "TIT1"), ("TT2", "TIT2"), ("TT3", "TIT3"), ("TP1", "TPE1"),
   ("TP2", "TPE2"), ("TP3", "TPE3"), ("TP4", "TPE4"), ("TCM", "TCOM"), ("TXT", "TOLY"),
   ("TLA", "TLAN"), ("TCO", "TCON"), ("TAL", "TALB"), ("TPA", "TPOS"), ("TRK", "TRCK"),
   ("TRC", "TSRC"), ("TYE", "TYER"), ("TDA", "TDAT"), ("TIM", "TIME"), ("TRD", "TRDA"),
   ("TMT", "TMED"), ("TBP", "TBPM"), ("TEN", "TENC"), ("TSS", "TSSE"), ("TOF", "TOFN"),
   ("TLE", "TLEN"), ("TDY", "TDLY"), ("TKE", "TKEY"), ("TOT", "TOAL"), ("TOA", "TOPE"),
   ("TOL", "TOLY"), ("TOR", "TDOR"), ("TXX", "TXXX"), ("ULT", "USLT"), ("WAF", "WOAF"),
   ("WAR", "WOAR"), ("WCM", "WCOM"), ("WCP", "WCOP"), ("WPB", "WPUB"), ("WXX", "WXXX")]

/-- Source: `FrameID::V2_FRAME_CONVERSION_MAP`: from a v2.2 frame ID to a `FrameID`. -/
def V2_FRAME_CONVERSION_MAP : List (String × FrameID) :=
  V2_FRAME_CONVERSION_LIST.map (fun kv => (kv.1, FrameID.ofString kv.2))

/-- Source: `FrameID::convertOldFrameIDToNew(const std::string& v2FrameID)`. -/
def convertOldFrameIDToNew (v2FrameID : String) : FrameID :=
  match V2_FRAME_CONVERSION_MAP.lookup v2FrameID with
  | none => FrameID.ofEnum FRAME_UNKNOWN_V2_2_FRAME
  | some id => id

/-- Source: `FrameID::FrameID(const std::string& frameID, const ushort version)`. -/
def FrameID.ofStringVersion (frameID : String) (version : Nat) : FrameID :=
  let enumID := if version ≥ 3 then getFrameName frameID else (convertOldFrameIDToNew frameID).enumID
  { enumID := enumID, strID := if enumID = FRAME_UNKNOWN_FRAME then "XXXX" else frameID }

/-- Source: `FrameID::operator[](const size_t pos)`: `strID[pos]`, which is the NUL
character at `pos = strID.size()`. -/
def FrameID.charAt (id : FrameID) (pos : Nat) : Char :=
  id.strID.toList.getD pos (Char.ofNat 0)

/-- Source: `FrameID::unknown()`. -/
def FrameID.unknown (id : FrameID) : Bool :=
  id.enumID == FRAME_UNKNOWN_FRAME

/-! ## Frame factory (`ID3FrameFactory.cpp`) -/

/-- The enum `FrameClass` (declared in `Frames/ID3Frame.hpp`, which is
absent), with the constants that the source names. -/
inductive FrameClass where
  | CLASS_TEXT
  | CLASS_NUMERICAL
  | CLASS_DESCRIPTIVE
  | CLASS_URL
  | CLASS_PICTURE
  | CLASS_PLAY_COUNT
  | CLASS_POPULARIMETER
  | CLASS_EVENT_TIMING
  | CLASS_UNKNOWN
  deriving DecidableEq, Repr

/-- Source: `FrameFactory::frameType(const FrameID& frameID)`. -/
def frameType (frameID : FrameID) : FrameClass :=
  if frameID.unknown then FrameClass.CLASS_UNKNOWN
  else if frameID.enumID = FRAME_PICTURE then FrameClass.CLASS_PICTURE
  else if frameID.enumID = FRAME_COMMENT ∨ frameID.enumID = FRAME_CUSTOM_USER_INFO ∨
      frameID.enumID = FRAME_UNSYNCHRONISED_LYRICS ∨ frameID.enumID = FRAME_TERMS_OF_USE ∨
      frameID.enumID = FRAME_USER_DEFINED_URL then FrameClass.CLASS_DESCRIPTIVE
  else if frameID.enumID = FRAME_BPM ∨ frameID.enumID = FRAME_DATE ∨
      frameID.enumID = FRAME_PLAYLIST_DELAY ∨ frameID.enumID = FRAME_TIME ∨
      frameID.enumID = FRAME_LENGTH ∨ frameID.enumID = FRAME_ORIGINAL_RELEASE_YEAR ∨
      frameID.enumID = FRAME_YEAR then FrameClass.CLASS_NUMERICAL
  else if frameID.enumID = FRAME_INVOLVED_PEOPLE then FrameClass.CLASS_TEXT
  else if frameID.enumID = FRAME_PLAY_COUNT then FrameClass.CLASS_PLAY_COUNT
  else if frameID.enumID = FRAME_POPULARIMETER then FrameClass.CLASS_POPULARIMETER
  else if frameID.enumID = FRAME_EVENT_TIMING_CODES then FrameClass.CLASS_EVENT_TIMING
  else if frameID.charAt 0 = Char.ofNat 84 then FrameClass.CLASS_TEXT
  else if frameID.charAt 0 = Char.ofNat 87 then FrameClass.CLASS_URL
  else FrameClass.CLASS_UNKNOWN

/-- Modelled from the spec: the option bits of `DescriptiveTextFrame` are
declared in `Frames/ID3TextFrame.hpp`, which is absent; section 3 names three
feature flags (has-language, content-is-always-Latin-1, no-description), taken
here as three distinct bits. -/
def OPTION_LANGUAGE : Nat := 1

/-- Modelled from the spec: see `OPTION_LANGUAGE`. -/
def OPTION_LATIN1_TEXT : Nat := 2

/-- Modelled from the spec: see `OPTION_LANGUAGE`. -/
def OPTION_NO_DESCRIPTION : Nat := 4

/-- Source: `FrameFactory::frameOptions(const FrameID& frameID)`. -/
def frameOptions (frameID : FrameID) : Nat :=
  if frameID.enumID = FRAME_UNSYNCHRONISED_LYRICS ∨ frameID.enumID = FRAME_COMMENT then
    OPTION_LANGUAGE
  else if frameID.enumID = FRAME_USER_DEFINED_URL then OPTION_LATIN1_TEXT
  else if frameID.enumID = FRAME_TERMS_OF_USE then OPTION_LANGUAGE ||| OPTION_NO_DESCRIPTION
  else 0

/-- The category of a frame ID in the words of the table of section 4.E, for
the IDs of the registry; an ID that is not in the registry is unknown. -/
def specCategory (s : String) : FrameClass :=
  if s ∉ FRAME_STR_LIST then FrameClass.CLASS_UNKNOWN
  else if s = "APIC" then FrameClass.CLASS_PICTURE
  else if s ∈ ["COMM", "USLT", "USER", "TXXX", "WXXX"] then FrameClass.CLASS_DESCRIPTIVE
  else if s ∈ ["TBPM", "TDAT", "TDLY", "TIME", "TLEN", "TORY", "TYER"] then
    FrameClass.CLASS_NUMERICAL
  else if s = "PCNT" then FrameClass.CLASS_PLAY_COUNT
  else if s = "POPM" then FrameClass.CLASS_POPULARIMETER
  else if s = "ETCO" then FrameClass.CLASS_EVENT_TIMING
  else if s = "IPLS" ∨ s = "TIPL" ∨ s.toList.head? = some (Char.ofNat 84) then
    FrameClass.CLASS_TEXT
  else if s.toList.head? = some (Char.ofNat 87) then FrameClass.CLASS_URL
  else FrameClass.CLASS_UNKNOWN

/-! ## Text frames (`Frames/ID3TextFrame.cpp`) -/

/-- The members of the base class `Frame` (declared in `Frames/ID3Frame.hpp`,
which is absent) that the text frames use. -/
structure Frame where
  id : FrameID
  ID3Ver : Nat
  frameContent : ByteArray
  isNull : Bool
  isEdited : Bool
  deriving DecidableEq, Repr

/-- The class `TextFrame`: a `Frame` with the member `textContent`. -/
structure TextFrame extends Frame where
  textContent : ByteArray
  deriving DecidableEq, Repr

/-- The class `DescriptiveTextFrame`. -/
structure DescriptiveTextFrame extends TextFrame where
  textDescription : ByteArray
  textLanguage : ByteArray
  optionLanguage : Bool
  optionLatin1 : Bool
  optionNoDescription : Bool
  deriving DecidableEq, Repr

/-- Modelled from the spec: the constant `LANGUAGE_SIZE = 3` of section 6
(declared in `ID3Constants.hpp`, which is absent). -/
def LANGUAGE_SIZE : Nat := 3

/-- The loop of `TextFrame::writeBody` that computes `isASCII`: it stops with
`false` at the first character that is at least 0x80. -/
def isASCIILoop : ByteArray → Bool
  | [] => true
  | currentChar :: rest => if currentChar ≥ 0x80 then false else isASCIILoop rest

/-- Source: `TextFrame::writeBody()`. -/
def TextFrame.writeBody (f : TextFrame) : TextFrame :=
  let isASCII := isASCIILoop f.textContent
  let frameContent := f.frameContent ++ [if isASCII then ENCODING_LATIN1 else ENCODING_UTF8]
  { f with frameContent := frameContent ++ f.textContent }

/-- Source: `TextFrame::read()`; `headerSize` is the value of `Frame::headerSize()`,
which is defined outside the source at hand. -/
def TextFrame.read (H : Host) (headerSize : Nat) (f : TextFrame) : TextFrame :=
  if f.frameContent.length > headerSize then
    let encoding := readAt H f.frameContent headerSize
    { f with textContent := getUTF8String H encoding f.frameContent ((headerSize : Int) + 1) END_DEFAULT }
  else
    { f with isNull := true, textContent := [] }

/-- The options of the constructors of `DescriptiveTextFrame`:
`optionLanguage((options & OPTION_LANGUAGE) == OPTION_LANGUAGE)` and so on. -/
def DescriptiveTextFrame.setOptions (f : DescriptiveTextFrame) (options : Nat) :
    DescriptiveTextFrame :=
  { f with
    optionLanguage := (options &&& OPTION_LANGUAGE) == OPTION_LANGUAGE,
    optionLatin1 := (options &&& OPTION_LATIN1_TEXT) == OPTION_LATIN1_TEXT,
    optionNoDescription := (options &&& OPTION_NO_DESCRIPTION) == OPTION_NO_DESCRIPTION }

/-- A length computed in C++ integers and passed as the `size_t` count of
`std::string::substr`. -/
def toSizeT (n : Int) : Nat := (n % 2 ^ 64).toNat

/-- Source: `DescriptiveTextFrame::writeBody()`.  `MAX_TAG_SIZE` (a constant of
`ID3Constants.hpp`), `headerSize` (the value of `Frame::headerSize()`) and
`requiredSize` (the method `requiredSize()`) are defined outside the source at
hand and are parameters. -/
def DescriptiveTextFrame.writeBody (MAX_TAG_SIZE headerSize : Nat)
    (requiredSize : DescriptiveTextFrame → Nat) (f : DescriptiveTextFrame) :
    DescriptiveTextFrame :=
  let languageSize : Int := if f.optionLanguage then LANGUAGE_SIZE else 0
  let f :=
    if requiredSize f > MAX_TAG_SIZE then
      let count := toSizeT ((MAX_TAG_SIZE : Int) - headerSize - languageSize - 2)
      let f1 := { f with textContent := f.textContent.take count }
      if !f1.optionNoDescription && decide (requiredSize f1 > MAX_TAG_SIZE) then
        let count := toSizeT ((MAX_TAG_SIZE : Int) - headerSize - languageSize - 2 - f1.textContent.length)
        { f1 with textDescription := f1.textDescription.take count }
      else f1
    else f
  let f := { f with frameContent := f.frameContent ++ [ENCODING_UTF8] }
  let f :=
    if f.optionLanguage then
      let f := if f.textLanguage.length ≠ LANGUAGE_SIZE then
          { f with textLanguage := [0x78, 0x78, 0x78] } else f
      { f with frameContent := f.frameContent ++ f.textLanguage }
    else f
  let f :=
    if !f.optionNoDescription then
      { f with frameContent := f.frameContent ++ f.textDescription ++ [0] }
    else f
  { f with frameContent := f.frameContent ++ f.textContent }

/-- The loop of `DescriptiveTextFrame::read` that finds the end of the
description,
`for(ulong i = descriptionStart; i + descriptionGap <= frameContent.size(); i += descriptionGap)`;
the result is `descriptionEnd`, which stays 0 when the loop ends without a
`break`.  `fuel` bounds the number of iterations. -/
def findDescriptionEnd (H : Host) (frameContent : ByteArray) (wideChars : Bool)
    (descriptionGap : Nat) : Nat → Nat → Nat
  | 0, _ => 0
  | fuel + 1, i =>
      if i + descriptionGap ≤ frameContent.length then
        if readAt H frameContent i = 0 then
          if wideChars && decide (readAt H frameContent (i + 1) ≠ 0) then
            findDescriptionEnd H frameContent wideChars descriptionGap fuel (i + descriptionGap)
          else i
        else findDescriptionEnd H frameContent wideChars descriptionGap fuel (i + descriptionGap)
      else 0

/-- Source: `DescriptiveTextFrame::read()`; `headerSize` is the value of
`Frame::headerSize()`.  The loop advances `i` by at least 1 from
`descriptionStart`, so `frameContent.size() + 1` iterations are enough. -/
def DescriptiveTextFrame.read (H : Host) (headerSize : Nat) (f : DescriptiveTextFrame) :
    DescriptiveTextFrame :=
  if f.frameContent.length ≤ headerSize + (if f.optionLanguage then 4 else 1) then
    { f with textContent := [], textDescription := [], textLanguage := [], isNull := true }
  else
    let descriptionStart := headerSize + 1
    let encoding := readAt H f.frameContent headerSize
    let wideChars := encoding == ENCODING_UTF16BOM || encoding == ENCODING_UTF16
    let descriptionGap := if wideChars then 2 else 1
    let textLanguage :=
      if f.optionLanguage then (f.frameContent.drop descriptionStart).take 3 else []
    let descriptionStart := if f.optionLanguage then descriptionStart + 3 else descriptionStart
    let descriptionEnd :=
      findDescriptionEnd H f.frameContent wideChars descriptionGap (f.frameContent.length + 1)
        descriptionStart
    let textDescription :=
      if descriptionEnd = 0 then []
      else getUTF8String H encoding f.frameContent descriptionStart descriptionEnd
    let descriptionEnd := if descriptionEnd = 0 then descriptionStart else descriptionEnd
    let contentEncoding := if f.optionLatin1 then ENCODING_LATIN1 else encoding
    let textContent :=
      getUTF8String H contentEncoding f.frameContent ((descriptionEnd : Int) + descriptionGap) END_DEFAULT
    { f with
      textLanguage := textLanguage,
      textDescription := textDescription,
      textContent := textContent }

/-! ### Multi-value text, numerical text frames and URL frames -/

/-- Modelled from the spec: enum constant of `TCOM` (see `FRAMEID`). -/
def FRAME_COMPOSER : Nat := FRAMEID "TCOM"
/-- Modelled from the spec: enum constant of `TEXT` (see `FRAMEID`). -/
def FRAME_LYRICIST : Nat := FRAMEID "TEXT"
/-- Modelled from the spec: enum constant of `TOLY` (see `FRAMEID`). -/
def FRAME_ORIGINAL_LYRICIST : Nat := FRAMEID "TOLY"
/-- Modelled from the spec: enum constant of `TOPE` (see `FRAMEID`). -/
def FRAME_ORIGINAL_ARTIST : Nat := FRAMEID "TOPE"
/-- Modelled from the spec: enum constant of `TPE1` (see `FRAMEID`). -/
def FRAME_ARTIST : Nat := FRAMEID "TPE1"

/-- Source: `TextFrame::stringSeparator()`; the slash is the byte 0x2F, and
`frame()` gives the enum value of the frame's ID. -/
def TextFrame.stringSeparator (f : TextFrame) : Nat :=
  if f.ID3Ver ≤ 3 ∧
      (f.id.enumID = FRAME_COMPOSER ∨ f.id.enumID = FRAME_LYRICIST ∨
       f.id.enumID = FRAME_ORIGINAL_LYRICIST ∨ f.id.enumID = FRAME_ORIGINAL_ARTIST ∨
       f.id.enumID = FRAME_ARTIST) then 0x2F
  else 0

/-- The call `str.find(c, pos)` of `std::string`: the first index at or after
`pos` that holds `c`, or `none` for `npos`. -/
def stringFind (str : ByteArray) (c : Nat) (pos : Nat) : Option Nat :=
  let i := (str.drop pos).indexOf c
  if i < (str.drop pos).length then some (pos + i) else none

/-- The call `str.substr(pos, len)` of `std::string`, for `pos ≤ str.size()`. -/
def substr (str : ByteArray) (pos len : Nat) : ByteArray :=
  (str.drop pos).take len

/-- The loop `while((tokenEnd = textContent.find(SEPARATOR, tokenStart)) != npos)`
of `TextFrame::contents()`; the result is `tokens` and `tokenStart` at the end
of the loop.  `fuel` bounds the number of iterations. -/
def contentsLoop (textContent : ByteArray) (SEPARATOR : Nat) :
    Nat → Nat → List ByteArray → List ByteArray × Nat
  | 0, tokenStart, tokens => (tokens, tokenStart)
  | fuel + 1, tokenStart, tokens =>
      match stringFind textContent SEPARATOR tokenStart with
      | none => (tokens, tokenStart)
      | some tokenEnd =>
          contentsLoop textContent SEPARATOR fuel (tokenEnd + 1)
            (if tokenEnd > tokenStart then
              tokens ++ [substr textContent tokenStart (tokenEnd - tokenStart)]
            else tokens)

/-- Source: `TextFrame::contents() const`.  Every iteration of the loop moves
`tokenStart` past a separator, so `textContent.size() + 1` iterations are
enough. -/
def TextFrame.contents (f : TextFrame) : List ByteArray :=
  if f.textContent = [] then [[]]
  else
    let SEPARATOR := f.stringSeparator
    let (tokens, tokenStart) :=
      contentsLoop f.textContent SEPARATOR (f.textContent.length + 1) 0 []
    let tokens :=
      if tokenStart < f.textContent.length then tokens ++ [f.textContent.drop tokenStart]
      else tokens
    if tokens.length = 0 then [[]] else tokens

/-- Source: `TextFrame::content(const std::string& newContent)`. -/
def TextFrame.setContent (f : TextFrame) (newContent : ByteArray) : TextFrame :=
  { f with textContent := newContent, isEdited := true }

/-- The loop `for(const std::string& currentStr : newContent)` of
`TextFrame::contents(const std::vector<std::string>&)`, on `textContent`. -/
def joinLoop (SEPARATOR : Nat) : List ByteArray → ByteArray → ByteArray
  | [], textContent => textContent
  | currentStr :: rest, textContent =>
      joinLoop SEPARATOR rest
        ((if textContent ≠ [] then textContent ++ [SEPARATOR] else textContent) ++ currentStr)

/-- Source: `TextFrame::contents(const std::vector<std::string>& newContent)`. -/
def TextFrame.setContents (f : TextFrame) (newContent : List ByteArray) : TextFrame :=
  let f := { f with isEdited := true, textContent := [] }
  if newContent.length > 0 then
    { f with textContent := joinLoop f.stringSeparator newContent f.textContent }
  else f

/-- Source: `ID3::numericalString(const std::string& str)`,
`std::all_of(str.begin(), str.end(), ::isdigit)`: `isdigit` holds of the bytes
0x30 to 0x39. -/
def numericalString (str : ByteArray) : Bool :=
  str.all (fun c => decide (0x30 ≤ c ∧ c ≤ 0x39))

/-- The call `std::to_string(value)` on a `long long`: a minus sign for a
negative value, then the decimal digits. -/
def to_string (value : Int) : ByteArray :=
  if value < 0 then 0x2D :: (Nat.toDigits 10 value.natAbs).map Char.toNat
  else (Nat.toDigits 10 value.toNat).map Char.toNat

/-- Source: `TextFrame::TextFrame(const FrameID& frameName, const std::string& value)`;
`base` is the result of the constructor `Frame::Frame(frameName)`, which is
defined outside the source at hand. -/
def TextFrame.ofValue (base : Frame) (value : ByteArray) : TextFrame :=
  { toFrame := base, textContent := value }

/-- Source: `NumericalTextFrame::NumericalTextFrame(const FrameID&, const std::string& value)`. -/
def NumericalTextFrame.ofString (base : Frame) (value : ByteArray) : TextFrame :=
  TextFrame.ofValue base (if numericalString value then value else [])

/-- Source: `NumericalTextFrame::NumericalTextFrame(const FrameID&, const long long value)`. -/
def NumericalTextFrame.ofInt (base : Frame) (value : Int) : TextFrame :=
  TextFrame.ofValue base (to_string value)

/-- Source: `NumericalTextFrame::content(const std::string& newContent)`. -/
def NumericalTextFrame.setContent (f : TextFrame) (newContent : ByteArray) : TextFrame :=
  TextFrame.setContent f (if numericalString newContent then newContent else [])

/-- Source: `NumericalTextFrame::content(long long newContent)`. -/
def NumericalTextFrame.setContentInt (f : TextFrame) (newContent : Int) : TextFrame :=
  TextFrame.setContent f (to_string newContent)

/-- Source: `NumericalTextFrame::contents(const std::vector<std::string>& newContent)`. -/
def NumericalTextFrame.setContents (f : TextFrame) (newContent : List ByteArray) : TextFrame :=
  let validNumericalContent := newContent.filter numericalString
  TextFrame.setContents f validNumericalContent

/-- Source: `NumericalTextFrame::contents(const std::vector<long long>& newContent)`. -/
def NumericalTextFrame.setContentsInt (f : TextFrame) (newContent : List Int) : TextFrame :=
  let f := { f with isEdited := true, textContent := [] }
  if newContent.length > 0 then
    { f with textContent := joinLoop f.stringSeparator (newContent.map to_string) f.textContent }
  else f

/-- Source: `NumericalTextFrame::NumericalTextFrame(const FrameID&, const std::vector<std::string>& values)`. -/
def NumericalTextFrame.ofStrings (base : Frame) (values : List ByteArray) : TextFrame :=
  { NumericalTextFrame.setContents { toFrame := base, textContent := [] } values with
    isEdited := false }

/-- Source: `NumericalTextFrame::NumericalTextFrame(const FrameID&, const std::vector<long long>& values)`. -/
def NumericalTextFrame.ofInts (base : Frame) (values : List Int) : TextFrame :=
  { NumericalTextFrame.setContentsInt { toFrame := base, textContent := [] } values with
    isEdited := false }

/-- Source: `NumericalTextFrame::operator+=(long long val)`,
`textContent += stringSeparator() + std::to_string(val)`. -/
def NumericalTextFrame.appendInt (f : TextFrame) (val : Int) : TextFrame :=
  { f with textContent := f.textContent ++ (f.stringSeparator :: to_string val),
           isEdited := true }

/-- Source: `NumericalTextFrame::operator+=(const std::string& str)`. -/
def NumericalTextFrame.appendString (f : TextFrame) (str : ByteArray) : TextFrame :=
  if numericalString str then
    { f with textContent := f.textContent ++ (f.stringSeparator :: str), isEdited := true }
  else f

/-- Source: `URLTextFrame::read()`; `headerSize` is the value of
`Frame::headerSize()`.  The test `frameContent.size() - 1 > HEADER_SIZE` is
made on `size_t`, where 0 - 1 wraps. -/
def URLTextFrame.read (H : Host) (headerSize : Nat) (f : TextFrame) : TextFrame :=
  if (f.frameContent.length + 2 ^ 64 - 1) % 2 ^ 64 > headerSize then
    { f with textContent := getUTF8String H ENCODING_LATIN1 f.frameContent headerSize END_DEFAULT }
  else
    { f with textContent := [] }

/-- The maximal non-empty runs of `content` that contain no `sep`, in order:
the pieces between separators (`List.splitOn`) that are not empty. -/
def nonEmptyRuns (sep : Nat) (content : ByteArray) : List ByteArray :=
  (content.splitOn sep).filter (fun run => !run.isEmpty)

/-- A text frame with the ID of `idStr`, the version `ver` and the content
`content`. -/
def exampleText (idStr : String) (ver : Nat) (content : ByteArray) : TextFrame :=
  { id := FrameID.ofString idStr, ID3Ver := ver, frameContent := [], isNull := false,
    isEdited := false, textContent := content }

/-! ### Writing text frames, and equality of frames of the text family -/

/-- Source: `URLTextFrame::writeBody()`. -/
def URLTextFrame.writeBody (f : TextFrame) : TextFrame :=
  { f with frameContent := f.frameContent ++ f.textContent }

/-- Modelled from the spec: `requiredSize()` is defined in `Frames/ID3Frame.cpp`,
which is absent.  Section 3 (invariant 3) and section 8 (scenario 6) make it the
size of the frame as written, held against `MAX_TAG_SIZE`: for a text frame the
header, the encoding byte and the content. -/
def TextFrame.requiredSize (headerSize : Nat) (f : TextFrame) : Nat :=
  headerSize + 1 + f.textContent.length

/-- A frame of the text family with its dynamic class: the classes
`NumericalTextFrame`, `DescriptiveTextFrame` and `URLTextFrame` derive from
`TextFrame` (their constructors and methods call `TextFrame::TextFrame`,
`TextFrame::read`, `TextFrame::content`). -/
inductive TextFamily where
  | text (f : TextFrame) : TextFamily
  | numerical (f : TextFrame) : TextFamily
  | descriptive (f : DescriptiveTextFrame) : TextFamily
  | url (f : TextFrame) : TextFamily
  deriving DecidableEq, Repr

/-- The `TextFrame` part of a frame of the text family. -/
def TextFamily.toTextFrame : TextFamily → TextFrame
  | TextFamily.text f => f
  | TextFamily.numerical f => f
  | TextFamily.descriptive f => f.toTextFrame
  | TextFamily.url f => f

/-- Source: the methods `type()` of the four classes. -/
def TextFamily.type : TextFamily → FrameClass
  | TextFamily.text _ => FrameClass.CLASS_TEXT
  | TextFamily.numerical _ => FrameClass.CLASS_NUMERICAL
  | TextFamily.descriptive _ => FrameClass.CLASS_DESCRIPTIVE
  | TextFamily.url _ => FrameClass.CLASS_URL

/-- The cast `dynamic_cast<const TextFrame* const>(frame)`: every class of the
family is a `TextFrame`. -/
def TextFamily.castTextFrame (frame : TextFamily) : Option TextFrame :=
  some frame.toTextFrame

/-- The cast `dynamic_cast<const NumericalTextFrame* const>(frame)`. -/
def TextFamily.castNumericalTextFrame : TextFamily → Option TextFrame
  | TextFamily.numerical f => some f
  | _ => none

/-- The cast `dynamic_cast<const DescriptiveTextFrame* const>(frame)`. -/
def TextFamily.castDescriptiveTextFrame : TextFamily → Option DescriptiveTextFrame
  | TextFamily.descriptive f => some f
  | _ => none

/-- The cast `dynamic_cast<const URLTextFrame* const>(frame)`. -/
def TextFamily.castURLTextFrame : TextFamily → Option TextFrame
  | TextFamily.url f => some f
  | _ => none

/-- The first test of the four `operator==`:
`frame == nullptr || frame->frame() != id || isNull != frame->null()`, for a
pointer that is not null; `FrameID::operator!=` compares the enum values. -/
def idOrNullDiffers (self : TextFrame) (frame : TextFamily) : Bool :=
  decide (frame.toTextFrame.id.enumID ≠ self.id.enumID) ||
    decide (self.isNull ≠ frame.toTextFrame.isNull)

/-- Source: `TextFrame::operator==(const Frame* const frame)`, on a pointer to
a frame of the text family; `none` is the null pointer. -/
def TextFrame.eqFrame (self : TextFrame) (frame : Option TextFamily) : Bool :=
  match frame with
  | none => false
  | some frame =>
    if idOrNullDiffers self frame then false
    else
      match frame.castTextFrame with
      | none => false
      | some castFrame =>
        if self.isNull then true else decide (self.textContent = castFrame.textContent)

/-- Source: `NumericalTextFrame::operator==(const Frame* const frame)`. -/
def NumericalTextFrame.eqFrame (self : TextFrame) (frame : Option TextFamily) : Bool :=
  match frame with
  | none => false
  | some frame =>
    if idOrNullDiffers self frame then false
    else
      match frame.castNumericalTextFrame with
      | none => false
      | some castFrame =>
        if self.isNull then true else decide (self.textContent = castFrame.textContent)

/-- Source: `DescriptiveTextFrame::operator==(const Frame* const frame)`. -/
def DescriptiveTextFrame.eqFrame (self : DescriptiveTextFrame) (frame : Option TextFamily) :
    Bool :=
  match frame with
  | none => false
  | some frame =>
    if idOrNullDiffers self.toTextFrame frame then false
    else
      match frame.castDescriptiveTextFrame with
      | none => false
      | some castFrame =>
        if self.isNull then true
        else decide (self.textContent = castFrame.textContent) &&
          decide (self.textDescription = castFrame.textDescription) &&
          decide (self.textLanguage = castFrame.textLanguage)

/-- Source: `URLTextFrame::operator==(const Frame* const frame)`. -/
def URLTextFrame.eqFrame (self : TextFrame) (frame : Option TextFamily) : Bool :=
  match frame with
  | none => false
  | some frame =>
    if idOrNullDiffers self frame then false
    else
      match frame.castURLTextFrame with
      | none => false
      | some castFrame =>
        if self.isNull then true else decide (self.textContent = castFrame.textContent)

/-- The expression `a == &b` on frames of the text family: `operator==` is
the method of the class of `a`. -/
def TextFamily.eq (a b : TextFamily) : Bool :=
  match a with
  | TextFamily.text f => TextFrame.eqFrame f (some b)
  | TextFamily.numerical f => NumericalTextFrame.eqFrame f (some b)
  | TextFamily.descriptive f => DescriptiveTextFrame.eqFrame f (some b)
  | TextFamily.url f => URLTextFrame.eqFrame f (some b)

/-- The payload of a frame of the text family in the words of section 4.D:
the content, and for a descriptive frame also the description and the
language. -/
def TextFamily.payload : TextFamily → ByteArray × ByteArray × ByteArray
  | TextFamily.descriptive f => (f.textContent, f.textDescription, f.textLanguage)
  | a => (a.toTextFrame.textContent, [], [])

/-- Equality of two frames of the text family in the words of the
specification: the same frame ID (by enum value), the same category, and
either both null or neither null and equal payloads. -/
def TextFamily.specEq (a b : TextFamily) : Prop :=
  a.toTextFrame.id.enumID = b.toTextFrame.id.enumID ∧ a.type = b.type ∧
  ((a.toTextFrame.isNull = true ∧ b.toTextFrame.isNull = true) ∨
   (a.toTextFrame.isNull = false ∧ b.toTextFrame.isNull = false ∧ a.payload = b.payload))

/-! ## Reading a frame from a file (`FrameFactory::create`) -/

/-- Modelled from the spec: the constant `HEADER_BYTE_SIZE` is declared in
`ID3Constants.hpp`, which is absent; section 6 gives the v2.3/v2.4 frame header
10 bytes (4-byte ID, 4-byte size, 2-byte flags). -/
def HEADER_BYTE_SIZE : Nat := 10

/-- Modelled from the spec: the value of `sizeof(V2FrameHeader)` (the struct is
declared in a header that is absent); section 6 gives the v2.2 frame header 6
bytes (3-byte ID, 3-byte size). -/
def OLD_FRAME_HEADER_BYTE_SIZE : Nat := 6

/-- Modelled from the spec: the constant
`Frame::FLAG1_DISCARD_UPON_TAG_ALTER_IF_UNKNOWN_V4` is declared in
`Frames/ID3Frame.hpp`, which is absent; section 6 gives the flag `0x4000` of the
two flag bytes, that is 0x40 in the first flag byte. -/
def FLAG1_DISCARD_UPON_TAG_ALTER_IF_UNKNOWN_V4 : Nat := 0x40

/-- A `std::istream` on a file: the bytes of the file, the read position and
the state bits (`failbit` stands for `failbit` or `badbit`). -/
structure IStream where
  content : ByteArray
  pos : Nat
  eofbit : Bool
  failbit : Bool
  deriving DecidableEq, Repr

/-- The call `stream.good()`. -/
def IStream.good (s : IStream) : Bool := !s.eofbit && !s.failbit

/-- The call `stream.fail()`. -/
def IStream.fail (s : IStream) : Bool := s.failbit

/-- The call `stream.seekg(pos, std::ifstream::beg)` after the C++11 standard
library: `eofbit` is cleared first, and a stream that has failed stays where
it is; a file stream can be positioned anywhere, also past the end. -/
def IStream.seekg (s : IStream) (pos : Nat) : IStream :=
  let s := { s with eofbit := false }
  if s.failbit then s else { s with pos := pos }

/-- The call `stream.read(buf + off, n)` after the C++ standard library: a
stream that is not good reads nothing and fails; otherwise the bytes available
are copied, and `eofbit` and `failbit` are set when they are fewer than `n`.
The result is the stream and the buffer. -/
def IStream.read (s : IStream) (buf : ByteArray) (off n : Nat) : IStream × ByteArray :=
  if s.eofbit || s.failbit then ({ s with failbit := true }, buf)
  else
    let got := (s.content.drop s.pos).take n
    let buf := buf.take off ++ got ++ buf.drop (off + got.length)
    if got.length < n then
      ({ s with pos := s.pos + got.length, eofbit := true, failbit := true }, buf)
    else ({ s with pos := s.pos + n }, buf)

/-- Source: `ID3::terminatedstring(const char* str, std::string::size_type maxlength)`;
`str` is the memory from the pointer on, which holds at least `maxlength`
bytes, so that the first `min(strlen(str), maxlength)` bytes are the bytes
before the first NUL among the first `maxlength`. -/
def terminatedstring (str : ByteArray) (maxlength : Nat) : ByteArray :=
  (str.takeWhile (fun c => c != 0)).take maxlength

/-- A `std::string` of bytes as the text of a frame ID. -/
def stdString (bytes : ByteArray) : String :=
  String.mk (bytes.map Char.ofNat)

/-- The members of the class `FrameFactory`; `musicFile` is `none` for the
null pointer. -/
structure FrameFactory where
  musicFile : Option IStream
  ID3Ver : Nat
  ID3Size : Nat
  deriving DecidableEq, Repr

/-- The frame objects that `FrameFactory::create` allocates, by the
constructor call that makes them; the frame classes themselves are defined
outside the source at hand. -/
inductive FramePtr where
  /-- The call `new UnknownFrame()`. -/
  | unknownFrame : FramePtr
  /-- The call `new UnknownFrame(id)`. -/
  | unknownFrameOf (id : FrameID) : FramePtr
  /-- The call `new C(id, ID3Ver, frameBytes)` (with `frameOptions(id)` for a
  descriptive frame), `C` being the frame class that the `switch` of `create`
  picks for `frameType`. -/
  | frameOf (frameType : FrameClass) (id : FrameID) (ID3Ver : Nat) (frameBytes : ByteArray) :
      FramePtr
  deriving DecidableEq, Repr

/-- Modelled from the spec: the class `UnknownFrame` is defined in
`Frames/ID3Frame.cpp`, which is absent.  Sections 4.E, 7 and 9 make the frame
substituted for a malformed frame an Unknown frame that is null: the result of
`new UnknownFrame()`.  Whether the other frames are null is decided by
constructors outside the source at hand (`none`). -/
def FramePtr.null? : FramePtr → Option Bool
  | FramePtr.unknownFrame => some true
  | _ => none

/-- The bytes of a local header struct of `n` bytes before anything is read
into it. -/
def uninitHeader (H : Host) (n : Nat) : ByteArray :=
  (List.range n).map (fun i => H.uninit i % 256)

/-- The loop `for(ushort i = 0; i < 4; i++) frameBytes[i + off] = src[i]` of
`FrameFactory::create`, for a source of four bytes. -/
def copyFour (frameBytes : ByteArray) (off : Nat) (src : Nat → Nat) : ByteArray :=
  (((frameBytes.set off (src 0)).set (off + 1) (src 1)).set (off + 2) (src 2)).set (off + 3) (src 3)

/-- Source: `FrameFactory::create(const ulong readpos)`.  The header structs are
`FrameHeader` (`id[4]`, `size[4]`, `flags[2]`) and `V2FrameHeader` (`id[3]`,
`size[3]`), after section 6. -/
def create (H : Host) (ff : FrameFactory) (readpos : Nat) : FramePtr :=
  match ff.musicFile with
  | none => FramePtr.unknownFrame
  | some musicFile =>
    if readpos + HEADER_BYTE_SIZE > ff.ID3Size ∨ musicFile.good = false then
      FramePtr.unknownFrame
    else
      let musicFile := musicFile.seekg readpos
      if musicFile.fail then FramePtr.unknownFrame
      else if ff.ID3Ver ≥ 3 then
        let (musicFile, header) :=
          musicFile.read (uninitHeader H HEADER_BYTE_SIZE) 0 HEADER_BYTE_SIZE
        let frameSize := byteIntVal H (some ((header.drop 4).take 4)) 4 (decide (ff.ID3Ver ≥ 4))
        if frameSize = 0 ∨ frameSize + HEADER_BYTE_SIZE > ff.ID3Size then
          FramePtr.unknownFrame
        else
          let id := FrameID.ofString (stdString (terminatedstring header 4))
          let frameType := frameType id
          let frameBytes := List.replicate (frameSize + HEADER_BYTE_SIZE) 0
          let musicFile := musicFile.seekg readpos
          if musicFile.fail then FramePtr.unknownFrameOf id
          else
            let (_, frameBytes) := musicFile.read frameBytes 0 (frameSize + HEADER_BYTE_SIZE)
            FramePtr.frameOf frameType id ff.ID3Ver frameBytes
      else
        let (musicFile, header) :=
          musicFile.read (uninitHeader H OLD_FRAME_HEADER_BYTE_SIZE) 0 OLD_FRAME_HEADER_BYTE_SIZE
        let frameSize := byteIntVal H (some ((header.drop 3).take 3)) 3 false
        if frameSize = 0 ∨ frameSize + OLD_FRAME_HEADER_BYTE_SIZE > ff.ID3Size then
          FramePtr.unknownFrame
        else
          let id := FrameID.ofStringVersion (stdString (terminatedstring header 4)) ff.ID3Ver
          let frameType := frameType id
          let frameBytes := List.replicate (frameSize + HEADER_BYTE_SIZE) 0
          let musicFile := musicFile.seekg readpos
          if musicFile.fail then FramePtr.unknownFrameOf id
          else
            let (_, frameBytes) :=
              musicFile.read frameBytes 4 (frameSize + OLD_FRAME_HEADER_BYTE_SIZE)
            let frameBytes := copyFour frameBytes 0 (fun i => (id.charAt i).toNat % 256)
            let v4Size := intToByteArray H frameSize 4 true
            let frameBytes := copyFour frameBytes 4 (fun i => readAt H v4Size i)
            let frameBytes := frameBytes.set 8 FLAG1_DISCARD_UPON_TAG_ALTER_IF_UNKNOWN_V4
            let frameBytes := frameBytes.set 9 0
            FramePtr.frameOf frameType id ff.ID3Ver frameBytes

/-- A file stream at its start, in good state. -/
def openStream (content : ByteArray) : IStream :=
  { content := content, pos := 0, eofbit := false, failbit := false }

/-! ## Auxiliary definitions for stating results -/

/-- The `n` big-endian digits of `val` in base `2 ^ shiftSize`, each reduced
modulo `modVal`. -/
def digitsBE (shiftSize modVal : Nat) : Nat → Nat → ByteArray
  | 0, _ => []
  | n + 1, val => digitsBE shiftSize modVal n (val / 2 ^ shiftSize) ++ [val % modVal]

/-- The value of a big-endian digit string in base `2 ^ shiftSize`. -/
def beValue (shiftSize : Nat) (bs : ByteArray) : Nat :=
  bs.foldl (fun v c => v * 2 ^ shiftSize + c) 0

/-- A host whose shift instruction takes the count modulo 64 (x86-64,
AArch64), whose out-of-range and uninitialised reads give 0, whose
conversion is `utf16UnitsToUTF8`, whose `atoi` gives `INT_MAX` for a
number that does not fit, and on which a write one element past a heap buffer
does no harm. -/
def shiftMod64Host : Host where
  shlUndef := fun k => 2 ^ (k % 64)
  oob := fun _ => 0
  toUTF8 := utf16UnitsToUTF8
  uninit := fun _ => 0
  atoiOverflow := fun _ => 2 ^ 31 - 1
  heapOverflow := fun toReturn => toReturn

/-- A host that differs from `shiftMod64Host` in the write past a heap buffer:
the function that made it returns no text (the allocator finds the block
damaged). -/
def heapCheckHost : Host :=
  { shiftMod64Host with heapOverflow := fun _ => [] }

/-- A COMM frame: ten header bytes, content `Hi`, description `d`, language `eng`. -/
def exampleCOMM : DescriptiveTextFrame :=
  { id := FrameID.ofEnum 3, ID3Ver := 4, frameContent := List.replicate 10 0,
    isNull := false, isEdited := false, textContent := [0x48, 0x69],
    textDescription := [0x64], textLanguage := [0x65, 0x6E, 0x67],
    optionLanguage := false, optionLatin1 := false, optionNoDescription := false }

/-- A USER frame: ten header bytes, content `ab`, no description, language `eng`. -/
def exampleUSER : DescriptiveTextFrame :=
  { id := FrameID.ofEnum 83, ID3Ver := 4, frameContent := List.replicate 10 0,
    isNull := false, isEdited := false, textContent := [0x61, 0x62],
    textDescription := [], textLanguage := [0x65, 0x6E, 0x67],
    optionLanguage := false, optionLatin1 := false, optionNoDescription := false }

/-- A WXXX frame: ten header bytes, the content `C3 A9` (the UTF-8 bytes of
U+00E9), the description `d`, no language. -/
def exampleWXXX : DescriptiveTextFrame :=
  { id := FrameID.ofString "WXXX", ID3Ver := 4, frameContent := List.replicate 10 0,
    isNull := false, isEdited := false, textContent := [0xC3, 0xA9],
    textDescription := [0x64], textLanguage := [],
    optionLanguage := false, optionLatin1 := false, optionNoDescription := false }

/-- A frame with the bytes and the options of `f` and no decoded field, as a
frame is before `read()`. -/
def DescriptiveTextFrame.unread (f : DescriptiveTextFrame) : DescriptiveTextFrame :=
  { f with textContent := [], textDescription := [], textLanguage := [] }

/-- A file of 40 bytes: 20 bytes, then at offset 20 a v2.3 frame TIT2 of size 5
(encoding byte 0 and the text abcd), then 5 more bytes. -/
def exampleFile23 : ByteArray :=
  List.replicate 20 0xAA ++ [0x54, 0x49, 0x54, 0x32, 0, 0, 0, 5, 0, 0, 0, 0x61, 0x62, 0x63, 0x64]
    ++ List.replicate 5 0xBB

/-- A v2.2 file: frame TT2 of size 6 at offset 0. -/
def exampleFile22 : ByteArray :=
  [0x54, 0x54, 0x32, 0, 0, 6, 0, 0x48, 0x65, 0x6C, 0x6C, 0x6F]

/-- A v2.4 file: a TIT2 frame header with size bytes 00 00 01 00 at offset 0,
followed by 130 body bytes. -/
def exampleFile24 : ByteArray :=
  [0x54, 0x49, 0x54, 0x32, 0, 0, 1, 0, 0, 0] ++ List.replicate 130 0x41

/-! ## The tag assembler (`ID3Tag.cpp`)

`ID3Tag.cpp` belongs to an earlier revision of the library than the frame
classes above: it stores objects of a class `Frame` that is built from a file
position or from a text, in a `std::unordered_map` keyed by the frame ID.  That
class, the constants and the genre table are defined outside the source at
hand. -/

/-- Modelled from the spec: `V1::BYTE_SIZE`, the size of the v1 trailer
(section 6; the constant is declared in an absent header). -/
def V1.BYTE_SIZE : Nat := 128

/-- Modelled from the spec: `V1::EXTENDED_BYTE_SIZE`, the size of the
v1-Extended trailer (section 6). -/
def V1.EXTENDED_BYTE_SIZE : Nat := 227

/-- Modelled from the spec: `MIN_SUPPORTED_VERSION = 2` (section 6). -/
def MIN_SUPPORTED_VERSION : Nat := 2

/-- Modelled from the spec: `MAX_SUPPORTED_VERSION = 4` (section 6). -/
def MAX_SUPPORTED_VERSION : Nat := 4

/-- Modelled from the spec: `SUPPORTED_MINOR_VERSION = 0` (section 6). -/
def SUPPORTED_MINOR_VERSION : Nat := 0

/-- Modelled from the spec: the header flag of unsynchronisation, `0x80`
(section 4.F, step 3). -/
def FLAG_UNSYNCHRONISATION : Nat := 0x80

/-- Modelled from the spec: the header flag of the extended header, `0x40`. -/
def FLAG_EXT_HEADER : Nat := 0x40

/-- Modelled from the spec: the experimental header flag, `0x20`. -/
def FLAG_EXPERIMENTAL : Nat := 0x20

/-- Modelled from the spec: the header flag of the footer, `0x10`. -/
def FLAG_FOOTER : Nat := 0x10

/-- An object of the class `Frame` as `ID3Tag.cpp` uses it: the values of its
methods `frame()`, `null()`, `text()` and `end()`. -/
structure FrameObj where
  frame : String
  null : Bool
  text : ByteArray
  end_ : Nat
  deriving DecidableEq, Repr

/-- What `ID3Tag.cpp` takes from the absent files of its revision. -/
structure TagDeps where
  /-- The constructor `Frame(file, readpos, version, filesize)`, with the
  stream as the call leaves it. -/
  ofFile : IStream → Nat → Nat → Nat → FrameObj × IStream
  /-- The constructor `Frame(frameName, textContent)`. -/
  ofText : String → ByteArray → FrameObj
  /-- The table `GENRES` of the v1 genres. -/
  GENRES : List ByteArray

/-- Source: `Tag::TagsOnFile`. -/
structure TagsOnFile where
  v1 : Bool
  v1_1 : Bool
  v1Extended : Bool
  v2 : Bool
  deriving DecidableEq, Repr

/-- Source: `Tag::TagInfo`, the members that `ID3Tag.cpp` sets. -/
structure TagInfo where
  majorVer : Nat
  minorVer : Nat
  flagUnsynchronisation : Bool
  flagExtHeader : Bool
  flagExperimental : Bool
  flagFooter : Bool
  size : Nat
  deriving DecidableEq, Repr

/-- The members of the class `Tag`; `frames` is the `std::unordered_map` from
frame ID to `Frame`, as a list of its entries. -/
structure Tag where
  filesize : Nat
  isNull : Bool
  tagsSet : TagsOnFile
  v2TagInfo : TagInfo
  frames : List (String × FrameObj)
  deriving DecidableEq, Repr

/-- Source: `Tag::TagsOnFile::TagsOnFile()`. -/
def TagsOnFile.new : TagsOnFile :=
  { v1 := false, v1_1 := false, v1Extended := false, v2 := false }

/-- Source: `Tag::TagInfo::TagInfo()`; `-1` in a `ushort` is 65535 and in a
`ulong` is `2 ^ 64 - 1`. -/
def TagInfo.new : TagInfo :=
  { majorVer := 65535, minorVer := 65535, flagUnsynchronisation := false,
    flagExtHeader := false, flagExperimental := false, flagFooter := false,
    size := 2 ^ 64 - 1 }

/-- Source: `Tag::Tag()`.  The constructor leaves `filesize` as it is found;
both callers set it before it is read. -/
def Tag.new (filesize : Nat) : Tag :=
  { filesize := filesize, isNull := true, tagsSet := TagsOnFile.new, v2TagInfo := TagInfo.new,
    frames := [] }

/-- The statement `frames[key] = frame` on the map. -/
def mapAssign (frames : List (String × FrameObj)) (key : String) (frame : FrameObj) :
    List (String × FrameObj) :=
  frames.filter (fun kv => kv.1 != key) ++ [(key, frame)]

/-- The call `stream.seekg(off, std::ifstream::end)`: as `seekg`, and a
position before the start of the file makes the call fail. -/
def IStream.seekgEnd (s : IStream) (off : Int) : IStream :=
  let s := { s with eofbit := false }
  if s.failbit then s
  else if (s.content.length : Int) + off < 0 then { s with failbit := true }
  else { s with pos := ((s.content.length : Int) + off).toNat }

/-- The call `stream.tellg()` converted to `ulong`: the position, or -1 when
the stream has failed. -/
def IStream.tellg (s : IStream) : Nat :=
  if s.failbit then 2 ^ 64 - 1 else s.pos

/-- The bytes of a local object of `n` bytes that was not initialised, found
at the offset `off` of the locals. -/
def uninitBytes (H : Host) (off n : Nat) : ByteArray :=
  (List.range n).map (fun i => H.uninit (off + i) % 256)

/-- Source: `ID3::V1::getGenreString(ushort genre)`, with the table as a
parameter. -/
def getGenreString (GENRES : List ByteArray) (genre : Nat) : ByteArray :=
  if genre < GENRES.length then GENRES.getD genre [] else []

/-- The body of `Tag::setTags(const V1::Tag& tags, bool zeroCheck)` after its
first test; `tags` holds the 128 bytes of the struct (`header[3]`, `title[30]`,
`artist[30]`, `album[30]`, `year[4]`, `comment[30]`, `genre`). -/
def Tag.setTagsV1Fields (D : TagDeps) (t : Tag) (tags : ByteArray) : Tag :=
  let t := { t with tagsSet := { t.tagsSet with v1 := true } }
  let frames := t.frames
  let frames := mapAssign frames "TIT2" (D.ofText "TIT2" (terminatedstring (tags.drop 3) 30))
  let frames := mapAssign frames "TPE1" (D.ofText "TPE1" (terminatedstring (tags.drop 33) 30))
  let frames := mapAssign frames "TALB" (D.ofText "TALB" (terminatedstring (tags.drop 63) 30))
  let frames := mapAssign frames "TYER" (D.ofText "TYER" (terminatedstring (tags.drop 93) 4))
  let frames := mapAssign frames "TCON" (D.ofText "TCON" (getGenreString D.GENRES (tags.getD 127 0)))
  { t with frames := frames }

/-- The body of `Tag::setTags(const V1::P1Tag& tags, bool zeroCheck)` after
its first test; `tags` holds the 128 bytes of the struct (`header[3]`,
`title[30]`, `artist[30]`, `album[30]`, `year[4]`, `comment[28]`, `zero`,
`trackNum`, `genre`). -/
def Tag.setTagsP1Fields (D : TagDeps) (t : Tag) (tags : ByteArray) : Tag :=
  let t := { t with tagsSet := { t.tagsSet with v1_1 := true } }
  let frames := t.frames
  let frames := mapAssign frames "TIT2" (D.ofText "TIT2" (terminatedstring (tags.drop 3) 30))
  let frames := mapAssign frames "TPE1" (D.ofText "TPE1" (terminatedstring (tags.drop 33) 30))
  let frames := mapAssign frames "TALB" (D.ofText "TALB" (terminatedstring (tags.drop 63) 30))
  let frames := mapAssign frames "TYER" (D.ofText "TYER" (terminatedstring (tags.drop 93) 4))
  let frames := mapAssign frames "TRCK" (D.ofText "TRCK" (to_string (tags.getD 126 0 : Nat)))
  let frames := mapAssign frames "TCON" (D.ofText "TCON" (getGenreString D.GENRES (tags.getD 127 0)))
  { t with frames := frames }

/-- Source: `Tag::setTags(const V1::P1Tag& tags, bool zeroCheck)`; the call
`setTags(correctID3VerTags, false)` on the copy runs the body of the other
overload. -/
def Tag.setTagsP1 (D : TagDeps) (t : Tag) (tags : ByteArray) (zeroCheck : Bool) : Tag :=
  if zeroCheck && decide (tags.getD 125 0 ≠ 0) then Tag.setTagsV1Fields D t tags
  else Tag.setTagsP1Fields D t tags

/-- Source: `Tag::setTags(const V1::Tag& tags, bool zeroCheck)`; `comment[28]`
is byte 125 of the struct, and the call `setTags(correctID3VerTags, false)` on
the copy runs the body of the other overload. -/
def Tag.setTags (D : TagDeps) (t : Tag) (tags : ByteArray) (zeroCheck : Bool) : Tag :=
  if zeroCheck && decide (tags.getD 125 0 = 0) then Tag.setTagsP1 D t tags false
  else Tag.setTagsV1Fields D t tags

/-- Source: `Tag::setTags(const V1::ExtendedTag& tags)`; `tags` holds the 227
bytes of the struct (`header[4]`, `title[60]`, `artist[60]`, `album[60]`,
`speed`, `genre[30]`, `startTime[6]`, `endTime[6]`). -/
def Tag.setTagsExtended (D : TagDeps) (t : Tag) (tags : ByteArray) : Tag :=
  let t := { t with tagsSet := { t.tagsSet with v1Extended := true } }
  let frames := t.frames
  let frames := mapAssign frames "TIT2" (D.ofText "TIT2" (terminatedstring (tags.drop 4) 60))
  let frames := mapAssign frames "TPE1" (D.ofText "TPE1" (terminatedstring (tags.drop 64) 60))
  let frames := mapAssign frames "TALB" (D.ofText "TALB" (terminatedstring (tags.drop 124) 60))
  let frames := mapAssign frames "TCON" (D.ofText "TCON" (terminatedstring (tags.drop 185) 30))
  { t with frames := frames }

/-- The block of `Tag::getFileV1` that reads the extended tag,
`if(filesize > V1::BYTE_SIZE + V1::EXTENDED_BYTE_SIZE) { ... }`: the result is
the stream and the locals `extTags` and `extTagsSet`, which are not initialised
before the block. -/
def readExtendedTag (H : Host) (filesize : Nat) (file : IStream) : IStream × ByteArray × Bool :=
  let extTags := uninitBytes H V1.BYTE_SIZE V1.EXTENDED_BYTE_SIZE
  let extTagsSet := decide (H.uninit (V1.BYTE_SIZE + V1.EXTENDED_BYTE_SIZE) % 256 ≠ 0)
  if filesize > V1.BYTE_SIZE + V1.EXTENDED_BYTE_SIZE then
    let file := file.seekgEnd (-(V1.BYTE_SIZE : Int) - (V1.EXTENDED_BYTE_SIZE : Int))
    let extTagsSet := !file.fail
    let r := if extTagsSet then file.read extTags 0 V1.EXTENDED_BYTE_SIZE else (file, extTags)
    let extTagsSet := decide (r.2.take 4 = [0x54, 0x41, 0x47, 0x2B])
    (r.1, r.2, extTagsSet)
  else (file, extTags, extTagsSet)

/-- Source: `Tag::getFileV1(std::ifstream& file)`.  The local `tags` is not
initialised; the offsets are those of `-V1::BYTE_SIZE` and
`-V1::BYTE_SIZE-V1::EXTENDED_BYTE_SIZE` as signed values.  The result is the
tag and the stream. -/
def Tag.getFileV1 (H : Host) (D : TagDeps) (t : Tag) (file : IStream) : Tag × IStream :=
  if t.filesize < V1.BYTE_SIZE then (t, file)
  else
    let file := file.seekgEnd (-(V1.BYTE_SIZE : Int))
    if file.fail then (t, file)
    else
      let r := file.read (uninitBytes H 0 V1.BYTE_SIZE) 0 V1.BYTE_SIZE
      let tags := r.2
      if tags.take 3 ≠ [0x54, 0x41, 0x47] then (t, r.1)
      else
        let ext := readExtendedTag H t.filesize r.1
        let t := Tag.setTags D t tags true
        let t := if ext.2.2 then Tag.setTagsExtended D t ext.2.1 else t
        (t, ext.1)

/-- The loop `while(frameStartPos + 10 < v2TagInfo.size && frameStartPos < filesize)`
of `Tag::getFileV2`, on the map `frames`; `fuel` bounds the number of
iterations.  `frameStartPos` is an `int` in the source and is taken without
wrap. -/
def frameLoop (D : TagDeps) (majorVer filesize size : Nat) :
    Nat → IStream → Nat → List (String × FrameObj) → List (String × FrameObj)
  | 0, _, _, frames => frames
  | fuel + 1, file, frameStartPos, frames =>
      if frameStartPos + 10 < size ∧ frameStartPos < filesize then
        let r := D.ofFile file frameStartPos majorVer filesize
        let frame := r.1
        let frameStartPos := frame.end_
        if frame.null then frames
        else frameLoop D majorVer filesize size fuel r.2 frameStartPos
          (mapAssign frames frame.frame frame)
      else frames

/-- The value of a C++ `bool` in an integer expression. -/
def boolToNat (b : Bool) : Nat := if b then 1 else 0

/-- Modelled from the spec: `uchar_arr_binary_num(array, size, synchsafe)` is
the integer reader of the revision of `ID3Tag.cpp` and is absent; section 4.B
and section 4.F (steps 3 and 4) make it the reader of big-endian integers that
`byteIntVal` is. -/
def uchar_arr_binary_num (H : Host) (array : ByteArray) (size : Int) (synchsafe : Bool) : Nat :=
  byteIntVal H (some array) size synchsafe

/-- The four flag tests of `Tag::getFileV2`,
`if((unsigned int)tagsHeader.flags & FLAG == FLAG) v2TagInfo.flag = true`: the
comparison binds before the `&`. -/
def setHeaderFlags (info : TagInfo) (flags : Nat) : TagInfo :=
  let info := if flags &&& boolToNat (FLAG_UNSYNCHRONISATION == FLAG_UNSYNCHRONISATION) ≠ 0
    then { info with flagUnsynchronisation := true } else info
  let info := if flags &&& boolToNat (FLAG_EXT_HEADER == FLAG_EXT_HEADER) ≠ 0
    then { info with flagExtHeader := true } else info
  let info := if flags &&& boolToNat (FLAG_EXPERIMENTAL == FLAG_EXPERIMENTAL) ≠ 0
    then { info with flagExperimental := true } else info
  if flags &&& boolToNat (FLAG_FOOTER == FLAG_FOOTER) ≠ 0
    then { info with flagFooter := true } else info

/-- The block `if(v2TagInfo.flagExtHeader) { ... }` of `Tag::getFileV2`: the
result is the stream and `frameStartPos`.  The local `extHeader` is not
initialised, and the size of the extended header is read from its first four
bytes. -/
def skipExtHeader (H : Host) (info : TagInfo) (file : IStream) (frameStartPos : Nat) :
    IStream × Nat :=
  if info.flagExtHeader then
    let file := file.seekg frameStartPos
    if !file.fail then
      let r := file.read (uninitBytes H HEADER_BYTE_SIZE HEADER_BYTE_SIZE) 0 HEADER_BYTE_SIZE
      let extSize := uchar_arr_binary_num H (r.2.take 4) 4 (decide (info.majorVer ≥ 4))
      (r.1, frameStartPos + HEADER_BYTE_SIZE + extSize)
    else (file, frameStartPos)
  else (file, frameStartPos)

/-- The statements of `Tag::getFileV2` from the test `v2TagInfo.size > filesize`
to the end: the extended header is skipped and the frames are read. -/
def Tag.readFrames (H : Host) (D : TagDeps) (fuel : Nat) (t : Tag) (file : IStream) :
    Tag × IStream :=
  if t.v2TagInfo.size > t.filesize then
    if !t.tagsSet.v1 && !t.tagsSet.v1_1 && !t.tagsSet.v1Extended then
      ({ t with isNull := true }, file)
    else (t, file)
  else
    let frameStartPos := HEADER_BYTE_SIZE
    let r := skipExtHeader H t.v2TagInfo file frameStartPos
    let frames :=
      frameLoop D t.v2TagInfo.majorVer t.filesize t.v2TagInfo.size fuel r.1 r.2 t.frames
    ({ t with frames := frames }, r.1)

/-- The statements of `Tag::getFileV2` after the header is read into
`tagsHeader`; the struct `Header` is `header[3]`, `majorVer`, `minorVer`,
`flags`, `size[4]`. -/
def Tag.parseHeader (H : Host) (D : TagDeps) (fuel : Nat) (t : Tag) (file : IStream)
    (tagsHeader : ByteArray) : Tag × IStream :=
  if tagsHeader.take 3 ≠ [0x49, 0x44, 0x33] then (t, file)
  else
    let t := { t with tagsSet := { t.tagsSet with v2 := true } }
    let majorVer := tagsHeader.getD 3 0
    let minorVer := tagsHeader.getD 4 0
    let t := { t with v2TagInfo := { t.v2TagInfo with majorVer := majorVer, minorVer := minorVer } }
    if majorVer < MIN_SUPPORTED_VERSION ∨ majorVer > MAX_SUPPORTED_VERSION ∨
        minorVer ≠ SUPPORTED_MINOR_VERSION then
      ({ t with tagsSet := { t.tagsSet with v2 := false } }, file)
    else
      let size := uchar_arr_binary_num H ((tagsHeader.drop 6).take 4) 4 true
      let info := setHeaderFlags { t.v2TagInfo with size := size } (tagsHeader.getD 5 0)
      Tag.readFrames H D fuel { t with v2TagInfo := info } file

/-- Source: `Tag::getFileV2(std::ifstream& file)`.  The local `tagsHeader` is
not initialised.  The result is the tag and the stream. -/
def Tag.getFileV2 (H : Host) (D : TagDeps) (fuel : Nat) (t : Tag) (file : IStream) :
    Tag × IStream :=
  if t.filesize < HEADER_BYTE_SIZE then (t, file)
  else
    let file := file.seekg 0
    if file.fail then (t, file)
    else
      let r := file.read (uninitBytes H 0 HEADER_BYTE_SIZE) 0 HEADER_BYTE_SIZE
      Tag.parseHeader H D fuel t r.1 r.2

/-- Source: `Tag::getFile(std::ifstream& file, bool close)`, up to the closing
of the file. -/
def Tag.getFile (H : Host) (D : TagDeps) (fuel : Nat) (t : Tag) (file : IStream) : Tag :=
  if !file.good then t
  else
    let t := { t with isNull := false }
    let r := Tag.getFileV1 H D t file
    (Tag.getFileV2 H D fuel r.1 r.2).1

/-- Source: `Tag::Tag(std::ifstream& file)`; `is_open` is the value of
`file.is_open()`, and `filesize0` the value that `filesize` has when the
constructor starts. -/
def Tag.ofStream (H : Host) (D : TagDeps) (fuel : Nat) (filesize0 : Nat) ( is_open : Bool)
    (file : IStream) : Tag :=
  let t := Tag.new filesize0
  if !is_open then t
  else
    let file := file.seekgEnd 0
    let t := { t with filesize := file.tellg }
    Tag.getFile H D fuel t file

/-- Source: `Tag::null()`. -/
def Tag.null (t : Tag) : Bool := t.isNull

/-- Source: `Tag::getFrameText(Frames frameID)`; `frameIDStr` is the value of
`getFrameName(frameID)`, the ID of the frame. -/
def Tag.getFrameText (t : Tag) (frameIDStr : String) : ByteArray :=
  match t.frames.lookup frameIDStr with
  | none => []
  | some frameObj => if frameObj.null then [] else frameObj.text

/-- Source: `Tag::title()`; the enum value `Frames::TITLE` names the frame
TIT2. -/
def Tag.title (t : Tag) : ByteArray := t.getFrameText "TIT2"

/-- Source: `Tag::album()`; the enum value `Frames::ALBUM` names the frame
TALB. -/
def Tag.album (t : Tag) : ByteArray := t.getFrameText "TALB"

/-- The function `isspace` of the C locale. -/
def isspace (c : Nat) : Bool := c == 0x20 || (decide (0x09 ≤ c) && decide (c ≤ 0x0D))

/-- The digits that `atoi` consumes: the value of the longest prefix of
decimal digits, read after the value `acc`. -/
def atoiDigits : ByteArray → Nat → Nat
  | [], acc => acc
  | c :: rest, acc =>
      if 0x30 ≤ c ∧ c ≤ 0x39 then atoiDigits rest (acc * 10 + (c - 0x30)) else acc

/-- The number that `atoi` reads after the white space: a sign, then the
digits that follow. -/
def atoiSigned (s : ByteArray) : Int :=
  match s with
  | 0x2D :: rest => -(atoiDigits rest 0 : Int)
  | 0x2B :: rest => (atoiDigits rest 0 : Int)
  | _ => (atoiDigits s 0 : Int)

/-- The function `atoi` of the C library on the bytes of a string: white space
is skipped, a sign is taken, and the digits that follow are read; the result
for a number that does not fit an `int` is left to the host. -/
def atoi (H : Host) (str : ByteArray) : Int :=
  let value := atoiSigned (str.dropWhile isspace)
  if -(2 : Int) ^ 31 ≤ value ∧ value < (2 : Int) ^ 31 then value else H.atoiOverflow str

/-- Source: `Tag::track(bool process)`; the enum value `Frames::TRACK` names
the frame TRCK, and the slash is the byte 0x2F. -/
def Tag.track (H : Host) (t : Tag) (process : Bool) : ByteArray :=
  let trackString := t.getFrameText "TRCK"
  if process then
    let slashPos := stringFind trackString 0x2F 0
    let trackString :=
      match slashPos with
      | some slashPos => substr trackString 0 slashPos
      | none => trackString
    if to_string (atoi H trackString) ≠ trackString then [] else trackString
  else trackString

/-- Source: `Tag::trackTotal(bool process)`. -/
def Tag.trackTotal (H : Host) (t : Tag) (process : Bool) : ByteArray :=
  let trackString := t.getFrameText "TRCK"
  let slashPos := stringFind trackString 0x2F 0
  match slashPos with
  | none => []
  | some slashPos =>
    let trackString := trackString.drop (slashPos + 1)
    if process && decide (to_string (atoi H trackString) ≠ trackString) then [] else trackString

/-! ### Frame multiplicity, the absent parts of the tag assembler, and examples -/

/-- Modelled from the spec: the constructor `Frame(frameName, textContent)` of
the class `Frame` of `ID3Tag.cpp` is defined in the absent `ID3Frame.cpp`.
Scenario 1 of section 8 makes a frame built from a v1 field a frame that is not
null and holds the text. -/
def FrameObj.ofText (frameName : String) (textContent : ByteArray) : FrameObj :=
  { frame := frameName, null := false, text := textContent, end_ := 0 }

/-- Modelled from the spec: the constructor
`Frame(file, readpos, version, filesize)` of the class `Frame` of `ID3Tag.cpp`
is defined in the absent `ID3Frame.cpp`.  Section 4.F (step 5) makes the
assembler call the factory at the offset and advance by the header size and
the frame size, and section 4.E makes the factory return an unknown, null frame
for a malformed one; the text is that of `TextFrame::read` for a frame of the
text class, and is left empty for the other classes.  The stream is left as it
is. -/
def FrameObj.ofFile (H : Host) (file : IStream) (readpos version filesize : Nat) :
    FrameObj × IStream :=
  match create H { musicFile := some file, ID3Ver := version, ID3Size := filesize } readpos with
  | FramePtr.frameOf cls id ver frameBytes =>
      let base : Frame := ⟨id, ver, frameBytes, false, false⟩
      let read := TextFrame.read H HEADER_BYTE_SIZE { toFrame := base, textContent := [] }
      let text := if cls = FrameClass.CLASS_TEXT then read.textContent else []
      let null := if cls = FrameClass.CLASS_TEXT then read.isNull else false
      ({ frame := id.strID, null := null, text := text, end_ := readpos + frameBytes.length }, file)
  | _ => ({ frame := "XXXX", null := true, text := [], end_ := readpos }, file)

/-- Modelled from the spec: the parts that `ID3Tag.cpp` takes from the absent
files, as `FrameObj.ofFile` and `FrameObj.ofText` give them, with a genre table
as a parameter. -/
def specDeps (H : Host) (GENRES : List ByteArray) : TagDeps :=
  { ofFile := FrameObj.ofFile H, ofText := FrameObj.ofText, GENRES := GENRES }

/-- The frames that the loop of `Tag::getFileV2` assigns to the map, in the
order of the assignments (for stating results): it follows `frameLoop`. -/
def loopTrace (D : TagDeps) (majorVer filesize size : Nat) :
    Nat → IStream → Nat → List FrameObj
  | 0, _, _ => []
  | fuel + 1, file, frameStartPos =>
      if frameStartPos + 10 < size ∧ frameStartPos < filesize then
        if (D.ofFile file frameStartPos majorVer filesize).1.null then []
        else (D.ofFile file frameStartPos majorVer filesize).1 ::
          loopTrace D majorVer filesize size fuel
            (D.ofFile file frameStartPos majorVer filesize).2
            (D.ofFile file frameStartPos majorVer filesize).1.end_
      else []

/-- A v2.3 tag of 27 bytes: the header with the declared size 17, and the one
frame TALB with the 7-byte body 01 FF FE 41 00 42 00. -/
def exampleTagTALB : ByteArray :=
  [0x49, 0x44, 0x33, 3, 0, 0, 0, 0, 0, 17,
   0x54, 0x41, 0x4C, 0x42, 0, 0, 0, 7, 0, 0, 0x01, 0xFF, 0xFE, 0x41, 0x00, 0x42, 0x00]

/-- The tag of `exampleTagTALB` with the declared size 30 and 13 bytes of
padding after the frame: a file of 40 bytes. -/
def exampleTagTALBPadded : ByteArray :=
  [0x49, 0x44, 0x33, 3, 0, 0, 0, 0, 0, 30,
   0x54, 0x41, 0x4C, 0x42, 0, 0, 0, 7, 0, 0, 0x01, 0xFF, 0xFE, 0x41, 0x00, 0x42, 0x00]
    ++ List.replicate 13 0

/-- A v2.3 header of 10 bytes with the flags byte `f` and the declared size 0. -/
def exampleHeaderFlags (f : Nat) : ByteArray :=
  [0x49, 0x44, 0x33, 3, 0, f, 0, 0, 0, 0]

/-- A file of 401 bytes: a v2.3 tag of declared size 13 whose one frame is TIT2
with the body 00 41 42, then 250 zero bytes, then a v1 trailer whose title is
`Old` and whose other fields are zero. -/
def exampleFileV1V2 : ByteArray :=
  [0x49, 0x44, 0x33, 3, 0, 0, 0, 0, 0, 13,
   0x54, 0x49, 0x54, 0x32, 0, 0, 0, 3, 0, 0, 0x00, 0x41, 0x42]
    ++ List.replicate 250 0
    ++ [0x54, 0x41, 0x47, 0x4F, 0x6C, 0x64] ++ List.replicate 122 0

/-- A v2.3 tag of 52 bytes with the declared size 42: two COMM frames with the
6-byte bodies 03 `eng` 00 `x` and 03 `eng` 00 `y`, then 10 bytes of padding. -/
def exampleTagTwoCOMM : ByteArray :=
  [0x49, 0x44, 0x33, 3, 0, 0, 0, 0, 0, 42,
   0x43, 0x4F, 0x4D, 0x4D, 0, 0, 0, 6, 0, 0, 0x03, 0x65, 0x6E, 0x67, 0x00, 0x78,
   0x43, 0x4F, 0x4D, 0x4D, 0, 0, 0, 6, 0, 0, 0x03, 0x65, 0x6E, 0x67, 0x00, 0x79]
    ++ List.replicate 10 0

/-- A tag whose only frame is TRCK with the text `c`. -/
def exampleTagTrack (c : ByteArray) : Tag :=
  { Tag.new 0 with isNull := false, frames := [("TRCK", FrameObj.ofText "TRCK" c)] }

/-- A v1.1 trailer of 128 bytes: the magic `TAG`, the title `Hi`, empty artist
and album, the year `1999`, an empty comment, the zero byte at offset 125, the
track number 7 and the genre byte 17. -/
def exampleTrailerV11 : ByteArray :=
  [0x54, 0x41, 0x47, 0x48, 0x69] ++ List.replicate 88 0 ++ [0x31, 0x39, 0x39, 0x39]
    ++ List.replicate 28 0 ++ [0, 7, 17]

/-! ### Decimal strings (for stating results) -/

/-- The decimal strings of the natural numbers: a non-empty string of ASCII
digits that does not start with the digit 0, unless it is the string `0`. -/
def isDecimalNat (s : ByteArray) : Bool :=
  (s != []) && numericalString s && (s == [0x30] || s.head? != some 0x30)

/-- The decimal strings of the integers, as `std::to_string` gives them: a
decimal string of a natural number, or a minus sign before one that is not
`0`. -/
def isDecimalInt (s : ByteArray) : Bool :=
  match s with
  | 0x2D :: rest => isDecimalNat rest && rest != [0x30]
  | _ => isDecimalNat s

/-! ### Projections of a created frame (for stating results) -/

/-- The frame ID that the constructor call of `FrameFactory::create` receives;
`new UnknownFrame()` receives none. -/
def FramePtr.id? : FramePtr → Option FrameID
  | FramePtr.unknownFrame => none
  | FramePtr.unknownFrameOf id => some id
  | FramePtr.frameOf _ id _ _ => some id

/-- The captured buffer `frameBytes` that the constructor call of
`FrameFactory::create` receives, when it receives one. -/
def FramePtr.frameBytes? : FramePtr → Option ByteArray
  | FramePtr.frameOf _ _ _ frameBytes => some frameBytes
  | _ => none

/-! ### The indices that `utf16toutf8` reads and writes (for stating results) -/

/-- The indices of `u16s` that a loop of `utf16toutf8` reads,
`u16s[start + offset + i]` and `u16s[start + offset + i + 1]` for
`i = 0, 2, 4, ...`; `steps` iterations are left. -/
def utf16LoopReads (start offset : Nat) : Nat → Nat → List Nat
  | 0, _ => []
  | steps + 1, i =>
      (start + offset + i) :: (start + offset + i + 1) :: utf16LoopReads start offset steps (i + 2)

/-- The indices of `utf16CharArr` that a loop of `utf16toutf8` writes,
`utf16CharArr[i/2]` for `i = 0, 2, 4, ...`; `steps` iterations are left. -/
def utf16LoopWrites : Nat → Nat → List Nat
  | 0, _ => []
  | steps + 1, i => (i / 2) :: utf16LoopWrites steps (i + 2)

/-- The indices at which `ID3::utf16toutf8` reads `u16s`, after the source: the
tests for the byte order mark read `u16s[start]` and `u16s[start+1]`, and the
loop runs for `i = 0, 2, 4, ...` while `i < u16sSize`, that is
`(u16sSize + 1) / 2` times. -/
def utf16Reads (H : Host) (u16s : ByteArray) (start end_ : Int) : List Nat :=
  let start := setStart start
  let end_ := setEnd end_ u16s.length
  if end_ - start < 2 then []
  else
    let u16sSize := (end_ - start).toNat
    let start := start.toNat
    let offset :=
      if (readAt H u16s start = 0xFF ∧ readAt H u16s (start + 1) = 0xFE) ∨
          (readAt H u16s start = 0xFE ∧ readAt H u16s (start + 1) = 0xFF) then 2 else 0
    start :: (start + 1) :: utf16LoopReads start offset ((u16sSize + 1) / 2) 0

/-- The indices at which `ID3::utf16toutf8` writes the buffer
`new uint16_t[u16sSize / 2]`, and the length of that buffer. -/
def utf16Writes (u16s : ByteArray) (start end_ : Int) : List Nat × Nat :=
  let start := setStart start
  let end_ := setEnd end_ u16s.length
  if end_ - start < 2 then ([], 0)
  else
    let u16sSize := (end_ - start).toNat
    (utf16LoopWrites ((u16sSize + 1) / 2) 0, u16sSize / 2)

/-! ### UTF-16 descriptions (for stating results) -/

/-- No pair of bytes at an even offset of the sequence is a pair of zero
bytes. -/
def noAlignedZeroPair : ByteArray → Bool
  | x :: y :: rest => !(x == 0 && y == 0) && noAlignedZeroPair rest
  | _ => true

/-- A TXXX frame of version 3 as it is before `read()`: ten header bytes, the
encoding byte 0x01, the description `FF FE 41 00 00 42` (the mark and the code
units U+0041 and U+4200, little-endian: a zero byte with a non-zero partner at
offset 4, and a zero pair at the odd offset 3), the terminator `00 00`, and the
content `FF FE 42 00`. -/
def exampleTXXXutf16 : DescriptiveTextFrame :=
  { id := FrameID.ofString "TXXX", ID3Ver := 3,
    frameContent := List.replicate 10 0 ++ [0x01, 0xFF, 0xFE, 0x41, 0x00, 0x00, 0x42, 0x00, 0x00,
      0xFF, 0xFE, 0x42, 0x00],
    isNull := false, isEdited := false, textContent := [],
    textDescription := [], textLanguage := [],
    optionLanguage := false, optionLatin1 := false, optionNoDescription := false }

/-! ### The accessor `Tag::genre` (`ID3Tag.cpp`) -/

/-- The call `std::regex_search(genreString, v1Genre, findV1Genre)` for the
regular expression `^\(\d+\)` of `Tag::genre`: the matched text `v1Genre.str()`
when the string starts with an opening parenthesis, one or more decimal digits
(all the digits that follow, since the next character must be the closing
parenthesis) and a closing parenthesis; `none` when there is no match. -/
def regexSearchV1Genre (genreString : ByteArray) : Option ByteArray :=
  match genreString with
  | 0x28 :: rest =>
      let digits := rest.takeWhile (fun c => decide (0x30 ≤ c ∧ c ≤ 0x39))
      if digits ≠ [] ∧ (rest.drop digits.length).head? = some 0x29 then
        some (0x28 :: digits ++ [0x29])
      else none
  | _ => none

/-- Source: `Tag::genre(bool process)`; the enum value `Frames::GENRE` names
the frame TCON.  The call `std::regex_replace(genreString, findV1Genre, "")`
removes the match, which the anchor `^` allows at the start only; the argument
of `getGenreString` is an `int` converted to `ushort`. -/
def Tag.genre (H : Host) (D : TagDeps) (t : Tag) (process : Bool) : ByteArray :=
  let genreString := t.getFrameText "TCON"
  if process then
    match regexSearchV1Genre genreString with
    | some genreIntStr =>
        let genreInt := atoi H (substr genreIntStr 1 (genreIntStr.length - 1))
        let genreString := genreString.drop genreIntStr.length
        if genreString.length ≤ 0 then getGenreString D.GENRES (genreInt % 2 ^ 16).toNat
        else genreString
    | none => genreString
  else genreString

/-- A tag whose only frame is TCON with the text `c`. -/
def exampleTagGenre (c : ByteArray) : Tag :=
  { Tag.new 0 with isNull := false, frames := [("TCON", FrameObj.ofText "TCON" c)] }

/-- A genre table of 20 entries for examples: the entry `i` is the letter `G`
followed by the byte `i`. -/
def exampleGENRES : List ByteArray :=
  (List.range 20).map (fun i => [0x47, i])

/-! ### Example files with an extended header or an extended v1 tag -/

/-- A v2.4 tag of 70 bytes with the flags byte `f` and the declared size 60: an
extended header of 6 bytes (size bytes 00 00 00 06, one flag byte, no flag),
the frame TIT2 with the body 00 41 42 at offset 16, and 41 bytes of padding. -/
def exampleTagExtHeader (f : Nat) : ByteArray :=
  [0x49, 0x44, 0x33, 4, 0, f, 0, 0, 0, 60] ++ [0, 0, 0, 6, 1, 0]
    ++ [0x54, 0x49, 0x54, 0x32, 0, 0, 0, 3, 0, 0, 0x00, 0x41, 0x42] ++ List.replicate 41 0

/-- An extended v1 tag of 227 bytes: the magic `TAG+`, the title `Ext`, and
zero bytes. -/
def exampleExtendedTag : ByteArray :=
  [0x54, 0x41, 0x47, 0x2B, 0x45, 0x78, 0x74] ++ List.replicate 220 0

/-- A v1 trailer of 128 bytes: the magic `TAG`, the title `Old`, and zero
bytes. -/
def exampleTrailerOld : ByteArray :=
  [0x54, 0x41, 0x47, 0x4F, 0x6C, 0x64] ++ List.replicate 122 0

/-- A file of exactly 355 bytes: the extended tag and the trailer. -/
def exampleFile355 : ByteArray := exampleExtendedTag ++ exampleTrailerOld

/-- A file of 356 bytes: one byte, the extended tag and the trailer. -/
def exampleFile356 : ByteArray := 0xFF :: (exampleExtendedTag ++ exampleTrailerOld)

/-- A file of 356 bytes whose last 128 bytes do not start with `TAG`: one byte,
the extended tag, and 128 zero bytes. -/
def exampleFileNoTAG : ByteArray := 0xFF :: (exampleExtendedTag ++ List.replicate 128 0)

/-- A host that differs from `shiftMod64Host` in the bytes of objects that are
not initialised, which are 1. -/
def uninitOneHost : Host :=
  { shiftMod64Host with uninit := fun _ => 1 }

/-! # Theorems -/

/-! ## Integer codec -/

theorem digitsBE_length (s m n val : Nat) : (digitsBE s m n val).length = n := by
  induction n generalizing val with
  | zero => rfl
  | succ n ih => simp [digitsBE, ih]

theorem drop_set_self (bv : ByteArray) (n d : Nat) (h : n < bv.length) :
    (bv.set n d).drop n = d :: bv.drop (n + 1) := by
  induction bv generalizing n with
  | nil => simp at h
  | cons x xs ih =>
    cases n with
    | zero => simp
    | succ n =>
      simp only [List.set_cons_succ, List.drop_succ_cons]
      exact ih n (by simpa using h)

theorem fillLoop_eq_digits (s m n val : Nat) (bv : ByteArray) (h : n ≤ bv.length) :
    fillLoop s m n val bv = digitsBE s m n val ++ bv.drop n := by
  induction n generalizing val bv with
  | zero => simp [fillLoop, digitsBE]
  | succ n ih =>
    rw [fillLoop, ih _ _ (by simp; omega), drop_set_self _ _ _ (by omega), digitsBE]
    simp

theorem beValue_append (s : Nat) (bs : ByteArray) (c : Nat) :
    beValue s (bs ++ [c]) = beValue s bs * 2 ^ s + c := by
  simp [beValue, List.foldl_append]

theorem digitsBE_beValue (s : Nat) (bs : ByteArray) (h : ∀ c ∈ bs, c < 2 ^ s) :
    digitsBE s (2 ^ s) bs.length (beValue s bs) = bs := by
  induction bs using List.reverseRecOn with
  | nil => rfl
  | append_singleton init c ih =>
    have hc : c < 2 ^ s := h c (by simp)
    have hpos : 0 < 2 ^ s := Nat.two_pow_pos s
    rw [List.length_append, List.length_singleton, digitsBE, beValue_append]
    have h1 : (beValue s init * 2 ^ s + c) / 2 ^ s = beValue s init := by
      rw [Nat.add_comm, Nat.add_mul_div_right _ _ hpos, Nat.div_eq_of_lt hc, Nat.zero_add]
    have h2 : (beValue s init * 2 ^ s + c) % 2 ^ s = c := by
      rw [Nat.add_comm, Nat.add_mul_mod_self_right, Nat.mod_eq_of_lt hc]
    rw [h1, h2, ih (fun x hx => h x (by simp [hx]))]

theorem beValue_lt (s : Nat) (bs : ByteArray) (h : ∀ c ∈ bs, c < 2 ^ s) :
    beValue s bs < 2 ^ (s * bs.length) := by
  induction bs using List.reverseRecOn with
  | nil => simp [beValue]
  | append_singleton init c ih =>
    have hc : c < 2 ^ s := h c (by simp)
    have ih' := ih (fun x hx => h x (by simp [hx]))
    rw [beValue_append, List.length_append, List.length_singleton, Nat.mul_add, Nat.mul_one,
      Nat.pow_add]
    calc beValue s init * 2 ^ s + c < beValue s init * 2 ^ s + 2 ^ s := by omega
      _ = (beValue s init + 1) * 2 ^ s := by ring
      _ ≤ 2 ^ (s * init.length) * 2 ^ s := Nat.mul_le_mul_right _ ih'

theorem foldl_mod_eq (s M : Nat) (bs : ByteArray) (v : Nat) :
    bs.foldl (fun v c => (v * 2 ^ s + c) % M) (v % M)
      = (bs.foldl (fun v c => v * 2 ^ s + c) v) % M := by
  induction bs generalizing v with
  | nil => simp
  | cons c rest ih =>
    simp only [List.foldl_cons]
    have : (v % M * 2 ^ s + c) % M = (v * 2 ^ s + c) % M := by
      rw [Nat.add_mod, Nat.mul_mod, Nat.mod_mod, ← Nat.mul_mod, ← Nat.add_mod]
    rw [this, ih]

theorem byteIntValLoop_eq_foldl (H : Host) (a : ByteArray) (s steps i value : Nat)
    (h : i + steps ≤ a.length) :
    byteIntValLoop H a s steps i value
      = ((a.drop i).take steps).foldl (fun v c => (v * 2 ^ s + c) % 2 ^ 64) value := by
  induction steps generalizing i value with
  | zero => simp [byteIntValLoop]
  | succ n ih =>
    have hi : i < a.length := by omega
    rw [byteIntValLoop, ih _ _ (by omega), List.drop_eq_getElem_cons hi, List.take_succ_cons,
      List.foldl_cons]
    simp only [readAt, List.getD_eq_getElem?_getD, List.getElem?_eq_getElem hi, Option.getD_some]

theorem byteIntVal_eq_beValue (H : Host) (b : ByteArray) (synchsafe : Bool)
    (hpos : 1 ≤ b.length) (hb : ∀ c ∈ b, c < 256) :
    byteIntVal H (some b) b.length synchsafe
      = beValue (if synchsafe then 7 else 8) b % 2 ^ 64 := by
  cases b with
  | nil => simp at hpos
  | cons b0 rest =>
    have hlen : ¬ (((b0 :: rest).length : Nat) : Int) < 1 := by simp
    simp only [byteIntVal, hlen, if_false]
    rw [byteIntValLoop_eq_foldl _ _ _ _ _ _ (by simp; omega)]
    simp only [Int.toNat_ofNat, List.length_cons, Nat.add_sub_cancel, List.drop_succ_cons,
      List.drop_zero, List.take_length, readAt, List.getD_cons_zero]
    have hb0 : b0 < 2 ^ 64 := by
      have := hb b0 (by simp)
      omega
    rw [beValue, List.foldl_cons, ← foldl_mod_eq]
    rw [Nat.zero_mul, Nat.zero_add, Nat.mod_eq_of_lt hb0]


theorem shl1_sub_one (H : Host) (k : Nat) (hk : k < 64) :
    (shl1 H k + 2 ^ 64 - 1) % 2 ^ 64 = 2 ^ k - 1 := by
  have h1 : 0 < 2 ^ k := Nat.two_pow_pos k
  have h2 : 2 ^ k < 2 ^ 64 := Nat.pow_lt_pow_right (by decide) hk
  simp only [shl1, hk, if_true]
  have : 2 ^ k + 2 ^ 64 - 1 = (2 ^ k - 1) + 2 ^ 64 := by omega
  rw [this, Nat.add_mod_right, Nat.mod_eq_of_lt (by omega)]

theorem intToByteArray_fixed (H : Host) (val n : Nat) (synchsafe : Bool) (hn : 1 ≤ n)
    (hk : n * (if synchsafe then 7 else 8) < 64) :
    intToByteArray H val n synchsafe
      = digitsBE (if synchsafe then 7 else 8) (2 ^ (if synchsafe then 7 else 8)) n
          (if val > 2 ^ (n * (if synchsafe then 7 else 8)) - 1
            then 2 ^ (n * (if synchsafe then 7 else 8)) - 1 else val) := by
  have hn0 : n ≠ 0 := by omega
  have hm : (if synchsafe then 0x80 else 0x100) = 2 ^ (if synchsafe then 7 else 8) := by
    cases synchsafe <;> rfl
  simp only [intToByteArray, hn0, if_false]
  rw [shl1_sub_one H _ hk, fillLoop_eq_digits _ _ _ _ _ (by simp), hm]
  simp


/-- The round trip `intToByteArray(byteIntVal(b, n, s), n, s) = b` on every width
`n ≥ 1` whose `k * n` bits fit the shift (`k * n < 64`). -/
theorem roundtrip_defined_widths (H : Host) (b : ByteArray) (synchsafe : Bool)
    (hn : 1 ≤ b.length) (hk : b.length * (if synchsafe then 7 else 8) < 64)
    (hb : ∀ c ∈ b, c < (if synchsafe then 0x80 else 0x100)) :
    intToByteArray H (byteIntVal H (some b) b.length synchsafe) b.length synchsafe = b := by
  have hm : (if synchsafe then 0x80 else 0x100) = 2 ^ (if synchsafe then 7 else 8) := by
    cases synchsafe <;> rfl
  have hb' : ∀ c ∈ b, c < 2 ^ (if synchsafe then 7 else 8) := fun c hc => hm ▸ hb c hc
  have hb256 : ∀ c ∈ b, c < 256 := by
    intro c hc
    have := hb c hc
    cases synchsafe <;> simp at this <;> omega
  have hlt := beValue_lt _ b hb'
  have hlt64 : beValue (if synchsafe then 7 else 8) b < 2 ^ 64 :=
    lt_trans hlt (Nat.pow_lt_pow_right (by decide) (by rw [Nat.mul_comm]; exact hk))
  rw [byteIntVal_eq_beValue H b synchsafe hn hb256, Nat.mod_eq_of_lt hlt64,
    intToByteArray_fixed H _ _ _ hn hk]
  have hle : ¬ beValue (if synchsafe then 7 else 8) b
      > 2 ^ (b.length * (if synchsafe then 7 else 8)) - 1 := by
    rw [Nat.mul_comm] ; omega
  rw [if_neg hle]
  exact digitsBE_beValue _ b hb'

theorem digitsBE_max (s n : Nat) :
    digitsBE s (2 ^ s) n (2 ^ (n * s) - 1) = List.replicate n (2 ^ s - 1) := by
  induction n with
  | zero => rfl
  | succ n ih =>
    have hpos : 0 < 2 ^ s := Nat.two_pow_pos s
    have hpos' : 0 < 2 ^ (n * s) := Nat.two_pow_pos _
    have hsplit : 2 ^ ((n + 1) * s) - 1 = (2 ^ s - 1) + (2 ^ (n * s) - 1) * 2 ^ s := by
      have : 2 ^ ((n + 1) * s) = 2 ^ (n * s) * 2 ^ s := by rw [Nat.add_mul, Nat.one_mul, Nat.pow_add]
      rw [this, Nat.sub_mul]
      have : 2 ^ s ≤ 2 ^ (n * s) * 2 ^ s := Nat.le_mul_of_pos_left _ hpos'
      omega
    rw [digitsBE, hsplit, Nat.add_mul_div_right _ _ hpos, Nat.add_mul_mod_self_right,
      Nat.div_eq_of_lt (by omega), Nat.zero_add, Nat.mod_eq_of_lt (by omega), ih,
      ← List.replicate_succ', ]

theorem digitsBE_getD (s m n val i : Nat) (hi : i < n) :
    (digitsBE s m n val).getD i 0 = val / 2 ^ (s * (n - 1 - i)) % m := by
  induction n generalizing val with
  | zero => omega
  | succ n ih =>
    rw [digitsBE]
    by_cases h : i < n
    · rw [List.getD_append _ _ _ _ (by rw [digitsBE_length]; exact h), ih _ h,
        Nat.div_div_eq_div_mul, ← Nat.pow_add]
      congr 3
      have : n + 1 - 1 - i = (n - 1 - i) + 1 := by omega
      rw [this, Nat.mul_add, Nat.mul_one, Nat.add_comm]
    · have hin : i = n := by omega
      subst hin
      rw [List.getD_append_right _ _ _ _ (by rw [digitsBE_length])]
      simp [digitsBE_length]

theorem minimalLoop_lt (s m fuel val : Nat) (acc : ByteArray) (hm : 0 < m)
    (hacc : ∀ x ∈ acc, x < m) : ∀ x ∈ minimalLoop s m fuel val acc, x < m := by
  induction fuel generalizing val acc with
  | zero => simpa [minimalLoop] using hacc
  | succ fuel ih =>
    rw [minimalLoop]
    split
    · apply ih
      intro x hx
      rcases List.mem_append.mp hx with h | h
      · exact hacc x h
      · rw [List.mem_singleton.mp h]; exact Nat.mod_lt _ hm
    · exact hacc

theorem fillLoop_lt (s m n val : Nat) (bv : ByteArray) (hm : 0 < m)
    (hbv : ∀ x ∈ bv, x < m) : ∀ x ∈ fillLoop s m n val bv, x < m := by
  induction n generalizing val bv with
  | zero => simpa [fillLoop] using hbv
  | succ n ih =>
    rw [fillLoop]
    apply ih
    intro x hx
    rcases List.mem_or_eq_of_mem_set hx with h | h
    · exact hbv x h
    · rw [h]; exact Nat.mod_lt _ hm

theorem fillLoop_length (s m n val : Nat) (bv : ByteArray) :
    (fillLoop s m n val bv).length = bv.length := by
  induction n generalizing val bv with
  | zero => rfl
  | succ n ih => rw [fillLoop, ih, List.length_set]

/-- C1 (code defect): at width 8 without synchsafe the clamp test of
`intToByteArray` computes `1ULL << 64`; with the shift count taken modulo 64
the bound is 0, every value is clamped to 0, and the round trip of the bytes
`00 .. 00 01` returns eight zero bytes. -/
theorem intToByteArray_byteIntVal_width8 :
    byteIntVal shiftMod64Host (some [0, 0, 0, 0, 0, 0, 0, 1]) 8 false = 1 ∧
    intToByteArray shiftMod64Host
      (byteIntVal shiftMod64Host (some [0, 0, 0, 0, 0, 0, 0, 1]) 8 false) 8 false
      = [0, 0, 0, 0, 0, 0, 0, 0] ∧
    intToByteArray shiftMod64Host
      (byteIntVal shiftMod64Host (some [0, 0, 0, 0, 0, 0, 0, 1]) 8 false) 8 false
      ≠ [0, 0, 0, 0, 0, 0, 0, 1] := by
  decide

/-- C8: for a width `n ≥ 1` whose `k * n` bits fit (`k` = 7 synchsafe, 8
plain), a value above `2 ^ (k * n) - 1` is written as the maximum, `n` bytes
all equal to 0x7F or 0xFF, and a value up to the maximum is written as its own
`n` big-endian base-`2 ^ k` digits. -/
theorem intToByteArray_clamp (H : Host) (v n : Nat) (synchsafe : Bool) (hn : 1 ≤ n)
    (hk : n * (if synchsafe then 7 else 8) < 64) :
    (v > 2 ^ (n * (if synchsafe then 7 else 8)) - 1 →
      intToByteArray H v n synchsafe
          = intToByteArray H (2 ^ (n * (if synchsafe then 7 else 8)) - 1) n synchsafe ∧
      intToByteArray H v n synchsafe
          = List.replicate n (if synchsafe then 0x7F else 0xFF)) ∧
    (v ≤ 2 ^ (n * (if synchsafe then 7 else 8)) - 1 →
      (intToByteArray H v n synchsafe).length = n ∧
      ∀ i, i < n → (intToByteArray H v n synchsafe).getD i 0
          = v / 2 ^ ((if synchsafe then 7 else 8) * (n - 1 - i))
              % 2 ^ (if synchsafe then 7 else 8)) := by
  have hmax : (2 : Nat) ^ (if synchsafe then 7 else 8) - 1 = if synchsafe then 0x7F else 0xFF := by
    cases synchsafe <;> rfl
  constructor
  · intro hv
    rw [intToByteArray_fixed H v n synchsafe hn hk, intToByteArray_fixed H _ n synchsafe hn hk,
      if_pos hv, if_neg (Nat.lt_irrefl _), digitsBE_max, hmax]
    exact ⟨rfl, rfl⟩
  · intro hv
    rw [intToByteArray_fixed H v n synchsafe hn hk, if_neg (Nat.not_lt.mpr hv)]
    exact ⟨digitsBE_length _ _ _ _, fun i hi => digitsBE_getD _ _ _ _ _ hi⟩

theorem intToByteArray_clamp_witness :
    (1 ≤ 2 ∧ 2 * (if true then 7 else 8) < 64) ∧
    intToByteArray shiftMod64Host 20000 2 true = [0x7F, 0x7F] ∧
    (intToByteArray shiftMod64Host 300 2 true).getD 0 0 = 2 :=
  ⟨⟨by decide, by decide⟩,
   by
    have h := (intToByteArray_clamp shiftMod64Host 20000 2 true (by decide) (by decide)).1
      (by decide)
    simpa using h.2,
   by
    have h := (intToByteArray_clamp shiftMod64Host 300 2 true (by decide) (by decide)).2
      (by decide)
    simpa using h.2 0 (by decide)⟩

/-- C9: every byte of a synchsafe `intToByteArray` result is below 0x80, for
every value and every requested length (0 included), whatever an out-of-range
shift produces; for a length `n ≥ 1` the result has `n` bytes. -/
theorem intToByteArray_synchsafe_bytes (H : Host) (v n : Nat) :
    (∀ x ∈ intToByteArray H v n true, x < 0x80) ∧
    (intToByteArray H v (n + 1) true).length = n + 1 := by
  constructor
  · unfold intToByteArray
    by_cases h : n = 0
    · simp only [h, if_true]
      intro x hx
      exact minimalLoop_lt _ _ _ _ _ (by decide) (by simp) x (List.mem_reverse.mp hx)
    · simp only [h, if_false]
      apply fillLoop_lt _ _ _ _ _ (by decide)
      intro x hx
      rw [List.eq_of_mem_replicate hx]
      decide
  · unfold intToByteArray
    simp only [Nat.succ_ne_zero, if_false]
    rw [fillLoop_length, List.length_replicate]

/-! ## Encoding codec -/

theorem readAt_lt (H : Host) (a : ByteArray) (i : Nat) (hi : i < a.length) :
    readAt H a i = a[i] := by
  simp [readAt, List.getD_eq_getElem?_getD, List.getElem?_eq_getElem hi]

theorem setStart_natCast (n : Nat) : setStart (n : Int) = (n : Int) := by
  simp [setStart]

theorem setEnd_natCast (n size : Nat) (h : n ≤ size) : setEnd (n : Int) size = (n : Int) := by
  simp [setEnd]
  omega

theorem setEnd_default (size : Nat) : setEnd END_DEFAULT size = (size : Int) := by
  simp [setEnd, END_DEFAULT]

/-! ## Latin-1 -/

theorem latin1Loop_eq (H : Host) (a : ByteArray) (steps i : Nat) (acc : ByteArray)
    (h : i + steps ≤ a.length) :
    latin1Loop H a steps i acc = acc ++ ((a.drop i).take steps).flatMap latin1Image := by
  induction steps generalizing i acc with
  | zero => simp [latin1Loop]
  | succ n ih =>
    have hi : i < a.length := by omega
    rw [latin1Loop, List.drop_eq_getElem_cons hi, List.take_succ_cons, List.flatMap_cons,
      readAt_lt H a i hi]
    by_cases hc : a[i] < 0x80
    · simp only [hc, if_true]
      rw [ih _ _ (by omega)]
      simp [latin1Image, hc]
    · simp only [hc, if_false]
      rw [ih _ _ (by omega)]
      simp [latin1Image, hc]

theorem latin1toutf8_eq_flatMap (H : Host) (latin1s : ByteArray) (start end_ : Nat)
    (h1 : start ≤ end_) (h2 : end_ ≤ latin1s.length) :
    latin1toutf8 H latin1s start end_
      = ((latin1s.drop start).take (end_ - start)).flatMap latin1Image := by
  unfold latin1toutf8
  rw [setStart_natCast, setEnd_natCast _ _ h2]
  by_cases h : end_ ≤ start
  · have : end_ - start = 0 := by omega
    simp [h, this]
  · have h' : ¬ ((end_ : Int) ≤ (start : Int)) := by omega
    simp only [h', if_false]
    have e1 : ((end_ : Int) - (start : Int)).toNat = end_ - start := by omega
    rw [e1, Int.toNat_ofNat, latin1Loop_eq H _ _ _ _ (by omega)]
    simp

theorem latin1Image_eq_utf8 (c : Nat) (hc : c < 256) : latin1Image c = utf8OfCodePoint c := by
  interval_cases c <;> rfl

set_option maxRecDepth 1000000 in
theorem latin1Image_eq_core : ∀ c : Fin 256,
    latin1Image c.val = (String.utf8EncodeChar (Char.ofNat c.val)).map UInt8.toNat := by
  decide

theorem flatMap_ascii (l : ByteArray) (h : ∀ c ∈ l, c < 0x80) : l.flatMap latin1Image = l := by
  induction l with
  | nil => rfl
  | cons c rest ih =>
    have hc := h c (by simp)
    rw [List.flatMap_cons, ih (fun x hx => h x (by simp [hx]))]
    simp [latin1Image, hc]

/-! ## UTF-16 -/

theorem utf16LoopBE_acc (H : Host) (a : ByteArray) (start offset steps i : Nat) (acc : List Nat) :
    utf16LoopBE H a start offset steps i acc
      = acc ++ utf16LoopBE H a start offset steps i [] := by
  induction steps generalizing i acc with
  | zero => simp [utf16LoopBE]
  | succ n ih =>
    simp only [utf16LoopBE, List.nil_append]
    rw [ih (i + 2) (acc ++ _), ih (i + 2) [_], List.append_assoc]

theorem utf16LoopLE_acc (H : Host) (a : ByteArray) (start offset steps i : Nat) (acc : List Nat) :
    utf16LoopLE H a start offset steps i acc
      = acc ++ utf16LoopLE H a start offset steps i [] := by
  induction steps generalizing i acc with
  | zero => simp [utf16LoopLE]
  | succ n ih =>
    simp only [utf16LoopLE, List.nil_append]
    rw [ih (i + 2) (acc ++ _), ih (i + 2) [_], List.append_assoc]

theorem slice_two (a : ByteArray) (p m : Nat) (h0 : p < a.length) (h1 : p + 1 < a.length) :
    (a.drop p).take (2 * (m + 1))
      = a[p] :: a[p + 1] :: (a.drop (p + 2)).take (2 * m) := by
  rw [List.drop_eq_getElem_cons h0, List.drop_eq_getElem_cons h1]
  have e : 2 * (m + 1) = (2 * m + 1) + 1 := by ring
  rw [e, List.take_succ_cons, List.take_succ_cons]

/-- The first `m` code units of the big-endian loop, when the bytes they are
read from lie inside the vector. -/
theorem utf16LoopBE_take (H : Host) (a : ByteArray) (hb : ∀ c ∈ a, c < 256)
    (start offset steps i m : Nat) (hm : m ≤ steps)
    (h : start + offset + i + 2 * m ≤ a.length) :
    (utf16LoopBE H a start offset steps i []).take m
      = unitsBE ((a.drop (start + offset + i)).take (2 * m)) := by
  induction steps generalizing i m with
  | zero =>
    have : m = 0 := by omega
    subst this
    simp [utf16LoopBE, unitsBE]
  | succ n ih =>
    cases m with
    | zero => simp [unitsBE]
    | succ m =>
      have i0 : start + offset + i < a.length := by omega
      have i1 : start + offset + i + 1 < a.length := by omega
      have b0 := hb _ (List.getElem_mem i0)
      have b1 := hb _ (List.getElem_mem i1)
      simp only [utf16LoopBE, List.nil_append]
      rw [utf16LoopBE_acc, List.singleton_append, List.take_succ_cons,
        ih (i + 2) m (by omega) (by omega), slice_two a _ m i0 i1, unitsBE]
      have e1 : start + i + offset + 1 = start + offset + i + 1 := by omega
      have e2 : start + offset + (i + 2) = start + offset + i + 2 := by omega
      rw [e1, e2, readAt_lt H a _ i0, readAt_lt H a _ i1]
      congr 1
      have : a[start + offset + i] * 2 ^ 8 + a[start + offset + i + 1] < 2 ^ 16 := by
        norm_num
        omega
      rw [Nat.mod_eq_of_lt this]
      norm_num

theorem utf16LoopLE_take (H : Host) (a : ByteArray) (hb : ∀ c ∈ a, c < 256)
    (start offset steps i m : Nat) (hm : m ≤ steps)
    (h : start + offset + i + 2 * m ≤ a.length) :
    (utf16LoopLE H a start offset steps i []).take m
      = unitsLE ((a.drop (start + offset + i)).take (2 * m)) := by
  induction steps generalizing i m with
  | zero =>
    have : m = 0 := by omega
    subst this
    simp [utf16LoopLE, unitsLE]
  | succ n ih =>
    cases m with
    | zero => simp [unitsLE]
    | succ m =>
      have i0 : start + offset + i < a.length := by omega
      have i1 : start + offset + i + 1 < a.length := by omega
      have b0 := hb _ (List.getElem_mem i0)
      have b1 := hb _ (List.getElem_mem i1)
      simp only [utf16LoopLE, List.nil_append]
      rw [utf16LoopLE_acc, List.singleton_append, List.take_succ_cons,
        ih (i + 2) m (by omega) (by omega), slice_two a _ m i0 i1, unitsLE]
      have e2 : start + offset + (i + 2) = start + offset + i + 2 := by omega
      rw [e2, readAt_lt H a _ i0, readAt_lt H a _ i1]
      congr 1
      have : a[start + offset + i + 1] * 2 ^ 8 + a[start + offset + i] < 2 ^ 16 := by
        norm_num
        omega
      rw [Nat.mod_eq_of_lt this]
      norm_num

theorem slice_take_two (a : ByteArray) (start L : Nat) (hL : 2 ≤ L)
    (h0 : start < a.length) (h1 : start + 1 < a.length) :
    ((a.drop start).take L).take 2 = [a[start], a[start + 1]] := by
  rw [List.take_take, Nat.min_eq_left hL, List.drop_eq_getElem_cons h0,
    List.drop_eq_getElem_cons h1]
  rfl

theorem slice_drop_two (a : ByteArray) (start L : Nat) :
    ((a.drop start).take L).drop 2 = (a.drop (start + 2)).take (L - 2) := by
  rw [List.drop_take, List.drop_drop, Nat.add_comm]

/-- Behaviour of `getUTF8String` on a UTF-16 encoding byte (0x01 or 0x02) and a range of
even length at least 2 inside the vector: a leading `FF FE` selects
little-endian code units after the mark, a leading `FE FF` big-endian code
units after the mark, anything else big-endian code units of the whole range. -/
theorem utf16_conversion_cases (H : Host) (encoding : Nat)
    (henc : encoding = ENCODING_UTF16BOM ∨ encoding = ENCODING_UTF16)
    (bytes : ByteArray) (hb : ∀ c ∈ bytes, c < 256) (start end_ : Nat)
    (h2 : end_ ≤ bytes.length) (hlen : 2 ≤ end_ - start) (heven : (end_ - start) % 2 = 0) :
    getUTF8String H encoding bytes start end_ =
      if ((bytes.drop start).take (end_ - start)).take 2 = [0xFF, 0xFE] then
        H.toUTF8 (unitsLE (((bytes.drop start).take (end_ - start)).drop 2))
      else if ((bytes.drop start).take (end_ - start)).take 2 = [0xFE, 0xFF] then
        H.toUTF8 (unitsBE (((bytes.drop start).take (end_ - start)).drop 2))
      else H.toUTF8 (unitsBE ((bytes.drop start).take (end_ - start))) := by
  have h0 : start < bytes.length := by omega
  have h1 : start + 1 < bytes.length := by omega
  have hne : ¬ ((end_ : Int) ≤ (start : Int)) := by omega
  have hlt : ¬ ((end_ : Int) - (start : Int) < 2) := by omega
  have eL : ((end_ : Int) - (start : Int)).toNat = end_ - start := by omega
  obtain ⟨m, hm⟩ : ∃ m, end_ - start = 2 * (m + 1) := ⟨(end_ - start) / 2 - 1, by omega⟩
  unfold getUTF8String
  simp only [setStart_natCast, setEnd_natCast _ _ h2, hne, if_false, henc, if_true]
  have hret : ∀ r, utf16Returned H (end_ - start) r = r := by
    intro r
    have : ¬ ((end_ - start) / 2 < (end_ - start + 1) / 2) := by omega
    simp only [utf16Returned, this, if_false]
  unfold utf16toutf8
  simp only [setStart_natCast, setEnd_natCast _ _ h2, hlt, if_false, eL, Int.toNat_ofNat, hret]
  rw [readAt_lt H bytes start h0, readAt_lt H bytes (start + 1) h1,
    slice_take_two bytes start _ hlen h0 h1, slice_drop_two, hm]
  have e1 : (2 * (m + 1) + 1) / 2 = m + 1 := by omega
  have e2 : (2 * (m + 1) - 2) / 2 = m := by omega
  have e3 : 2 * (m + 1) - 2 = 2 * m := by omega
  have e4 : (2 * (m + 1) - 0) / 2 = m + 1 := by omega
  by_cases hle : bytes[start] = 0xFF ∧ bytes[start + 1] = 0xFE
  · have hl : [bytes[start], bytes[start + 1]] = [0xFF, 0xFE] := by rw [hle.1, hle.2]
    simp only [hle, and_self, if_true, hl]
    rw [e1, e2, e3, utf16LoopLE_take H bytes hb start 2 (m + 1) 0 m (by omega) (by omega)]
  · have hl : ¬ [bytes[start], bytes[start + 1]] = [0xFF, 0xFE] := by
      intro h
      simp only [List.cons.injEq, and_true] at h
      exact hle h
    rw [if_neg hle, if_neg hl]
    by_cases hbe : bytes[start] = 0xFE ∧ bytes[start + 1] = 0xFF
    · have hl2 : [bytes[start], bytes[start + 1]] = [0xFE, 0xFF] := by rw [hbe.1, hbe.2]
      simp only [hbe, and_self, if_true, hl2]
      rw [e1, e2, e3, utf16LoopBE_take H bytes hb start 2 (m + 1) 0 m (by omega) (by omega)]
    · have hl2 : ¬ [bytes[start], bytes[start + 1]] = [0xFE, 0xFF] := by
        intro h
        simp only [List.cons.injEq, and_true] at h
        exact hbe h
      simp only [hbe, if_false, hl2]
      rw [e1, e4, utf16LoopBE_take H bytes hb start 0 (m + 1) 0 (m + 1) (by omega) (by omega)]
      rfl

/-! ## Text frames -/

theorem getUTF8String_default (H : Host) (encoding : Nat) (bytes : ByteArray) (start : Int) :
    getUTF8String H encoding bytes start END_DEFAULT
      = getUTF8String H encoding bytes start bytes.length := by
  unfold getUTF8String
  rw [setEnd_default, setEnd_natCast _ _ (Nat.le_refl _)]

theorem getUTF8String_utf8 (H : Host) (bytes : ByteArray) (start end_ : Nat)
    (h2 : end_ ≤ bytes.length) :
    getUTF8String H ENCODING_UTF8 bytes start end_
      = (bytes.drop start).take (end_ - start) := by
  unfold getUTF8String
  rw [setStart_natCast, setEnd_natCast _ _ h2]
  by_cases h : end_ ≤ start
  · have h' : ((end_ : Int) ≤ (start : Int)) := by omega
    have : end_ - start = 0 := by omega
    simp [h', this]
  · have h' : ¬ ((end_ : Int) ≤ (start : Int)) := by omega
    have e1 : ((end_ : Int) - (start : Int)).toNat = end_ - start := by omega
    simp only [h', if_false, e1, Int.toNat_ofNat]
    simp [ENCODING_UTF8, ENCODING_UTF16BOM, ENCODING_UTF16]

theorem getUTF8String_latin1 (H : Host) (bytes : ByteArray) (start end_ : Nat)
    (h1 : start ≤ end_) (h2 : end_ ≤ bytes.length) :
    getUTF8String H ENCODING_LATIN1 bytes start end_
      = ((bytes.drop start).take (end_ - start)).flatMap latin1Image := by
  unfold getUTF8String
  rw [setStart_natCast, setEnd_natCast _ _ h2]
  by_cases h : end_ ≤ start
  · have h' : ((end_ : Int) ≤ (start : Int)) := by omega
    have : end_ - start = 0 := by omega
    simp [h', this]
  · have h' : ¬ ((end_ : Int) ≤ (start : Int)) := by omega
    simp only [h', if_false]
    rw [latin1toutf8_eq_flatMap H bytes start end_ h1 h2]
    simp [ENCODING_LATIN1, ENCODING_UTF8, ENCODING_UTF16BOM, ENCODING_UTF16]

theorem isASCIILoop_iff (S : ByteArray) : isASCIILoop S = true ↔ ∀ c ∈ S, c < 0x80 := by
  induction S with
  | nil => simp [isASCIILoop]
  | cons c rest ih =>
    rw [isASCIILoop]
    by_cases hc : c ≥ 0x80
    · simp only [hc, if_true]
      constructor
      · intro h; cases h
      · intro h
        have := h c (by simp)
        omega
    · simp only [hc, if_false, ih]
      constructor
      · intro h x hx
        rcases List.mem_cons.mp hx with rfl | hx
        · omega
        · exact h x hx
      · intro h x hx
        exact h x (by simp [hx])

theorem readAt_append_cons (H : Host) (pre : ByteArray) (x : Nat) (post : ByteArray) :
    readAt H (pre ++ x :: post) pre.length = x := by
  have h : pre.length < (pre ++ x :: post).length := by simp
  rw [readAt_lt H _ _ h, List.getElem_append_right (Nat.le_refl _)]
  simp

theorem drop_take_mid (pre mid post : ByteArray) :
    ((pre ++ mid ++ post).drop pre.length).take mid.length = mid := by
  simp

/-- C4: `TextFrame::writeBody` appends the encoding byte and then the content
unchanged; the encoding byte is 0x00 (Latin-1) when the content has no byte
at or above 0x80, and 0x03 (UTF-8) when it has one. -/
theorem TextFrame_writeBody_encoding (f : TextFrame) :
    ((∀ c ∈ f.textContent, c < 0x80) →
      f.writeBody.frameContent = f.frameContent ++ 0x00 :: f.textContent) ∧
    ((∃ c ∈ f.textContent, c ≥ 0x80) →
      f.writeBody.frameContent = f.frameContent ++ 0x03 :: f.textContent) ∧
    f.writeBody.textContent = f.textContent := by
  refine ⟨?_, ?_, rfl⟩
  · intro h
    have := (isASCIILoop_iff f.textContent).mpr h
    simp [TextFrame.writeBody, this, ENCODING_LATIN1]
  · intro h
    have : isASCIILoop f.textContent = false := by
      cases hb : isASCIILoop f.textContent with
      | false => rfl
      | true =>
        obtain ⟨c, hc, hge⟩ := h
        have := (isASCIILoop_iff f.textContent).mp hb c hc
        omega
    simp [TextFrame.writeBody, this, ENCODING_UTF8]

/-- C2: for every frame `f` with a header of `headerSize` bytes and every frame
`g` whose bytes are those that `TextFrame::writeBody` leaves in `f` (the header,
the encoding byte and the content `S` of `f`), whatever content `g` holds
before: `TextFrame::read` on `g` gives the content `S` (for every byte string
`S`), and does not mark the frame null. -/
theorem text_read_writeBody (H : Host) (headerSize : Nat) (f g : TextFrame)
    (hhdr : f.frameContent.length = headerSize)
    (hg : g.frameContent = f.writeBody.frameContent) :
    (TextFrame.read H headerSize g).textContent = f.textContent ∧
    (TextFrame.read H headerSize g).isNull = g.isNull := by
  have hfc : g.frameContent
      = f.frameContent ++ [if isASCIILoop f.textContent then ENCODING_LATIN1 else ENCODING_UTF8]
          ++ f.textContent := hg.trans rfl
  have hlen : g.frameContent.length = headerSize + 1 + f.textContent.length := by
    rw [hfc]; simp [hhdr]; omega
  have hgt : g.frameContent.length > headerSize := by omega
  have henc : readAt H g.frameContent headerSize
      = if isASCIILoop f.textContent then ENCODING_LATIN1 else ENCODING_UTF8 := by
    rw [hfc, List.append_assoc, List.singleton_append, ← hhdr, readAt_append_cons]
  have hslice : (g.frameContent.drop (headerSize + 1)).take
      (g.frameContent.length - (headerSize + 1)) = f.textContent := by
    rw [hlen, hfc]
    have : headerSize + 1
        = (f.frameContent ++ [if isASCIILoop f.textContent then ENCODING_LATIN1
            else ENCODING_UTF8]).length := by simp [hhdr]
    rw [this, List.drop_left]
    simp
  unfold TextFrame.read
  simp only [hgt, if_true]
  refine ⟨?_, trivial⟩
  show getUTF8String H _ _ _ _ = _
  have hcast : ((headerSize : Int) + 1) = ((headerSize + 1 : Nat) : Int) := by push_cast; rfl
  rw [henc, hcast, getUTF8String_default]
  cases hA : isASCIILoop f.textContent with
  | true =>
    simp only [if_true]
    rw [getUTF8String_latin1 H _ _ _ (by omega) (Nat.le_refl _), hslice]
    exact flatMap_ascii _ ((isASCIILoop_iff _).mp hA)
  | false =>
    simp only [Bool.false_eq_true, if_false]
    rw [getUTF8String_utf8 H _ _ _ (Nat.le_refl _), hslice]

theorem text_read_writeBody_witness :
    (TextFrame.read shiftMod64Host 2
      { id := FrameID.ofEnum 46, ID3Ver := 4, frameContent := [9, 9, 0x03, 0x48, 0xC3, 0xA9],
        isNull := false, isEdited := false, textContent := [0x58] }).textContent
      = [0x48, 0xC3, 0xA9] :=
  (text_read_writeBody shiftMod64Host 2
    { id := FrameID.ofEnum 46, ID3Ver := 4, frameContent := [9, 9], isNull := false,
      isEdited := false, textContent := [0x48, 0xC3, 0xA9] }
    { id := FrameID.ofEnum 46, ID3Ver := 4, frameContent := [9, 9, 0x03, 0x48, 0xC3, 0xA9],
      isNull := false, isEdited := false, textContent := [0x58] } rfl (by decide)).1

set_option maxRecDepth 100000 in
theorem frameOptions_descriptive :
    frameOptions (FrameID.ofString "COMM") = OPTION_LANGUAGE ∧
    frameOptions (FrameID.ofString "USLT") = OPTION_LANGUAGE ∧
    frameOptions (FrameID.ofString "TXXX") = 0 ∧
    frameOptions (FrameID.ofString "WXXX") = OPTION_LATIN1_TEXT ∧
    frameOptions (FrameID.ofString "USER") = OPTION_LANGUAGE ||| OPTION_NO_DESCRIPTION := by
  decide

theorem findDescriptionEnd_found (H : Host) (pre D S : ByteArray) (hD : ∀ c ∈ D, c ≠ 0)
    (fuel : Nat) (hf : D.length < fuel) :
    findDescriptionEnd H (pre ++ D ++ 0 :: S) false 1 fuel pre.length
      = pre.length + D.length := by
  induction D generalizing pre fuel with
  | nil =>
    cases fuel with
    | zero => simp at hf
    | succ k =>
      rw [findDescriptionEnd, List.append_nil, readAt_append_cons]
      simp
  | cons d D ih =>
    cases fuel with
    | zero => simp at hf
    | succ k =>
      have hd : d ≠ 0 := hD d (by simp)
      have e : pre ++ d :: D ++ 0 :: S = pre ++ d :: (D ++ 0 :: S) := by simp
      have e2 : pre ++ d :: (D ++ 0 :: S) = (pre ++ [d]) ++ D ++ 0 :: S := by simp
      rw [findDescriptionEnd, e, readAt_append_cons]
      have hin : pre.length + 1 ≤ (pre ++ d :: (D ++ 0 :: S)).length := by simp
      simp only [hin, if_true, hd, if_false]
      have := ih (pre ++ [d]) (fun c hc => hD c (by simp [hc])) k (by simpa using hf)
      rw [e2]
      simpa [Nat.add_assoc, Nat.add_comm 1] using this

theorem writeBody_frameContent (MAX_TAG_SIZE headerSize : Nat)
    (requiredSize : DescriptiveTextFrame → Nat) (f : DescriptiveTextFrame)
    (hsize : requiredSize f ≤ MAX_TAG_SIZE)
    (hnd : f.optionNoDescription = false)
    (hL : f.textLanguage.length = if f.optionLanguage then 3 else 0) :
    DescriptiveTextFrame.writeBody MAX_TAG_SIZE headerSize requiredSize f
      = { f with frameContent :=
            f.frameContent ++ ENCODING_UTF8 :: (f.textLanguage ++ f.textDescription
              ++ 0 :: f.textContent) } := by
  have hs : ¬ requiredSize f > MAX_TAG_SIZE := Nat.not_lt.mpr hsize
  obtain ⟨⟨⟨id, ver, fc, isNull, isEdited⟩, S⟩, D, L, oL, oLat, oND⟩ := f
  simp only at hnd hL
  subst hnd
  cases oL with
  | true =>
    simp only [if_true] at hL
    simp [DescriptiveTextFrame.writeBody, hs, hL, LANGUAGE_SIZE]
  | false =>
    simp only [Bool.false_eq_true, if_false, List.length_eq_zero] at hL
    subst hL
    simp [DescriptiveTextFrame.writeBody, hs]

/-- Reading frame bytes of the shape header, 0x03, language, description, NUL,
content. -/
theorem read_utf8_body (H : Host) (headerSize : Nat) (f : DescriptiveTextFrame)
    (hdr L D S : ByteArray) (hhdr : hdr.length = headerSize)
    (hfc : f.frameContent = hdr ++ ENCODING_UTF8 :: (L ++ D ++ 0 :: S))
    (hD : ∀ c ∈ D, c ≠ 0)
    (hL : L.length = if f.optionLanguage then 3 else 0)
    (hS : f.optionLatin1 = true → ∀ c ∈ S, c < 0x80) :
    (DescriptiveTextFrame.read H headerSize f).textContent = S ∧
    (DescriptiveTextFrame.read H headerSize f).textDescription = D ∧
    (DescriptiveTextFrame.read H headerSize f).textLanguage = L ∧
    (DescriptiveTextFrame.read H headerSize f).isNull = f.isNull := by
  have hlen : f.frameContent.length = headerSize + 1 + L.length + D.length + 1 + S.length := by
    rw [hfc]; simp [hhdr]; omega
  have hnotnull : ¬ f.frameContent.length ≤ headerSize + (if f.optionLanguage then 4 else 1) := by
    rw [hlen, hL]; split <;> omega
  have henc : readAt H f.frameContent headerSize = ENCODING_UTF8 := by
    rw [hfc, ← hhdr, readAt_append_cons]
  have hwide : (ENCODING_UTF8 == ENCODING_UTF16BOM || ENCODING_UTF8 == ENCODING_UTF16) = false := by
    decide
  have hfc2 : f.frameContent = (hdr ++ ENCODING_UTF8 :: L) ++ D ++ 0 :: S := by
    rw [hfc]; simp
  have hpre : (hdr ++ ENCODING_UTF8 :: L).length
      = if f.optionLanguage then headerSize + 1 + 3 else headerSize + 1 := by
    simp [hhdr, hL]; split <;> omega
  have hfind : findDescriptionEnd H f.frameContent false 1 (f.frameContent.length + 1)
      (if f.optionLanguage then headerSize + 1 + 3 else headerSize + 1)
      = headerSize + 1 + L.length + D.length := by
    rw [← hpre]
    conv_lhs => rw [hfc2]
    rw [findDescriptionEnd_found H _ D S hD _ (by rw [← hfc2, hlen]; omega)]
    simp [hhdr]; omega
  have hlang : (if f.optionLanguage then (f.frameContent.drop (headerSize + 1)).take 3 else [])
      = L := by
    cases ho : f.optionLanguage with
    | true =>
      rw [ho] at hL
      simp only [if_true] at hL ⊢
      have e : f.frameContent = (hdr ++ [ENCODING_UTF8]) ++ L ++ (D ++ 0 :: S) := by
        rw [hfc]; simp
      have e2 : headerSize + 1 = (hdr ++ [ENCODING_UTF8]).length := by simp [hhdr]
      rw [e, e2, ← hL, List.append_assoc, List.drop_left, List.take_left]
    | false =>
      rw [ho] at hL
      simp only [Bool.false_eq_true, if_false, List.length_eq_zero] at hL ⊢
      exact hL.symm
  have hds : (if f.optionLanguage then headerSize + 1 + 3 else headerSize + 1)
      = headerSize + 1 + L.length := by
    rw [hL]; split <;> rfl
  have hne : ¬ headerSize + 1 + L.length + D.length = 0 := by omega
  unfold DescriptiveTextFrame.read
  simp only [hnotnull, if_false, henc, hwide, Bool.false_eq_true, hfind, hlang, hne]
  rw [hds]
  have hfc3 : f.frameContent = (hdr ++ ENCODING_UTF8 :: L ++ D ++ [0]) ++ S := by
    rw [hfc]; simp
  have hp3 : (hdr ++ ENCODING_UTF8 :: L ++ D ++ [0]).length
      = headerSize + 1 + L.length + D.length + 1 := by
    simp [hhdr]; omega
  have hsliceS : (f.frameContent.drop (headerSize + 1 + L.length + D.length + 1)).take
      (f.frameContent.length - (headerSize + 1 + L.length + D.length + 1)) = S := by
    rw [hlen, ← hp3, hfc3, List.drop_left]
    simp
  have hsliceD : (f.frameContent.drop (headerSize + 1 + L.length)).take
      (headerSize + 1 + L.length + D.length - (headerSize + 1 + L.length)) = D := by
    have hp : (hdr ++ ENCODING_UTF8 :: L).length = headerSize + 1 + L.length := by
      simp [hhdr]; omega
    have e : f.frameContent = (hdr ++ ENCODING_UTF8 :: L) ++ (D ++ 0 :: S) := by
      rw [hfc]; simp
    rw [← hp, e, List.drop_left]
    simp
  have hcast : ((headerSize + 1 + L.length + D.length : Nat) : Int) + ((1 : Nat) : Int)
      = ((headerSize + 1 + L.length + D.length + 1 : Nat) : Int) := by push_cast; rfl
  refine ⟨?_, ?_, trivial, trivial⟩
  · rw [hcast, getUTF8String_default]
    cases hlat : f.optionLatin1 with
    | true =>
      simp only [if_true]
      rw [getUTF8String_latin1 H _ _ _ (by omega) (Nat.le_refl _), hsliceS]
      exact flatMap_ascii S (hS hlat)
    | false =>
      simp only [Bool.false_eq_true, if_false]
      rw [getUTF8String_utf8 H _ _ _ (Nat.le_refl _), hsliceS]
  · rw [getUTF8String_utf8 H _ _ _ (by omega), hsliceD]


/-- Round trip of a descriptive text frame that has a description field and
is written without truncation. -/
theorem descriptive_roundtrip (H : Host) (MAX_TAG_SIZE headerSize : Nat)
    (requiredSize : DescriptiveTextFrame → Nat) (f : DescriptiveTextFrame)
    (hhdr : f.frameContent.length = headerSize)
    (hsize : requiredSize f ≤ MAX_TAG_SIZE)
    (hnd : f.optionNoDescription = false)
    (hD : ∀ c ∈ f.textDescription, c ≠ 0)
    (hL : f.textLanguage.length = if f.optionLanguage then 3 else 0)
    (hS : f.optionLatin1 = true → ∀ c ∈ f.textContent, c < 0x80) :
    (DescriptiveTextFrame.read H headerSize
        (DescriptiveTextFrame.writeBody MAX_TAG_SIZE headerSize requiredSize f)).textContent
      = f.textContent ∧
    (DescriptiveTextFrame.read H headerSize
        (DescriptiveTextFrame.writeBody MAX_TAG_SIZE headerSize requiredSize f)).textDescription
      = f.textDescription ∧
    (DescriptiveTextFrame.read H headerSize
        (DescriptiveTextFrame.writeBody MAX_TAG_SIZE headerSize requiredSize f)).textLanguage
      = f.textLanguage ∧
    (DescriptiveTextFrame.read H headerSize
        (DescriptiveTextFrame.writeBody MAX_TAG_SIZE headerSize requiredSize f)).isNull
      = f.isNull := by
  rw [writeBody_frameContent MAX_TAG_SIZE headerSize requiredSize f hsize hnd hL]
  exact read_utf8_body H headerSize _ f.frameContent f.textLanguage f.textDescription
    f.textContent hhdr rfl hD hL hS

/-- The round trip of the descriptive frames where it holds: for the option
sets that `frameOptions` gives to COMM and
USLT (language), TXXX (none) and WXXX (Latin-1 text, with ASCII-only content),
when the frame is written without truncation (`requiredSize() ≤ MAX_TAG_SIZE`),
for every content, every description without a NUL byte and every 3-byte
language (empty without the language option), `DescriptiveTextFrame::read` of
the bytes written by `DescriptiveTextFrame::writeBody` after a header yields the
same content, description and language. -/
theorem descriptive_read_writeBody (H : Host) (MAX_TAG_SIZE headerSize : Nat)
    (requiredSize : DescriptiveTextFrame → Nat) (g : DescriptiveTextFrame) (idStr : String)
    (hid : idStr ∈ ["COMM", "USLT", "TXXX", "WXXX"])
    (hhdr : g.frameContent.length = headerSize)
    (hsize : requiredSize (g.setOptions (frameOptions (FrameID.ofString idStr))) ≤ MAX_TAG_SIZE)
    (hD : ∀ c ∈ g.textDescription, c ≠ 0)
    (hL : g.textLanguage.length = if idStr ∈ ["COMM", "USLT"] then 3 else 0)
    (hS : idStr = "WXXX" → ∀ c ∈ g.textContent, c < 0x80) :
    (DescriptiveTextFrame.read H headerSize
        (DescriptiveTextFrame.writeBody MAX_TAG_SIZE headerSize requiredSize
          (g.setOptions (frameOptions (FrameID.ofString idStr))))).textContent
      = g.textContent ∧
    (DescriptiveTextFrame.read H headerSize
        (DescriptiveTextFrame.writeBody MAX_TAG_SIZE headerSize requiredSize
          (g.setOptions (frameOptions (FrameID.ofString idStr))))).textDescription
      = g.textDescription ∧
    (DescriptiveTextFrame.read H headerSize
        (DescriptiveTextFrame.writeBody MAX_TAG_SIZE headerSize requiredSize
          (g.setOptions (frameOptions (FrameID.ofString idStr))))).textLanguage
      = g.textLanguage := by
  have key : ∀ options : Nat,
      requiredSize (g.setOptions options) ≤ MAX_TAG_SIZE →
      ((options &&& OPTION_NO_DESCRIPTION) == OPTION_NO_DESCRIPTION) = false →
      (g.textLanguage.length
        = if ((options &&& OPTION_LANGUAGE) == OPTION_LANGUAGE) = true then 3 else 0) →
      (((options &&& OPTION_LATIN1_TEXT) == OPTION_LATIN1_TEXT) = true →
        ∀ c ∈ g.textContent, c < 0x80) →
      (DescriptiveTextFrame.read H headerSize
          (DescriptiveTextFrame.writeBody MAX_TAG_SIZE headerSize requiredSize
            (g.setOptions options))).textContent = g.textContent ∧
      (DescriptiveTextFrame.read H headerSize
          (DescriptiveTextFrame.writeBody MAX_TAG_SIZE headerSize requiredSize
            (g.setOptions options))).textDescription = g.textDescription ∧
      (DescriptiveTextFrame.read H headerSize
          (DescriptiveTextFrame.writeBody MAX_TAG_SIZE headerSize requiredSize
            (g.setOptions options))).textLanguage = g.textLanguage := by
    intro options hsz hnd hL' hS'
    have h := descriptive_roundtrip H MAX_TAG_SIZE headerSize requiredSize
      (g.setOptions options) hhdr hsz hnd hD hL' hS'
    exact ⟨h.1, h.2.1, h.2.2.1⟩
  simp only [List.mem_cons, List.mem_singleton, List.not_mem_nil, or_false] at hid
  rcases hid with rfl | rfl | rfl | rfl
  · rw [frameOptions_descriptive.1] at hsize ⊢
    have hL3 : g.textLanguage.length = 3 := by rw [hL]; decide
    exact key _ hsize (by decide) (by rw [hL3]; decide) (fun h => absurd h (by decide))
  · rw [frameOptions_descriptive.2.1] at hsize ⊢
    have hL3 : g.textLanguage.length = 3 := by rw [hL]; decide
    exact key _ hsize (by decide) (by rw [hL3]; decide) (fun h => absurd h (by decide))
  · rw [frameOptions_descriptive.2.2.1] at hsize ⊢
    have hL0 : g.textLanguage.length = 0 := by rw [hL]; decide
    exact key _ hsize (by decide) (by rw [hL0]; decide) (fun h => absurd h (by decide))
  · rw [frameOptions_descriptive.2.2.2.1] at hsize ⊢
    have hL0 : g.textLanguage.length = 0 := by rw [hL]; decide
    exact key _ hsize (by decide) (by rw [hL0]; decide) (fun _ => hS rfl)

theorem descriptive_read_writeBody_witness :
    (DescriptiveTextFrame.read shiftMod64Host 10
        (DescriptiveTextFrame.writeBody 1000 10 (fun _ => 0)
          (exampleCOMM.setOptions (frameOptions (FrameID.ofString "COMM"))))).textContent
      = [0x48, 0x69] :=
  (descriptive_read_writeBody shiftMod64Host 1000 10 (fun _ => 0) exampleCOMM "COMM"
    (by decide) (by decide) (by decide) (by decide) (by decide) (by decide)).1

set_option maxRecDepth 100000 in
/-- C3 (code defect): `DescriptiveTextFrame::read` does not consult the options
as `DescriptiveTextFrame::writeBody` does.  A USER frame (language, no
description) with content `ab` is written as `03 65 6E 67 61 62`, without a
description and its NUL; `read` never tests `optionNoDescription`: it finds no
NUL byte, takes the description to be empty and starts the content one byte
after the description start, so a frame that holds these bytes is read with the
content `b`.  A WXXX frame (Latin-1 text) with the content `C3 A9` and the
description `d` is written as `03 64 00 C3 A9`, the content as the UTF-8 bytes
it is; `read` decodes the content as Latin-1, so a frame that holds these bytes
is read with the content `C3 83 C2 A9`.  In both cases the frame read holds no
decoded field before the read. -/
theorem DescriptiveTextFrame_USER_content_lost :
    (DescriptiveTextFrame.writeBody 1000 10 (fun _ => 0)
        (exampleUSER.setOptions (frameOptions (FrameID.ofString "USER")))).frameContent
      = List.replicate 10 0 ++ [0x03, 0x65, 0x6E, 0x67, 0x61, 0x62] ∧
    (DescriptiveTextFrame.read shiftMod64Host 10
        (DescriptiveTextFrame.writeBody 1000 10 (fun _ => 0)
          (exampleUSER.setOptions (frameOptions (FrameID.ofString "USER")))).unread).textContent
      = [0x62] ∧
    (DescriptiveTextFrame.read shiftMod64Host 10
        (DescriptiveTextFrame.writeBody 1000 10 (fun _ => 0)
          (exampleUSER.setOptions (frameOptions (FrameID.ofString "USER")))).unread).textLanguage
      = [0x65, 0x6E, 0x67] ∧
    exampleUSER.textContent = [0x61, 0x62] ∧
    (DescriptiveTextFrame.writeBody 1000 10 (fun _ => 0)
        (exampleWXXX.setOptions (frameOptions (FrameID.ofString "WXXX")))).frameContent
      = List.replicate 10 0 ++ [0x03, 0x64, 0x00, 0xC3, 0xA9] ∧
    (DescriptiveTextFrame.read shiftMod64Host 10
        (DescriptiveTextFrame.writeBody 1000 10 (fun _ => 0)
          (exampleWXXX.setOptions (frameOptions (FrameID.ofString "WXXX")))).unread).textContent
      = [0xC3, 0x83, 0xC2, 0xA9] ∧
    (DescriptiveTextFrame.read shiftMod64Host 10
        (DescriptiveTextFrame.writeBody 1000 10 (fun _ => 0)
          (exampleWXXX.setOptions (frameOptions (FrameID.ofString "WXXX")))).unread).textDescription
      = [0x64] ∧
    exampleWXXX.textContent = [0xC3, 0xA9] := by
  rw [frameOptions_descriptive.2.2.2.2, frameOptions_descriptive.2.2.2.1]
  decide

/-! ## Claims on the encoding codec and the frame factory -/

/-- C5: on a range `[start, end)` inside the vector, `latin1toutf8` returns the
concatenation, in order, of the images of the bytes of the range, a byte below
0x80 giving itself and a byte `c` from 0x80 on giving `0xC0 | (c >> 6)`,
`0x80 | (c & 0x3F)`; for bytes (values below 256) this is the UTF-8 encoding of
the code points equal to the bytes, both after the Unicode standard
(`utf8OfCodePoint`) and after Lean's own `String.utf8EncodeChar`. -/
theorem latin1toutf8_spec (H : Host) (latin1s : ByteArray) (start end_ : Nat)
    (h1 : start ≤ end_) (h2 : end_ ≤ latin1s.length) :
    latin1toutf8 H latin1s start end_
      = ((latin1s.drop start).take (end_ - start)).flatMap latin1Image ∧
    ((∀ c ∈ (latin1s.drop start).take (end_ - start), c < 256) →
      latin1toutf8 H latin1s start end_
        = ((latin1s.drop start).take (end_ - start)).flatMap utf8OfCodePoint ∧
      latin1toutf8 H latin1s start end_
        = ((latin1s.drop start).take (end_ - start)).flatMap
            (fun c => (String.utf8EncodeChar (Char.ofNat c)).map UInt8.toNat)) := by
  have h := latin1toutf8_eq_flatMap H latin1s start end_ h1 h2
  refine ⟨h, fun hb => ⟨?_, ?_⟩⟩
  · rw [h]
    apply List.flatMap_congr
    intro c hc
    exact latin1Image_eq_utf8 c (hb c hc)
  · rw [h]
    apply List.flatMap_congr
    intro c hc
    exact latin1Image_eq_core ⟨c, hb c hc⟩

theorem latin1toutf8_spec_witness :
    latin1toutf8 shiftMod64Host [0x41, 0xE9, 0x42] ((0 : Nat) : Int) ((3 : Nat) : Int)
      = [0x41, 0xC3, 0xA9, 0x42] := by
  have h := (latin1toutf8_spec shiftMod64Host [0x41, 0xE9, 0x42] 0 3 (by decide) (by decide)).1
  rw [h]
  decide

/-- C6: for the encoding byte 0x01 and a range of even length at least 2
inside a vector of bytes, `getUTF8String` returns the conversion of the
little-endian code units after the mark when the range begins with `FF FE`, of
the big-endian code units after the mark when it begins with `FE FF`, and of
the big-endian code units of the whole range otherwise. -/
theorem getUTF8String_utf16bom (H : Host) (bytes : ByteArray) (hb : ∀ c ∈ bytes, c < 256)
    (start end_ : Nat) (h2 : end_ ≤ bytes.length) (hlen : 2 ≤ end_ - start)
    (heven : (end_ - start) % 2 = 0) :
    getUTF8String H 0x01 bytes start end_ =
      if ((bytes.drop start).take (end_ - start)).take 2 = [0xFF, 0xFE] then
        H.toUTF8 (unitsLE (((bytes.drop start).take (end_ - start)).drop 2))
      else if ((bytes.drop start).take (end_ - start)).take 2 = [0xFE, 0xFF] then
        H.toUTF8 (unitsBE (((bytes.drop start).take (end_ - start)).drop 2))
      else H.toUTF8 (unitsBE ((bytes.drop start).take (end_ - start))) :=
  utf16_conversion_cases H 0x01 (Or.inl rfl) bytes hb start end_ h2 hlen heven

theorem getUTF8String_utf16bom_witness :
    getUTF8String shiftMod64Host 0x01 [0xFF, 0xFE, 0x41, 0x00, 0x42, 0x00]
        ((0 : Nat) : Int) ((6 : Nat) : Int)
      = [0x41, 0x42] := by
  rw [getUTF8String_utf16bom shiftMod64Host [0xFF, 0xFE, 0x41, 0x00, 0x42, 0x00] (by decide)
    0 6 (by decide) (by decide) (by decide)]
  decide

/-- C7 fails as stated: with the encoding byte 0x02 the range `FF FE 41 00` is
not converted as the big-endian code units `FFFE 4100`; the mark is found and
stripped and the rest is read little-endian, which gives `A`. -/
theorem getUTF8String_utf16_bom_stripped :
    getUTF8String shiftMod64Host 0x02 [0xFF, 0xFE, 0x41, 0x00] 0 4 = [0x41] ∧
    shiftMod64Host.toUTF8 (unitsBE [0xFF, 0xFE, 0x41, 0x00])
      = [0xEF, 0xBF, 0xBE, 0xE4, 0x84, 0x80] ∧
    getUTF8String shiftMod64Host 0x02 [0xFF, 0xFE, 0x41, 0x00] 0 4
      ≠ shiftMod64Host.toUTF8 (unitsBE [0xFF, 0xFE, 0x41, 0x00]) := by
  decide

/-- C7 (as amended): for the encoding byte 0x02 and a range of even length at
least 2 inside a vector of bytes, `getUTF8String` does what it does for 0x01:
a leading `FF FE` is stripped and the rest read little-endian, a leading
`FE FF` is stripped and the rest read big-endian, and every other range is
converted whole as big-endian code units, nothing stripped or swapped. -/
theorem getUTF8String_utf16be (H : Host) (bytes : ByteArray) (hb : ∀ c ∈ bytes, c < 256)
    (start end_ : Nat) (h2 : end_ ≤ bytes.length) (hlen : 2 ≤ end_ - start)
    (heven : (end_ - start) % 2 = 0) :
    getUTF8String H 0x02 bytes start end_ =
      if ((bytes.drop start).take (end_ - start)).take 2 = [0xFF, 0xFE] then
        H.toUTF8 (unitsLE (((bytes.drop start).take (end_ - start)).drop 2))
      else if ((bytes.drop start).take (end_ - start)).take 2 = [0xFE, 0xFF] then
        H.toUTF8 (unitsBE (((bytes.drop start).take (end_ - start)).drop 2))
      else H.toUTF8 (unitsBE ((bytes.drop start).take (end_ - start))) :=
  utf16_conversion_cases H 0x02 (Or.inr rfl) bytes hb start end_ h2 hlen heven

theorem getUTF8String_utf16be_witness :
    getUTF8String shiftMod64Host 0x02 [0x00, 0x41, 0x00, 0xE9]
        ((0 : Nat) : Int) ((4 : Nat) : Int)
      = [0x41, 0xC3, 0xA9] := by
  rw [getUTF8String_utf16be shiftMod64Host [0x00, 0x41, 0x00, 0xE9] (by decide)
    0 4 (by decide) (by decide) (by decide)]
  decide

theorem lookup_emplaceAll_none (s : String) (l : List String) (i : Nat)
    (m : List (String × Nat)) (hm : m.lookup s = none) (hl : s ∉ l) :
    (emplaceAll l i m).lookup s = none := by
  induction l generalizing i m with
  | nil => simpa [emplaceAll] using hm
  | cons x rest ih =>
    rw [emplaceAll]
    apply ih
    · split
      · exact hm
      · rw [List.lookup_append, hm]
        have hx : (s == x) = false := by
          rw [beq_eq_false_iff_ne]
          exact fun h => hl (by simp [h])
        simp [List.lookup, hx]
    · exact fun h => hl (by simp [h])

theorem getFrameName_unknown (s : String) (h : s ∉ FRAME_STR_LIST) :
    getFrameName s = FRAME_UNKNOWN_FRAME := by
  unfold getFrameName FRAME_STR_ENUM_MAP
  rw [lookup_emplaceAll_none s FRAME_STR_LIST 0 [] rfl h]

set_option maxRecDepth 100000 in
theorem frameType_registry :
    ∀ s ∈ FRAME_STR_LIST, frameType (FrameID.ofString s) = specCategory s := by
  decide

/-- C10: for every frame ID of the registry `FrameFactory::frameType` returns
the category of the table of section 4.E (APIC picture; COMM, USLT, USER, TXXX,
WXXX descriptive; TBPM, TDAT, TDLY, TIME, TLEN, TORY, TYER numerical-text; PCNT
play-count; POPM popularimeter; ETCO event-timing; IPLS, TIPL and every other
`T` text; every other `W` URL; the rest unknown), and for every ID outside the
registry it returns unknown. -/
theorem frameType_table (s : String) :
    frameType (FrameID.ofString s) = specCategory s ∧
    (s ∉ FRAME_STR_LIST → frameType (FrameID.ofString s) = FrameClass.CLASS_UNKNOWN) := by
  have hun : s ∉ FRAME_STR_LIST → frameType (FrameID.ofString s) = FrameClass.CLASS_UNKNOWN := by
    intro h
    simp [frameType, FrameID.unknown, FrameID.ofString, getFrameName_unknown s h]
  refine ⟨?_, hun⟩
  by_cases h : s ∈ FRAME_STR_LIST
  · exact frameType_registry s h
  · rw [hun h]
    simp [specCategory, h]

/-! ## Multi-value text: `TextFrame::contents` -/

theorem splitOn_append_sep (sep : Nat) (a b : ByteArray) :
    (a ++ sep :: b).splitOn sep = a.splitOn sep ++ b.splitOn sep := by
  induction a with
  | nil => simp [List.splitOn, List.splitOnP_cons, List.splitOnP_nil]
  | cons x a ih =>
    simp only [List.splitOn] at ih ⊢
    rw [List.cons_append, List.splitOnP_cons, List.splitOnP_cons, ih]
    by_cases hx : (x == sep) = true
    · simp [hx]
    · simp only [hx, if_false]
      cases hs : List.splitOnP (fun y => y == sep) a with
      | nil => exact absurd hs (List.splitOnP_ne_nil _ _)
      | cons h t => simp

theorem splitOn_eq_single (sep : Nat) (run : ByteArray) (h : sep ∉ run) :
    run.splitOn sep = [run] := by
  apply List.splitOnP_eq_single
  intro x hx hxs
  have : x = sep := by simpa using hxs
  exact h (this ▸ hx)

theorem nonEmptyRuns_nil (sep : Nat) : nonEmptyRuns sep [] = [] := by
  simp [nonEmptyRuns, List.splitOn, List.splitOnP_nil]

theorem nonEmptyRuns_append_sep (sep : Nat) (a b : ByteArray) :
    nonEmptyRuns sep (a ++ sep :: b) = nonEmptyRuns sep a ++ nonEmptyRuns sep b := by
  simp [nonEmptyRuns, splitOn_append_sep]

theorem nonEmptyRuns_single (sep : Nat) (run : ByteArray) (h : sep ∉ run) :
    nonEmptyRuns sep run = if run = [] then [] else [run] := by
  rw [nonEmptyRuns, splitOn_eq_single sep run h]
  cases run <;> simp

theorem indexOf_not_mem (sep : Nat) (l : ByteArray) (h : sep ∉ l) :
    l.indexOf sep = l.length := by
  induction l with
  | nil => rfl
  | cons x xs ih =>
    have hx : (x == sep) = false := by
      rw [beq_eq_false_iff_ne]
      exact fun e => h (by simp [e])
    simp [List.indexOf_cons, hx, ih (fun hm => h (by simp [hm]))]

theorem indexOf_append_sep (sep : Nat) (run rest' : ByteArray) (h : sep ∉ run) :
    (run ++ sep :: rest').indexOf sep = run.length := by
  induction run with
  | nil => simp [List.indexOf_cons]
  | cons x xs ih =>
    have hx : (x == sep) = false := by
      rw [beq_eq_false_iff_ne]
      exact fun e => h (by simp [e])
    simp [List.indexOf_cons, hx, ih (fun hm => h (by simp [hm]))]

/-- Every byte string either has no separator or splits at its first one. -/
theorem first_sep_split (sep : Nat) (rest : ByteArray) :
    sep ∉ rest ∨ ∃ run rest', rest = run ++ sep :: rest' ∧ sep ∉ run := by
  induction rest with
  | nil => left; simp
  | cons x xs ih =>
    by_cases hx : x = sep
    · right
      exact ⟨[], xs, by simp [hx], by simp⟩
    · rcases ih with hn | ⟨run, rest', he, hn⟩
      · left
        intro hm
        rcases List.mem_cons.mp hm with h | h
        · exact hx h.symm
        · exact hn h
      · right
        refine ⟨x :: run, rest', by simp [he], ?_⟩
        intro hm
        rcases List.mem_cons.mp hm with h | h
        · exact hx h.symm
        · exact hn h

theorem stringFind_none (str : ByteArray) (sep pos : Nat) (h : sep ∉ str.drop pos) :
    stringFind str sep pos = none := by
  simp [stringFind, indexOf_not_mem sep _ h]

theorem stringFind_some (str : ByteArray) (sep pos : Nat) (run rest' : ByteArray)
    (he : str.drop pos = run ++ sep :: rest') (hn : sep ∉ run) :
    stringFind str sep pos = some (pos + run.length) := by
  simp [stringFind, he, indexOf_append_sep sep run rest' hn]

/-- The loop of `TextFrame::contents()` followed by the push of the last token:
the tokens found from `tokenStart` on are the non-empty runs of the rest of the
content. -/
theorem contentsLoop_runs (str : ByteArray) (sep : Nat) (fuel tokenStart : Nat)
    (tokens : List ByteArray) (hts : tokenStart ≤ str.length)
    (hfuel : str.length - tokenStart < fuel) :
    (if (contentsLoop str sep fuel tokenStart tokens).2 < str.length then
        (contentsLoop str sep fuel tokenStart tokens).1
          ++ [str.drop (contentsLoop str sep fuel tokenStart tokens).2]
      else (contentsLoop str sep fuel tokenStart tokens).1)
      = tokens ++ nonEmptyRuns sep (str.drop tokenStart) := by
  induction fuel generalizing tokenStart tokens with
  | zero => omega
  | succ fuel ih =>
    rcases first_sep_split sep (str.drop tokenStart) with hn | ⟨run, rest', he, hn⟩
    · rw [contentsLoop, stringFind_none str sep tokenStart hn, nonEmptyRuns_single sep _ hn]
      by_cases hlt : tokenStart < str.length
      · have : str.drop tokenStart ≠ [] := by
          intro h
          have := congrArg List.length h
          simp at this
          omega
        simp [hlt, this]
      · have : str.drop tokenStart = [] := List.drop_eq_nil_of_le (by omega)
        simp [hlt, this]
    · have hlen : (str.drop tokenStart).length = run.length + 1 + rest'.length := by
        rw [he]; simp; omega
      have hlen' : str.length - tokenStart = run.length + 1 + rest'.length := by
        rw [← hlen]; simp
      have hdrop : str.drop (tokenStart + run.length + 1) = rest' := by
        have : str.drop (tokenStart + run.length + 1)
            = (str.drop tokenStart).drop (run.length + 1) := by
          rw [List.drop_drop]; congr 1
        rw [this, he]
        simp
      have hsub : substr str tokenStart (tokenStart + run.length - tokenStart) = run := by
        simp [substr, he]
      rw [contentsLoop, stringFind_some str sep tokenStart run rest' he hn]
      simp only
      rw [ih (tokenStart + run.length + 1) _ (by omega) (by omega), hdrop, he,
        nonEmptyRuns_append_sep, nonEmptyRuns_single sep run hn, hsub]
      by_cases hr : run = []
      · simp [hr]
      · have : tokenStart + run.length > tokenStart := by
          have : 0 < run.length := List.length_pos.mpr hr
          omega
        simp [hr, this]


/-- The result of `TextFrame::contents()` in terms of the runs of the content. -/
theorem contents_eq_runs (f : TextFrame) :
    f.contents =
      if nonEmptyRuns f.stringSeparator f.textContent = [] then [[]]
      else nonEmptyRuns f.stringSeparator f.textContent := by
  unfold TextFrame.contents
  by_cases he : f.textContent = []
  · simp [he, nonEmptyRuns_nil]
  · simp only [he, if_false]
    have h := contentsLoop_runs f.textContent f.stringSeparator (f.textContent.length + 1) 0 []
      (Nat.zero_le _) (by omega)
    simp only [List.drop_zero, List.nil_append] at h
    simp only [h, List.length_eq_zero]

/-! ## The values of a text frame -/

theorem splitOn_no_sep (sep : Nat) (l : ByteArray) : ∀ r ∈ l.splitOn sep, sep ∉ r := by
  induction l with
  | nil => simp [List.splitOn, List.splitOnP_nil]
  | cons x xs ih =>
    simp only [List.splitOn] at ih ⊢
    rw [List.splitOnP_cons]
    by_cases hx : (x == sep) = true
    · simp only [hx, if_true]
      intro r hr
      rcases List.mem_cons.mp hr with h | h
      · simp [h]
      · exact ih r h
    · simp only [hx, if_false]
      cases hs : List.splitOnP (fun y => y == sep) xs with
      | nil => exact absurd hs (List.splitOnP_ne_nil _ _)
      | cons h t =>
        rw [hs] at ih
        intro r hr
        rw [List.modifyHead_cons] at hr
        rcases List.mem_cons.mp hr with e | e
        · rw [e]
          intro hm
          rcases List.mem_cons.mp hm with h1 | h1
          · exact hx (by simp [h1])
          · exact ih h (by simp) h1
        · exact ih r (List.mem_cons_of_mem _ e)

theorem nonEmptyRuns_mem (sep : Nat) (content : ByteArray) :
    ∀ r ∈ nonEmptyRuns sep content, r ≠ [] ∧ sep ∉ r := by
  intro r hr
  simp only [nonEmptyRuns, List.mem_filter] at hr
  refine ⟨?_, splitOn_no_sep sep content r hr.1⟩
  intro h
  simp [h] at hr

/-- C16: `TextFrame::contents()` returns, in order, the maximal non-empty runs
of the content that contain no separator (the pieces of the content between
separators that are not empty), the separator being `stringSeparator()`; when
there is no such run it returns the one-element vector holding the empty
string.  The result is never empty, and it holds an empty string only in that
case. -/
theorem contents_spec (f : TextFrame) :
    f.contents =
      (if nonEmptyRuns f.stringSeparator f.textContent = [] then [[]]
       else nonEmptyRuns f.stringSeparator f.textContent) ∧
    (∀ r ∈ nonEmptyRuns f.stringSeparator f.textContent, r ≠ [] ∧ f.stringSeparator ∉ r) ∧
    f.contents ≠ [] ∧
    ([] ∈ f.contents → f.contents = [[]]) := by
  have h := contents_eq_runs f
  have hm := nonEmptyRuns_mem f.stringSeparator f.textContent
  refine ⟨h, hm, ?_, ?_⟩
  · rw [h]; split <;> simp [*]
  · rw [h]
    split
    · intro _; rfl
    · intro hmem
      exact absurd rfl (hm [] hmem).1

set_option maxRecDepth 100000 in
theorem contents_spec_witness :
    (exampleText "TPE1" 3 [0x41, 0x6C, 0x69, 0x63, 0x65, 0x2F, 0x42, 0x6F, 0x62]).contents
      = [[0x41, 0x6C, 0x69, 0x63, 0x65], [0x42, 0x6F, 0x62]] ∧
    (exampleText "TPE1" 4 [0x41, 0x6C, 0x69, 0x63, 0x65, 0x00, 0x42, 0x6F, 0x62]).contents
      = [[0x41, 0x6C, 0x69, 0x63, 0x65], [0x42, 0x6F, 0x62]] := by
  rw [(contents_spec _).1, (contents_spec _).1]
  decide

/-! ## Separators and numerical text frames -/

set_option maxRecDepth 100000 in
theorem stringSeparator_registry :
    ∀ s ∈ FRAME_STR_LIST,
      (exampleText s 3 []).stringSeparator
        = if s ∈ ["TCOM", "TEXT", "TOLY", "TOPE", "TPE1"] then 0x2F else 0 := by
  decide

theorem stringSeparator_congr (f g : TextFrame) (hid : f.id = g.id) (hver : f.ID3Ver = g.ID3Ver) :
    f.stringSeparator = g.stringSeparator := by
  simp [TextFrame.stringSeparator, hid, hver]

set_option maxRecDepth 100000 in
theorem unknown_enum_no_slash :
    ¬ (FRAME_UNKNOWN_FRAME = FRAME_COMPOSER ∨ FRAME_UNKNOWN_FRAME = FRAME_LYRICIST ∨
       FRAME_UNKNOWN_FRAME = FRAME_ORIGINAL_LYRICIST ∨
       FRAME_UNKNOWN_FRAME = FRAME_ORIGINAL_ARTIST ∨ FRAME_UNKNOWN_FRAME = FRAME_ARTIST) := by
  decide

theorem stringSeparator_unknown (f : TextFrame) (h : f.id.enumID = FRAME_UNKNOWN_FRAME) :
    f.stringSeparator = 0 := by
  unfold TextFrame.stringSeparator
  rw [h, if_neg (fun hc => unknown_enum_no_slash hc.2)]

theorem stringSeparator_cases (f : TextFrame) :
    f.stringSeparator = 0x2F ∨ f.stringSeparator = 0 := by
  unfold TextFrame.stringSeparator
  split
  · left; rfl
  · right; rfl

/-- C17: for a text frame of version 3, `stringSeparator()` is the slash
exactly when the frame ID is one of TCOM, TEXT, TOLY, TOPE, TPE1 and the NUL
byte for every other ID (registered or not); for a text frame of version 4 it
is the NUL byte for every frame ID. -/
theorem stringSeparator_spec (f : TextFrame) (s : String) :
    ({ f with id := FrameID.ofString s, ID3Ver := 3 } : TextFrame).stringSeparator
      = (if s ∈ ["TCOM", "TEXT", "TOLY", "TOPE", "TPE1"] then 0x2F else 0) ∧
    (f.ID3Ver = 3 →
      (f.stringSeparator = 0x2F ↔
        f.id.enumID ∈ [FRAMEID "TCOM", FRAMEID "TEXT", FRAMEID "TOLY", FRAMEID "TOPE",
          FRAMEID "TPE1"]) ∧
      (f.stringSeparator ≠ 0x2F → f.stringSeparator = 0)) ∧
    (f.ID3Ver = 4 → f.stringSeparator = 0) := by
  refine ⟨?_, ?_, ?_⟩
  · have hc := stringSeparator_congr
      ({ f with id := FrameID.ofString s, ID3Ver := 3 } : TextFrame) (exampleText s 3 []) rfl rfl
    rw [hc]
    by_cases h : s ∈ FRAME_STR_LIST
    · exact stringSeparator_registry s h
    · have hn : s ∉ ["TCOM", "TEXT", "TOLY", "TOPE", "TPE1"] := by
        intro hm
        apply h
        simp only [List.mem_cons, List.mem_singleton, List.not_mem_nil, or_false] at hm
        rcases hm with rfl | rfl | rfl | rfl | rfl <;> decide
      rw [if_neg hn]
      apply stringSeparator_unknown
      unfold exampleText FrameID.ofString
      dsimp only
      exact getFrameName_unknown s h
  · intro hv
    constructor
    · simp only [TextFrame.stringSeparator, hv, FRAME_COMPOSER, FRAME_LYRICIST,
        FRAME_ORIGINAL_LYRICIST, FRAME_ORIGINAL_ARTIST, FRAME_ARTIST, List.mem_cons,
        List.mem_singleton, List.not_mem_nil, or_false]
      constructor
      · intro h
        by_contra hc
        simp [hc] at h
      · intro h
        simp [h]
    · intro h
      rcases stringSeparator_cases f with h1 | h1
      · exact absurd h1 h
      · exact h1
  · intro hv
    simp [TextFrame.stringSeparator, hv]

set_option maxRecDepth 100000 in
theorem stringSeparator_spec_witness :
    ((exampleText "TPE1" 3 []).ID3Ver = 3 ∧ (exampleText "TPE1" 4 []).ID3Ver = 4) ∧
    (exampleText "TPE1" 3 []).stringSeparator = 0x2F ∧
    (exampleText "TPE1" 4 []).stringSeparator = 0 :=
  ⟨⟨rfl, rfl⟩,
   ((stringSeparator_spec (exampleText "TPE1" 3 []) "TPE1").2.1 rfl).1.mpr (by decide),
   (stringSeparator_spec (exampleText "TPE1" 4 []) "TPE1").2.2 rfl⟩

/-! ### Numerical text frames -/

theorem numericalString_iff (s : ByteArray) :
    numericalString s = true ↔ ∀ c ∈ s, 0x30 ≤ c ∧ c ≤ 0x39 := by
  simp [numericalString, List.all_eq_true]

theorem sep_not_mem_digits (f : TextFrame) (s : ByteArray) (h : numericalString s = true) :
    f.stringSeparator ∉ s := by
  intro hm
  have hd := (numericalString_iff s).mp h _ hm
  rcases stringSeparator_cases f with h1 | h1 <;> rw [h1] at hd <;> omega

theorem joinLoop_runs (sep : Nat) (l : List ByteArray) (acc : ByteArray)
    (h : ∀ s ∈ l, sep ∉ s) :
    nonEmptyRuns sep (joinLoop sep l acc)
      = nonEmptyRuns sep acc ++ l.filter (fun s => !s.isEmpty) := by
  induction l generalizing acc with
  | nil => simp [joinLoop]
  | cons s rest ih =>
    have hs : sep ∉ s := h s (by simp)
    rw [joinLoop, ih _ (fun x hx => h x (by simp [hx]))]
    by_cases ha : acc = []
    · subst ha
      simp only [ne_eq, not_true_eq_false, if_false, List.nil_append, nonEmptyRuns_nil]
      rw [nonEmptyRuns_single sep s hs]
      cases s <;> simp
    · simp only [ne_eq, ha, not_false_eq_true, if_true, List.append_assoc,
        List.singleton_append]
      rw [nonEmptyRuns_append_sep, nonEmptyRuns_single sep s hs]
      cases s <;> simp

/-- C18: after `NumericalTextFrame::contents(vs)`, `contents()` is the sublist, in
order, of the elements of `vs` that are not empty and hold only the ASCII
digits 0x30 to 0x39, or the one-element vector holding the empty string when
there is none. -/
theorem numerical_setContents_contents (f : TextFrame) (vs : List ByteArray) :
    (NumericalTextFrame.setContents f vs).contents =
      if vs.filter (fun s => !s.isEmpty && s.all (fun c => decide (0x30 ≤ c ∧ c ≤ 0x39))) = []
      then [[]]
      else vs.filter (fun s => !s.isEmpty && s.all (fun c => decide (0x30 ≤ c ∧ c ≤ 0x39))) := by
  have hsep : (NumericalTextFrame.setContents f vs).stringSeparator = f.stringSeparator := by
    apply stringSeparator_congr
    · unfold NumericalTextFrame.setContents TextFrame.setContents
      simp only
      split <;> rfl
    · unfold NumericalTextFrame.setContents TextFrame.setContents
      simp only
      split <;> rfl
  have htext : (NumericalTextFrame.setContents f vs).textContent
      = joinLoop f.stringSeparator (vs.filter numericalString) [] := by
    unfold NumericalTextFrame.setContents TextFrame.setContents
    simp only
    split
    · rfl
    · rename_i hlen
      have : vs.filter numericalString = [] := by
        apply List.eq_nil_of_length_eq_zero
        omega
      simp [this, joinLoop]
  have hruns : nonEmptyRuns f.stringSeparator
      (joinLoop f.stringSeparator (vs.filter numericalString) [])
      = vs.filter (fun s => !s.isEmpty && s.all (fun c => decide (0x30 ≤ c ∧ c ≤ 0x39))) := by
    rw [joinLoop_runs _ _ _ (fun s hs => sep_not_mem_digits f s (List.mem_filter.mp hs).2),
      nonEmptyRuns_nil, List.nil_append, List.filter_filter]
    apply List.filter_congr
    intro s _
    simp [numericalString, Bool.and_comm]
  rw [contents_eq_runs, hsep, htext, hruns]

/-! ## Negative values, URL frames and the v2.2 conversion map -/

set_option maxRecDepth 100000 in
/-- C19 (code defect): the integer setters and constructors of
`NumericalTextFrame` store `std::to_string` of the value without the test that
the string setters make, so a negative value leaves the element `-5`, which
holds the byte 0x2D; the string setter with the same text leaves the content
empty. -/
theorem numerical_negative_value :
    (NumericalTextFrame.setContentInt (exampleText "TBPM" 4 []) (-5)).contents
      = [[0x2D, 0x35]] ∧
    (NumericalTextFrame.ofInt (exampleText "TBPM" 4 []).toFrame (-5)).contents
      = [[0x2D, 0x35]] ∧
    (NumericalTextFrame.setContentsInt (exampleText "TBPM" 4 []) [7, -5]).contents
      = [[0x37], [0x2D, 0x35]] ∧
    (NumericalTextFrame.appendInt (exampleText "TBPM" 4 [0x37]) (-5)).contents
      = [[0x37], [0x2D, 0x35]] ∧
    numericalString [0x2D, 0x35] = false ∧
    (NumericalTextFrame.setContent (exampleText "TBPM" 4 [0x37]) [0x2D, 0x35]).contents
      = [[]] := by
  decide

/-- C20 (code defect): `URLTextFrame::read` tests
`frameContent.size() - 1 > HEADER_SIZE`, so a URL frame whose body is the one
byte `a` after a ten-byte header is read with empty content, while
`latin1toutf8` of the body is `a`. -/
theorem url_read_one_byte_body :
    (URLTextFrame.read shiftMod64Host 10
        { exampleText "WOAF" 4 [] with frameContent := List.replicate 10 0 ++ [0x61] }).textContent
      = [] ∧
    latin1toutf8 shiftMod64Host [0x61] 0 END_DEFAULT = [0x61] ∧
    (URLTextFrame.read shiftMod64Host 10
        { exampleText "WOAF" 4 [] with
          frameContent := List.replicate 10 0 ++ [0x61, 0x62] }).textContent
      = [0x61, 0x62] := by
  refine ⟨?_, by decide, ?_⟩
  · simp [URLTextFrame.read, exampleText]
  · simp [URLTextFrame.read, exampleText]
    decide

/-- Reading a URL frame whose body has at least two bytes: the content is the
Latin-1 conversion of the whole body. -/
theorem url_read_body (H : Host) (headerSize : Nat) (f : TextFrame) (hdr B : ByteArray)
    (hfc : f.frameContent = hdr ++ B) (hhdr : hdr.length = headerSize) (hB : 2 ≤ B.length)
    (hsz : f.frameContent.length < 2 ^ 64) :
    (URLTextFrame.read H headerSize f).textContent = B.flatMap latin1Image := by
  have hlen : f.frameContent.length = headerSize + B.length := by rw [hfc]; simp [hhdr]
  have hcond : (f.frameContent.length + 2 ^ 64 - 1) % 2 ^ 64 > headerSize := by
    have e : f.frameContent.length + 2 ^ 64 - 1 = (f.frameContent.length - 1) + 2 ^ 64 := by
      omega
    rw [e, Nat.add_mod_right, Nat.mod_eq_of_lt (by omega)]
    omega
  unfold URLTextFrame.read
  rw [if_pos hcond]
  show getUTF8String H ENCODING_LATIN1 f.frameContent (headerSize : Int) END_DEFAULT = _
  rw [getUTF8String_default, getUTF8String_latin1 H _ _ _ (by omega) (Nat.le_refl _), hfc,
    ← hhdr, List.drop_left]
  simp

set_option maxRecDepth 100000 in
/-- C12 (code defect): the entry `TOF` of `V2_FRAME_CONVERSION_MAP` has the target
`TOFN`, which is not in `FRAME_STR_LIST` (the list spells it `TOFL`), so the
`FrameID` stored for it is `unknown()` with the text `XXXX`.  Every key has 3
characters, every target 4, and every other target is a known ID of the list;
PIC, TT2, TYE and ULT map to APIC, TIT2, TYER and USLT. -/
theorem v2_conversion_targets :
    ("TOF", "TOFN") ∈ V2_FRAME_CONVERSION_LIST ∧
    "TOFN" ∉ FRAME_STR_LIST ∧
    (FrameID.ofString "TOFN").unknown = true ∧
    convertOldFrameIDToNew "TOF" = { enumID := FRAME_UNKNOWN_FRAME, strID := "XXXX" } ∧
    (∀ kv ∈ V2_FRAME_CONVERSION_LIST, kv.1.length = 3 ∧ kv.2.length = 4 ∧
      (kv.1 ≠ "TOF" → kv.2 ∈ FRAME_STR_LIST ∧ kv.2 ≠ "XXXX" ∧
        (FrameID.ofString kv.2).unknown = false)) ∧
    (convertOldFrameIDToNew "PIC").strID = "APIC" ∧
    (convertOldFrameIDToNew "TT2").strID = "TIT2" ∧
    (convertOldFrameIDToNew "TYE").strID = "TYER" ∧
    (convertOldFrameIDToNew "ULT").strID = "USLT" := by
  decide

theorem lookup_map_none {β γ : Type} (s : String) (l : List (String × β)) (g : β → γ)
    (h : s ∉ l.map Prod.fst) :
    (l.map (fun kv => (kv.1, g kv.2))).lookup s = none := by
  induction l with
  | nil => rfl
  | cons x rest ih =>
    have hx : (s == x.1) = false := by
      rw [beq_eq_false_iff_ne]
      exact fun e => h (by simp [e])
    simp only [List.map_cons, List.lookup, hx]
    exact ih (fun hm => h (by simp only [List.map_cons, List.mem_cons]; exact Or.inr hm))

/-- C13: a string that is not in `FRAME_STR_LIST` gives a `FrameID` that is
`unknown()` with the text `XXXX`; a string that is not a key of
`V2_FRAME_CONVERSION_MAP` gives, for version 2, a `FrameID` that is `unknown()`
with the text `XXXX`. -/
theorem unknown_frame_ids (s : String) :
    (s ∉ FRAME_STR_LIST →
      (FrameID.ofString s).unknown = true ∧ (FrameID.ofString s).strID = "XXXX") ∧
    (s ∉ V2_FRAME_CONVERSION_LIST.map Prod.fst →
      (FrameID.ofStringVersion s 2).unknown = true ∧
      (FrameID.ofStringVersion s 2).strID = "XXXX") := by
  constructor
  · intro h
    simp [FrameID.ofString, FrameID.unknown, getFrameName_unknown s h]
  · intro h
    have hl : V2_FRAME_CONVERSION_MAP.lookup s = none :=
      lookup_map_none s V2_FRAME_CONVERSION_LIST FrameID.ofString h
    have he : (convertOldFrameIDToNew s).enumID = FRAME_UNKNOWN_FRAME := by
      unfold convertOldFrameIDToNew
      rw [hl]
      simp only [FrameID.ofEnum, FRAME_UNKNOWN_V2_2_FRAME, FRAME_UNKNOWN_FRAME]
    simp [FrameID.ofStringVersion, FrameID.unknown, he]

set_option maxRecDepth 100000 in
theorem unknown_frame_ids_witness :
    ("ABCD" ∉ FRAME_STR_LIST ∧ "ABC" ∉ V2_FRAME_CONVERSION_LIST.map Prod.fst) ∧
    (FrameID.ofString "ABCD").strID = "XXXX" ∧
    (FrameID.ofStringVersion "ABC" 2).strID = "XXXX" :=
  ⟨⟨by decide, by decide⟩,
   ((unknown_frame_ids "ABCD").1 (by decide)).2,
   ((unknown_frame_ids "ABC").2 (by decide)).2⟩

/-! ## Reading a frame from a file -/

theorem good_iff (s : IStream) : s.good = true ↔ s.eofbit = false ∧ s.failbit = false := by
  cases he : s.eofbit <;> cases hf : s.failbit <;> simp [IStream.good, he, hf]

theorem uninitHeader_length (H : Host) (n : Nat) : (uninitHeader H n).length = n := by
  simp [uninitHeader]

/-- Seeking a stream that has not failed and reading `n` bytes into the start
of a buffer, when the file holds `n` bytes from the position on. -/
theorem seekg_read_full (s : IStream) (readpos n : Nat) (buf : ByteArray)
    (hf : s.failbit = false)
    (hav : ((s.content.drop readpos).take n).length = n) :
    (s.seekg readpos).read buf 0 n
      = ({ content := s.content, pos := readpos + n, eofbit := false, failbit := false },
         (s.content.drop readpos).take n ++ buf.drop n) := by
  simp [IStream.seekg, IStream.read, hf, hav]

/-- Seeking a stream that has not failed and reading `n` bytes into the start
of a buffer: the buffer receives the bytes that the file holds. -/
theorem seekg_read_buffer (s : IStream) (readpos n : Nat) (buf : ByteArray)
    (hf : s.failbit = false) :
    ((s.seekg readpos).read buf 0 n).2
      = (s.content.drop readpos).take n
          ++ buf.drop ((s.content.drop readpos).take n).length := by
  simp only [IStream.seekg, IStream.read, hf, Bool.false_eq_true, if_false, Bool.or_self,
    List.take_zero, List.nil_append, Nat.zero_add]
  split <;> rfl

/-- The v2.3/v2.4 branch of `FrameFactory::create` on a good stream whose file
holds the ten header bytes `hdr` at `readpos`. -/
theorem create_v34 (H : Host) (ff : FrameFactory) (file : IStream) (readpos : Nat)
    (hdr : ByteArray) (hfile : ff.musicFile = some file) (hver : 3 ≤ ff.ID3Ver)
    (hgood : file.good = true) (hpos : readpos + 10 ≤ ff.ID3Size)
    (hhdr : (file.content.drop readpos).take 10 = hdr) (hlen : hdr.length = 10) :
    create H ff readpos =
      if byteIntVal H (some ((hdr.drop 4).take 4)) 4 (decide (ff.ID3Ver ≥ 4)) = 0 ∨
          byteIntVal H (some ((hdr.drop 4).take 4)) 4 (decide (ff.ID3Ver ≥ 4)) + 10
            > ff.ID3Size then
        FramePtr.unknownFrame
      else
        FramePtr.frameOf (frameType (FrameID.ofString (stdString (terminatedstring hdr 4))))
          (FrameID.ofString (stdString (terminatedstring hdr 4))) ff.ID3Ver
          ((file.content.drop readpos).take
              (byteIntVal H (some ((hdr.drop 4).take 4)) 4 (decide (ff.ID3Ver ≥ 4)) + 10)
            ++ List.replicate
                (byteIntVal H (some ((hdr.drop 4).take 4)) 4 (decide (ff.ID3Ver ≥ 4)) + 10
                  - ((file.content.drop readpos).take
                      (byteIntVal H (some ((hdr.drop 4).take 4)) 4 (decide (ff.ID3Ver ≥ 4))
                        + 10)).length) 0) := by
  obtain ⟨he, hf⟩ := (good_iff file).mp hgood
  have hread := seekg_read_full file readpos 10 (uninitHeader H 10) hf (by rw [hhdr, hlen])
  rw [hhdr, List.drop_eq_nil_of_le (by rw [uninitHeader_length]), List.append_nil] at hread
  have hseekf : (file.seekg readpos).fail = false := by
    simp [IStream.seekg, IStream.fail, hf]
  have hnot : ¬ (readpos + 10 > ff.ID3Size ∨ file.good = false) := by
    rw [hgood]
    rintro (h | h)
    · omega
    · cases h
  unfold create
  simp only [hfile, HEADER_BYTE_SIZE, hnot, if_false, hseekf, Bool.false_eq_true, hver,
    ge_iff_le, if_true, hread]
  split
  · rfl
  · have hs2 : (IStream.seekg (IStream.mk file.content (readpos + 10) false false)
        readpos).fail = false := by
      simp [IStream.seekg, IStream.fail]
    have hb := seekg_read_buffer (IStream.mk file.content (readpos + 10) false false) readpos
      (byteIntVal H (some ((hdr.drop 4).take 4)) 4 (decide (4 ≤ ff.ID3Ver)) + 10)
      (List.replicate
        (byteIntVal H (some ((hdr.drop 4).take 4)) 4 (decide (4 ≤ ff.ID3Ver)) + 10) 0) rfl
    simp only [hs2, Bool.false_eq_true, if_false, hb, List.drop_replicate]

theorem create_first_check (H : Host) (ff : FrameFactory) (file : IStream) (readpos : Nat)
    (hfile : ff.musicFile = some file)
    (h : readpos + 10 > ff.ID3Size ∨ file.good = false) :
    create H ff readpos = FramePtr.unknownFrame := by
  unfold create
  simp only [hfile, HEADER_BYTE_SIZE, h, if_true]

theorem terminatedstring_append (a b : ByteArray) :
    terminatedstring (a ++ b) a.length = terminatedstring a a.length := by
  unfold terminatedstring
  induction a with
  | nil => simp
  | cons x a ih =>
    by_cases hx : x = 0
    · simp [List.takeWhile_cons, hx]
    · simp only [List.cons_append, List.takeWhile_cons, bne_iff_ne, ne_eq, hx,
        not_false_eq_true, decide_True, if_true, List.length_cons, List.take_succ_cons, ih]

/-- The size that `create` decodes from four size bytes of a v2.3 or v2.4
frame header. -/
theorem header_size_decoded (H : Host) (sz : ByteArray) (ver : Nat)
    (hver : ver = 3 ∨ ver = 4) (hsz : sz.length = 4) (hb : ∀ c ∈ sz, c < 256) :
    byteIntVal H (some sz) 4 (decide (4 ≤ ver)) = beValue (if ver = 4 then 7 else 8) sz := by
  have h := byteIntVal_eq_beValue H sz (decide (4 ≤ ver)) (by omega) hb
  rw [hsz, Nat.cast_ofNat] at h
  rw [h]
  match sz, hsz, hb with
  | [a, b, c, d], _, hb =>
    have ha := hb a (by simp)
    have hb' := hb b (by simp)
    have hc := hb c (by simp)
    have hd := hb d (by simp)
    rcases hver with rfl | rfl
    · simp only [beValue, List.foldl]
      norm_num
      omega
    · simp only [beValue, List.foldl]
      norm_num
      omega

/-! ## Frame sizes and regions in `FrameFactory::create` -/

/-- C14: for a v2.3 or v2.4 tag whose file holds at `readpos` a ten-byte frame
header (four ID bytes, four size bytes, two flag bytes), with `size` the value of
the size bytes in base 256 for v2.3 and in base 128 for v2.4: if
`readpos + 10 > ID3Size`, or `size = 0`, or `size + 10 > ID3Size`, then
`FrameFactory::create` returns the frame made by `new UnknownFrame()`, which is
null; and on a good stream where none of the three holds, it returns a frame of
the class of the header's ID that captures `size + 10` bytes. -/
theorem create_malformed (H : Host) (ff : FrameFactory) (file : IStream) (readpos : Nat)
    (id4 sz fl : ByteArray) (hfile : ff.musicFile = some file)
    (hver : ff.ID3Ver = 3 ∨ ff.ID3Ver = 4)
    (hhdr : (file.content.drop readpos).take 10 = id4 ++ sz ++ fl)
    (hid : id4.length = 4) (hsz : sz.length = 4) (hfl : fl.length = 2)
    (hb : ∀ c ∈ sz, c < 256) :
    (readpos + 10 > ff.ID3Size ∨ beValue (if ff.ID3Ver = 4 then 7 else 8) sz = 0 ∨
        beValue (if ff.ID3Ver = 4 then 7 else 8) sz + 10 > ff.ID3Size →
      create H ff readpos = FramePtr.unknownFrame ∧
      (create H ff readpos).null? = some true) ∧
    (file.good = true → readpos + 10 ≤ ff.ID3Size →
        beValue (if ff.ID3Ver = 4 then 7 else 8) sz ≠ 0 →
        beValue (if ff.ID3Ver = 4 then 7 else 8) sz + 10 ≤ ff.ID3Size →
      ∃ frameBytes : ByteArray,
        create H ff readpos =
          FramePtr.frameOf (frameType (FrameID.ofString (stdString (terminatedstring id4 4))))
            (FrameID.ofString (stdString (terminatedstring id4 4))) ff.ID3Ver frameBytes ∧
        frameBytes.length = beValue (if ff.ID3Ver = 4 then 7 else 8) sz + 10) := by
  have hlen : (id4 ++ sz ++ fl).length = 10 := by simp [hid, hsz, hfl]
  have hsize : (((id4 ++ sz ++ fl).drop 4).take 4) = sz := by
    have h1 : (id4 ++ (sz ++ fl)).drop 4 = sz ++ fl := by
      rw [← hid]
      exact List.drop_left _ _
    have h2 : (sz ++ fl).take 4 = sz := by
      rw [← hsz]
      exact List.take_left _ _
    rw [List.append_assoc, h1, h2]
  have hdec := header_size_decoded H sz ff.ID3Ver hver hsz hb
  have hterm : terminatedstring (id4 ++ sz ++ fl) 4 = terminatedstring id4 4 := by
    have h1 := terminatedstring_append id4 (sz ++ fl)
    rw [hid] at h1
    rw [List.append_assoc, h1]
  have hv3 : 3 ≤ ff.ID3Ver := by omega
  constructor
  · intro hbad
    have hu : create H ff readpos = FramePtr.unknownFrame := by
      by_cases hg : file.good = true
      · by_cases hp : readpos + 10 ≤ ff.ID3Size
        · rw [create_v34 H ff file readpos _ hfile hv3 hg hp hhdr hlen, hsize, hdec, if_pos]
          rcases hbad with h | h | h
          · omega
          · exact Or.inl h
          · exact Or.inr h
        · exact create_first_check H ff file readpos hfile (Or.inl (by omega))
      · exact create_first_check H ff file readpos hfile (Or.inr (by simpa using hg))
    rw [hu]
    exact ⟨rfl, rfl⟩
  · intro hg hp h0 hs
    rw [create_v34 H ff file readpos _ hfile hv3 hg hp hhdr hlen, hsize, hdec, if_neg, hterm]
    · refine ⟨_, rfl, ?_⟩
      rw [List.length_append, List.length_replicate, List.length_take]
      omega
    · rintro (h | h)
      · exact h0 h
      · omega

set_option maxRecDepth 100000 in
theorem create_malformed_witness :
    ((exampleFile24.drop 0).take 10 = [0x54, 0x49, 0x54, 0x32] ++ [0, 0, 1, 0] ++ [0, 0] ∧
      beValue 7 [0, 0, 1, 0] = 128) ∧
    create shiftMod64Host
      { musicFile := some (openStream exampleFile24), ID3Ver := 4, ID3Size := 100 } 0
      = FramePtr.unknownFrame :=
  ⟨⟨by decide, by decide⟩,
   ((create_malformed shiftMod64Host
      { musicFile := some (openStream exampleFile24), ID3Ver := 4, ID3Size := 100 }
      (openStream exampleFile24) 0 [0x54, 0x49, 0x54, 0x32] [0, 0, 1, 0] [0, 0] rfl
      (Or.inr rfl) (by decide) rfl rfl rfl (by decide)).1
      (Or.inr (Or.inr (by decide)))).1⟩

set_option maxRecDepth 100000 in
/-- C15: evaluation of `FrameFactory::create` on a v2.3 tag whose frame region
ends at `ID3Size = 30`, read at `readpos = 20`, where the file holds a TIT2
frame of size 5.  The frame returned captures the file bytes from 20 up to 35:
it runs past the end of the region, since the size is checked as
`frameSize + 10 > ID3Size` without `readpos`. -/
theorem create_frame_past_region :
    create shiftMod64Host
        { musicFile := some (openStream exampleFile23), ID3Ver := 3, ID3Size := 30 } 20
      = FramePtr.frameOf FrameClass.CLASS_TEXT { enumID := 46, strID := "TIT2" } 3
          [0x54, 0x49, 0x54, 0x32, 0, 0, 0, 5, 0, 0, 0, 0x61, 0x62, 0x63, 0x64] ∧
    (exampleFile23.drop 20).take (10 + 5)
      = [0x54, 0x49, 0x54, 0x32, 0, 0, 0, 5, 0, 0, 0, 0x61, 0x62, 0x63, 0x64] ∧
    exampleFile23.length = 40 ∧
    ¬ (20 + 10 + 5 ≤ 30) := by
  decide

set_option maxRecDepth 100000 in
/-- C11: evaluation of the v2.2 path on the ID TT2, which the conversion map
sends to TIT2.  The `FrameID` built for version 2 has the enum value of TIT2 and
the three characters TT2 as its text, and the header that
`FrameFactory::create` rebuilds starts with the bytes of TT2 and a zero byte,
not with the four characters of TIT2.  For no entry of the conversion map is
the text of the `FrameID` built for version 2 the target of the entry. -/
theorem v2_frame_id_text_kept :
    V2_FRAME_CONVERSION_LIST.lookup "TT2" = some "TIT2" ∧
    FrameID.ofStringVersion "TT2" 2 = { enumID := FRAMEID "TIT2", strID := "TT2" } ∧
    create shiftMod64Host
        { musicFile := some (openStream exampleFile22), ID3Ver := 2, ID3Size := 12 } 0
      = FramePtr.frameOf FrameClass.CLASS_TEXT { enumID := FRAMEID "TIT2", strID := "TT2" } 2
          [0x54, 0x54, 0x32, 0, 0, 0, 0, 6, 0x40, 0, 0, 0x48, 0x65, 0x6C, 0x6C, 0x6F] ∧
    [0x54, 0x54, 0x32, 0] ≠ ("TIT2".toList.map Char.toNat) ∧
    (∀ kv ∈ V2_FRAME_CONVERSION_LIST, (FrameID.ofStringVersion kv.1 2).strID ≠ kv.2) := by
  decide

/-! ## Writing text frames -/

/-- C21 (code defect): `URLTextFrame::writeBody` appends the bytes of the
content as they are (no encoding byte, but no conversion either).  For the
content U+00E9, held as the UTF-8 bytes C3 A9, the body written is C3 A9 and
not the Latin-1 byte E9 (the byte that `latin1toutf8` turns into C3 A9), and
`URLTextFrame::read` of the written frame gives C3 83 C2 A9. -/
theorem url_writeBody_keeps_utf8 :
    (∀ f : TextFrame, (URLTextFrame.writeBody f).frameContent = f.frameContent ++ f.textContent) ∧
    latin1toutf8 shiftMod64Host [0xE9] 0 END_DEFAULT = [0xC3, 0xA9] ∧
    (URLTextFrame.writeBody
        { exampleText "WOAF" 4 [0xC3, 0xA9] with frameContent := List.replicate 10 0 }).frameContent
      = List.replicate 10 0 ++ [0xC3, 0xA9] ∧
    List.replicate 10 0 ++ [0xC3, 0xA9] ≠ List.replicate 10 0 ++ [0xE9] ∧
    (URLTextFrame.read shiftMod64Host 10 (URLTextFrame.writeBody
        { exampleText "WOAF" 4 [0xC3, 0xA9] with frameContent := List.replicate 10 0 })).textContent
      = [0xC3, 0x83, 0xC2, 0xA9] := by
  refine ⟨fun _ => rfl, by decide, rfl, by decide, ?_⟩
  simp [URLTextFrame.read, URLTextFrame.writeBody, exampleText]
  decide

theorem eq_and_type_iff_specEq (a b : TextFamily) :
    (TextFamily.eq a b = true ∧ a.type = b.type) ↔ TextFamily.specEq a b := by
  cases a <;> cases b <;>
    simp only [TextFamily.eq, TextFrame.eqFrame, NumericalTextFrame.eqFrame,
      DescriptiveTextFrame.eqFrame, URLTextFrame.eqFrame, idOrNullDiffers,
      TextFamily.castTextFrame, TextFamily.castNumericalTextFrame,
      TextFamily.castDescriptiveTextFrame, TextFamily.castURLTextFrame,
      TextFamily.toTextFrame, TextFamily.type, TextFamily.specEq, TextFamily.payload] <;>
    simp <;>
    (rename_i f g
     cases hf : f.isNull <;> cases hg : g.isNull <;> simp [hf, hg] <;>
       first
       | (intros; exact eq_comm)
       | (rw [and_assoc]; exact and_congr_left (fun _ => eq_comm)))

/-- What `a == &b` computes on frames of the text family. -/
theorem eq_iff (a b : TextFamily) :
    TextFamily.eq a b = true ↔
      (a.toTextFrame.id.enumID = b.toTextFrame.id.enumID ∧
       (a.type = b.type ∨ a.type = FrameClass.CLASS_TEXT) ∧
       ((a.toTextFrame.isNull = true ∧ b.toTextFrame.isNull = true) ∨
        (a.toTextFrame.isNull = false ∧ b.toTextFrame.isNull = false ∧
          if a.type = FrameClass.CLASS_DESCRIPTIVE then a.payload = b.payload
          else a.toTextFrame.textContent = b.toTextFrame.textContent))) := by
  cases a <;> cases b <;>
    simp only [TextFamily.eq, TextFrame.eqFrame, NumericalTextFrame.eqFrame,
      DescriptiveTextFrame.eqFrame, URLTextFrame.eqFrame, idOrNullDiffers,
      TextFamily.castTextFrame, TextFamily.castNumericalTextFrame,
      TextFamily.castDescriptiveTextFrame, TextFamily.castURLTextFrame,
      TextFamily.toTextFrame, TextFamily.type, TextFamily.payload] <;>
    simp <;>
    (rename_i f g
     cases hf : f.isNull <;> cases hg : g.isNull <;> simp [hf, hg] <;>
       first
       | (intros; exact eq_comm)
       | (rw [and_assoc]; exact and_congr_left (fun _ => eq_comm)))

set_option maxRecDepth 100000 in
/-- C23 (code defect): `TextFrame::operator==` casts its argument to
`TextFrame`, which every class of the family is, so a text frame equals a
numerical frame with the same ID and content although their categories differ,
while the numerical frame does not equal the text frame.  In general `a == b`
holds exactly when the IDs agree by enum value, the categories agree or `a` is a
plain text frame, and both are null or neither is and the payloads (for a plain
text frame `a`: the contents) agree; together with equal categories this is
the equality of the specification. -/
theorem text_family_equality :
    TextFamily.eq (TextFamily.text (exampleText "TBPM" 4 [0x31, 0x32, 0x30]))
      (TextFamily.numerical (exampleText "TBPM" 4 [0x31, 0x32, 0x30])) = true ∧
    (TextFamily.text (exampleText "TBPM" 4 [0x31, 0x32, 0x30])).type
      ≠ (TextFamily.numerical (exampleText "TBPM" 4 [0x31, 0x32, 0x30])).type ∧
    TextFamily.eq (TextFamily.numerical (exampleText "TBPM" 4 [0x31, 0x32, 0x30]))
      (TextFamily.text (exampleText "TBPM" 4 [0x31, 0x32, 0x30])) = false ∧
    (∀ a b : TextFamily, TextFamily.eq a b = true ↔
      (a.toTextFrame.id.enumID = b.toTextFrame.id.enumID ∧
       (a.type = b.type ∨ a.type = FrameClass.CLASS_TEXT) ∧
       ((a.toTextFrame.isNull = true ∧ b.toTextFrame.isNull = true) ∨
        (a.toTextFrame.isNull = false ∧ b.toTextFrame.isNull = false ∧
          if a.type = FrameClass.CLASS_DESCRIPTIVE then a.payload = b.payload
          else a.toTextFrame.textContent = b.toTextFrame.textContent)))) ∧
    (∀ a b : TextFamily,
      (TextFamily.eq a b = true ∧ a.type = b.type) ↔ TextFamily.specEq a b) := by
  refine ⟨by decide, by decide, by decide, eq_iff, eq_and_type_iff_specEq⟩

/-! ## The tag assembler -/

theorem uninitBytes_length (H : Host) (off n : Nat) : (uninitBytes H off n).length = n := by
  simp [uninitBytes]

/-- Reading `n` bytes that the file holds into a buffer of `n` bytes, on a
stream in good state. -/
theorem read_full (content : ByteArray) (pos n : Nat) (buf : ByteArray)
    (hbuf : buf.length = n) (hav : pos + n ≤ content.length) :
    IStream.read (IStream.mk content pos false false) buf 0 n
      = (IStream.mk content (pos + n) false false, (content.drop pos).take n) := by
  have hl : ((content.drop pos).take n).length = n := by
    rw [List.length_take, List.length_drop]
    omega
  simp [IStream.read, hl, List.drop_eq_nil_of_le (Nat.le_of_eq hbuf)]

theorem seekg_ok (content : ByteArray) (pos : Nat) (eofbit : Bool) (newpos : Nat) :
    IStream.seekg (IStream.mk content pos eofbit false) newpos
      = IStream.mk content newpos false false := by
  simp [IStream.seekg]

theorem seekgEnd_ok (content : ByteArray) (pos : Nat) (eofbit : Bool) (back : Nat)
    (h : back ≤ content.length) :
    IStream.seekgEnd (IStream.mk content pos eofbit false) (-(back : Int))
      = IStream.mk content (content.length - back) false false := by
  have h1 : ¬ ((content.length : Int) + -(back : Int) < 0) := by omega
  have h2 : ((content.length : Int) + -(back : Int)).toNat = content.length - back := by omega
  simp [IStream.seekgEnd, h1, h2]

theorem getFileV1_small (H : Host) (D : TagDeps) (t : Tag) (file : IStream)
    (h : t.filesize < V1.BYTE_SIZE) : Tag.getFileV1 H D t file = (t, file) := by
  simp [Tag.getFileV1, h]

/-- The start of `Tag::getFileV2` on a stream that has not failed, over a file of at
least ten bytes: the header read is the first ten bytes of the file. -/
theorem getFileV2_read (H : Host) (D : TagDeps) (fuel : Nat) (t : Tag) (content : ByteArray)
    (pos : Nat) (eofbit : Bool) (hsz : HEADER_BYTE_SIZE ≤ t.filesize)
    (hlen : HEADER_BYTE_SIZE ≤ content.length) :
    Tag.getFileV2 H D fuel t (IStream.mk content pos eofbit false)
      = Tag.parseHeader H D fuel t (IStream.mk content HEADER_BYTE_SIZE false false)
          (content.take HEADER_BYTE_SIZE) := by
  unfold Tag.getFileV2
  rw [if_neg (by omega), seekg_ok]
  have hf : (IStream.mk content 0 false false).fail = false := rfl
  simp only [hf, Bool.false_eq_true, if_false]
  rw [read_full content 0 HEADER_BYTE_SIZE _ (uninitBytes_length _ _ _) (by omega)]
  simp

/-- The constructor `Tag(std::ifstream&)` on an open stream in good state. -/
theorem ofStream_good (H : Host) (D : TagDeps) (fuel filesize0 : Nat) (content : ByteArray)
    (pos : Nat) :
    Tag.ofStream H D fuel filesize0 true (IStream.mk content pos false false)
      = (Tag.getFileV2 H D fuel
          (Tag.getFileV1 H D { Tag.new filesize0 with filesize := content.length, isNull := false }
            (IStream.mk content content.length false false)).1
          (Tag.getFileV1 H D { Tag.new filesize0 with filesize := content.length, isNull := false }
            (IStream.mk content content.length false false)).2).1 := by
  have hs : IStream.seekgEnd (IStream.mk content pos false false) 0
      = IStream.mk content content.length false false := by
    have := seekgEnd_ok content pos false 0 (Nat.zero_le _)
    simpa using this
  unfold Tag.ofStream
  simp only [Bool.not_true, Bool.false_eq_true, if_false, hs]
  rfl

theorem frameLoop_exit (D : TagDeps) (majorVer filesize size fuel : Nat) (file : IStream)
    (frameStartPos : Nat) (frames : List (String × FrameObj))
    (h : ¬ (frameStartPos + 10 < size ∧ frameStartPos < filesize)) :
    frameLoop D majorVer filesize size fuel file frameStartPos frames = frames := by
  cases fuel with
  | zero => rfl
  | succ n => simp only [frameLoop, h, if_false]

/-- The end of `Tag::getFileV2` when the tag has no extended header and the
test of the loop fails at the first frame. -/
theorem readFrames_exit (H : Host) (D : TagDeps) (fuel : Nat) (t : Tag) (file : IStream)
    (hsize : ¬ t.v2TagInfo.size > t.filesize) (hext : t.v2TagInfo.flagExtHeader = false)
    (hloop : ¬ (HEADER_BYTE_SIZE + 10 < t.v2TagInfo.size ∧ HEADER_BYTE_SIZE < t.filesize)) :
    Tag.readFrames H D fuel t file = (t, file) := by
  unfold Tag.readFrames
  rw [if_neg hsize]
  simp only [skipExtHeader, hext, Bool.false_eq_true, if_false]
  rw [frameLoop_exit _ _ _ _ _ _ _ _ hloop]

/-- What the four flag tests of `Tag::getFileV2` compute: every flag is set
when bit 0 of the flags byte is set, and left as it was otherwise. -/
theorem setHeaderFlags_eq (info : TagInfo) (flags : Nat) :
    setHeaderFlags info flags
      = { info with
          flagUnsynchronisation := info.flagUnsynchronisation || decide (flags % 2 = 1),
          flagExtHeader := info.flagExtHeader || decide (flags % 2 = 1),
          flagExperimental := info.flagExperimental || decide (flags % 2 = 1),
          flagFooter := info.flagFooter || decide (flags % 2 = 1) } := by
  have h1 : boolToNat (FLAG_UNSYNCHRONISATION == FLAG_UNSYNCHRONISATION) = 1 := rfl
  have h2 : boolToNat (FLAG_EXT_HEADER == FLAG_EXT_HEADER) = 1 := rfl
  have h3 : boolToNat (FLAG_EXPERIMENTAL == FLAG_EXPERIMENTAL) = 1 := rfl
  have h4 : boolToNat (FLAG_FOOTER == FLAG_FOOTER) = 1 := rfl
  unfold setHeaderFlags
  rw [h1, h2, h3, h4, Nat.and_one_is_mod]
  rcases Nat.mod_two_eq_zero_or_one flags with h | h
  · simp [h]
  · simp [h]

/-- The statements of `Tag::getFileV2` after the header is read, for a header
with the magic `ID3` and a supported version. -/
theorem parseHeader_supported (H : Host) (D : TagDeps) (fuel : Nat) (t : Tag) (file : IStream)
    (hdr : ByteArray) (hmagic : hdr.take 3 = [0x49, 0x44, 0x33])
    (hver : ¬ (hdr.getD 3 0 < MIN_SUPPORTED_VERSION ∨ hdr.getD 3 0 > MAX_SUPPORTED_VERSION ∨
      hdr.getD 4 0 ≠ SUPPORTED_MINOR_VERSION)) :
    Tag.parseHeader H D fuel t file hdr
      = Tag.readFrames H D fuel
          { t with
            tagsSet := { t.tagsSet with v2 := true },
            v2TagInfo := setHeaderFlags
              { t.v2TagInfo with
                majorVer := hdr.getD 3 0, minorVer := hdr.getD 4 0,
                size := uchar_arr_binary_num H ((hdr.drop 6).take 4) 4 true }
              (hdr.getD 5 0) } file := by
  unfold Tag.parseHeader
  simp only [hmagic, ne_eq, not_true_eq_false, if_false, hver]

/-- The integer that `Tag::getFileV2` reads from four size bytes. -/
theorem tag_size_decoded (H : Host) (sz : ByteArray) (synchsafe : Bool) (hsz : sz.length = 4)
    (hb : ∀ c ∈ sz, c < 256) :
    uchar_arr_binary_num H sz 4 synchsafe = beValue (if synchsafe then 7 else 8) sz := by
  unfold uchar_arr_binary_num
  cases synchsafe with
  | true => exact header_size_decoded H sz 4 (Or.inr rfl) hsz hb
  | false => exact header_size_decoded H sz 3 (Or.inl rfl) hsz hb

/-- The constructor `Tag(std::ifstream&)` on an open stream in good state over
a file of at least 10 and fewer than 128 bytes. -/
theorem ofStream_short (H : Host) (D : TagDeps) (fuel filesize0 : Nat) (content : ByteArray)
    (pos : Nat) (hshort : content.length < V1.BYTE_SIZE)
    (hlen : HEADER_BYTE_SIZE ≤ content.length) :
    Tag.ofStream H D fuel filesize0 true (IStream.mk content pos false false)
      = (Tag.parseHeader H D fuel
          { Tag.new filesize0 with filesize := content.length, isNull := false }
          (IStream.mk content HEADER_BYTE_SIZE false false)
          (content.take HEADER_BYTE_SIZE)).1 := by
  rw [ofStream_good, getFileV1_small H D _ _ hshort]
  simp only
  rw [getFileV2_read H D fuel _ content content.length false hlen hlen]

theorem talb_frames (H : Host) (D : TagDeps) (fuel : Nat) :
    Tag.ofStream H D fuel 0 true (openStream exampleTagTALB)
      = Tag.mk 27 false (TagsOnFile.mk false false false true)
          (TagInfo.mk 3 0 false false false false 17) [] := by
  have ho : openStream exampleTagTALB = IStream.mk exampleTagTALB 0 false false := rfl
  rw [ho, ofStream_short H D fuel 0 _ 0 (by decide) (by decide),
    parseHeader_supported H D fuel _ _ _ (by decide) (by decide),
    tag_size_decoded H _ true (by decide) (by decide), setHeaderFlags_eq]
  rw [readFrames_exit H D fuel _ _ (by decide) (by decide) (by decide)]
  decide

theorem readFrames_info (H : Host) (D : TagDeps) (fuel : Nat) (t : Tag) (file : IStream) :
    (Tag.readFrames H D fuel t file).1.v2TagInfo = t.v2TagInfo ∧
    (Tag.readFrames H D fuel t file).1.tagsSet = t.tagsSet := by
  unfold Tag.readFrames
  split
  · split <;> exact ⟨rfl, rfl⟩
  · exact ⟨rfl, rfl⟩

/-- The header flags that `Tag::getFileV2` stores for a file of at least 10 and
fewer than 128 bytes that starts with a supported v2 header: each of the four is
bit 0 of the flags byte. -/
theorem header_flags_bit0 (H : Host) (D : TagDeps) (fuel filesize0 : Nat) (content : ByteArray)
    (pos : Nat) (hshort : content.length < V1.BYTE_SIZE)
    (hlen : HEADER_BYTE_SIZE ≤ content.length)
    (hmagic : content.take 3 = [0x49, 0x44, 0x33])
    (hver : ¬ (content.getD 3 0 < MIN_SUPPORTED_VERSION ∨ content.getD 3 0 > MAX_SUPPORTED_VERSION ∨
      content.getD 4 0 ≠ SUPPORTED_MINOR_VERSION)) :
    (Tag.ofStream H D fuel filesize0 true (IStream.mk content pos false false)).v2TagInfo
      = { majorVer := content.getD 3 0, minorVer := content.getD 4 0,
          flagUnsynchronisation := decide (content.getD 5 0 % 2 = 1),
          flagExtHeader := decide (content.getD 5 0 % 2 = 1),
          flagExperimental := decide (content.getD 5 0 % 2 = 1),
          flagFooter := decide (content.getD 5 0 % 2 = 1),
          size := uchar_arr_binary_num H ((content.drop 6).take 4) 4 true } := by
  have hg : ∀ i, i < 10 → (content.take HEADER_BYTE_SIZE).getD i 0 = content.getD i 0 := by
    intro i hi
    simp only [List.getD_eq_getElem?_getD, HEADER_BYTE_SIZE]
    rw [List.getElem?_take_of_lt hi]
  have hm : (content.take HEADER_BYTE_SIZE).take 3 = [0x49, 0x44, 0x33] := by
    rw [List.take_take]
    exact hmagic
  have hd : ((content.take HEADER_BYTE_SIZE).drop 6).take 4 = (content.drop 6).take 4 := by
    have h10 : HEADER_BYTE_SIZE = 10 := rfl
    rw [h10, List.drop_take, List.take_take]
    rfl
  rw [ofStream_short H D fuel filesize0 content pos hshort hlen,
    parseHeader_supported H D fuel _ _ _ hm
      (by rw [hg 3 (by decide), hg 4 (by decide)]; exact hver),
    (readFrames_info H D fuel _ _).1, setHeaderFlags_eq, hg 3 (by decide), hg 4 (by decide),
    hg 5 (by decide), hd]
  simp [Tag.new, TagInfo.new]

/-- C25 (code defect): in the flag tests of `Tag::getFileV2`,
`flags & FLAG == FLAG`, the comparison binds before the `&`, so each test is
`flags & 1`.  For the v2.3 header with the flags byte `f` (a file of ten bytes,
declared size 0) each of the four flags is set exactly when bit 0 of `f` is set:
with `f = 0x80` unsynchronisation is not set, and with `f = 0x01` all four flags
are set. -/
theorem header_flags_test_bit0 :
    (∀ (H : Host) (D : TagDeps) (fuel f : Nat),
      (Tag.ofStream H D fuel 0 true (openStream (exampleHeaderFlags f))).v2TagInfo
        = TagInfo.mk 3 0 (decide (f % 2 = 1)) (decide (f % 2 = 1)) (decide (f % 2 = 1))
            (decide (f % 2 = 1)) 0) ∧
    (∀ (H : Host) (D : TagDeps) (fuel : Nat),
      (Tag.ofStream H D fuel 0 true
          (openStream (exampleHeaderFlags 0x80))).v2TagInfo.flagUnsynchronisation = false ∧
      (Tag.ofStream H D fuel 0 true (openStream (exampleHeaderFlags 0x01))).v2TagInfo
        = TagInfo.mk 3 0 true true true true 0) ∧
    (0x80 &&& 0x80 ≠ 0 ∧ 0x01 &&& 0x80 = 0 ∧ 0x01 &&& 0x40 = 0 ∧ 0x01 &&& 0x20 = 0 ∧
      0x01 &&& 0x10 = 0) := by
  have hgen : ∀ (H : Host) (D : TagDeps) (fuel f : Nat),
      (Tag.ofStream H D fuel 0 true (openStream (exampleHeaderFlags f))).v2TagInfo
        = TagInfo.mk 3 0 (decide (f % 2 = 1)) (decide (f % 2 = 1)) (decide (f % 2 = 1))
            (decide (f % 2 = 1)) 0 := by
    intro H D fuel f
    have ho : openStream (exampleHeaderFlags f)
        = IStream.mk (exampleHeaderFlags f) 0 false false := rfl
    rw [ho, header_flags_bit0 H D fuel 0 (exampleHeaderFlags f) 0
      (by simp [exampleHeaderFlags, V1.BYTE_SIZE])
      (by simp [exampleHeaderFlags, HEADER_BYTE_SIZE]) rfl (by simp [exampleHeaderFlags]; decide),
      tag_size_decoded H _ true (by simp [exampleHeaderFlags])
        (by simp [exampleHeaderFlags])]
    simp [exampleHeaderFlags, beValue]
  refine ⟨hgen, ?_, by decide⟩
  intro H D fuel
  rw [hgen, hgen]
  exact ⟨rfl, rfl⟩

theorem lookup_append_single (m : List (String × FrameObj)) (k k' : String) (v : FrameObj) :
    (m ++ [(k, v)]).lookup k'
      = match m.lookup k' with
        | some x => some x
        | none => if k' = k then some v else none := by
  induction m with
  | nil =>
    by_cases h : k' = k
    · simp [List.lookup, h]
    · have hb : (k' == k) = false := by simpa using h
      simp [List.lookup, h, hb]
  | cons x rest ih =>
    by_cases h : k' = x.1
    · have hb : (k' == x.1) = true := by simpa using h
      simp only [List.cons_append, List.lookup, hb]
    · have hb : (k' == x.1) = false := by simpa using h
      simp only [List.cons_append, List.lookup, hb]
      exact ih

theorem lookup_filter_ne (m : List (String × FrameObj)) (k k' : String) :
    (m.filter (fun kv => kv.1 != k)).lookup k' = if k' = k then none else m.lookup k' := by
  induction m with
  | nil => simp
  | cons x rest ih =>
    by_cases hx : x.1 = k
    · have hb : (x.1 != k) = false := by simp [hx]
      rw [List.filter_cons_of_neg (by simp [hb]), ih]
      by_cases h : k' = k
      · simp [h]
      · have hb2 : (k' == x.1) = false := by
          rw [hx]; simpa using h
        simp only [h, if_false, List.lookup, hb2]
    · have hb : (x.1 != k) = true := by simp [hx]
      rw [List.filter_cons]
      simp only [hb, if_true]
      by_cases h : k' = x.1
      · have hb2 : (k' == x.1) = true := by simpa using h
        have hne : ¬ k' = k := by rw [h]; exact hx
        simp only [List.lookup, hb2, hne, if_false]
      · have hb2 : (k' == x.1) = false := by simpa using h
        simp only [List.lookup, hb2]
        exact ih

/-- The entry found under `k'` after the statement `frames[k] = v`. -/
theorem lookup_mapAssign (m : List (String × FrameObj)) (k k' : String) (v : FrameObj) :
    (mapAssign m k v).lookup k' = if k' = k then some v else m.lookup k' := by
  unfold mapAssign
  rw [lookup_append_single, lookup_filter_ne]
  by_cases h : k' = k
  · simp [h]
  · simp only [h, if_false]
    cases m.lookup k' <;> rfl

/-- The string that `terminatedstring` takes from a field of `n` bytes at the
start of `mem`: the bytes of the field before its first NUL. -/
theorem terminatedstring_field (mem : ByteArray) (n : Nat) (h : n ≤ mem.length) :
    terminatedstring mem n = (mem.take n).takeWhile (fun c => c != 0) := by
  have hl : (mem.take n).length = n := by rw [List.length_take]; omega
  have h1 := terminatedstring_append (mem.take n) (mem.drop n)
  rw [List.take_append_drop, hl] at h1
  rw [h1]
  unfold terminatedstring
  apply List.take_of_length_le
  have := (List.takeWhile_sublist (fun c => c != 0) (l := mem.take n)).length_le
  omega

theorem setTagsV1Fields_lookup (D : TagDeps) (t : Tag) (tags : ByteArray) :
    (Tag.setTagsV1Fields D t tags).tagsSet = { t.tagsSet with v1 := true } ∧
    (Tag.setTagsV1Fields D t tags).frames.lookup "TIT2"
      = some (D.ofText "TIT2" (terminatedstring (tags.drop 3) 30)) ∧
    (Tag.setTagsV1Fields D t tags).frames.lookup "TPE1"
      = some (D.ofText "TPE1" (terminatedstring (tags.drop 33) 30)) ∧
    (Tag.setTagsV1Fields D t tags).frames.lookup "TALB"
      = some (D.ofText "TALB" (terminatedstring (tags.drop 63) 30)) ∧
    (Tag.setTagsV1Fields D t tags).frames.lookup "TYER"
      = some (D.ofText "TYER" (terminatedstring (tags.drop 93) 4)) ∧
    (Tag.setTagsV1Fields D t tags).frames.lookup "TCON"
      = some (D.ofText "TCON" (getGenreString D.GENRES (tags.getD 127 0))) ∧
    (Tag.setTagsV1Fields D t tags).frames.lookup "TRCK" = t.frames.lookup "TRCK" := by
  unfold Tag.setTagsV1Fields
  simp [lookup_mapAssign]

theorem setTagsP1Fields_lookup (D : TagDeps) (t : Tag) (tags : ByteArray) :
    (Tag.setTagsP1Fields D t tags).tagsSet = { t.tagsSet with v1_1 := true } ∧
    (Tag.setTagsP1Fields D t tags).frames.lookup "TIT2"
      = some (D.ofText "TIT2" (terminatedstring (tags.drop 3) 30)) ∧
    (Tag.setTagsP1Fields D t tags).frames.lookup "TPE1"
      = some (D.ofText "TPE1" (terminatedstring (tags.drop 33) 30)) ∧
    (Tag.setTagsP1Fields D t tags).frames.lookup "TALB"
      = some (D.ofText "TALB" (terminatedstring (tags.drop 63) 30)) ∧
    (Tag.setTagsP1Fields D t tags).frames.lookup "TYER"
      = some (D.ofText "TYER" (terminatedstring (tags.drop 93) 4)) ∧
    (Tag.setTagsP1Fields D t tags).frames.lookup "TCON"
      = some (D.ofText "TCON" (getGenreString D.GENRES (tags.getD 127 0))) ∧
    (Tag.setTagsP1Fields D t tags).frames.lookup "TRCK"
      = some (D.ofText "TRCK" (to_string (tags.getD 126 0 : Nat))) := by
  unfold Tag.setTagsP1Fields
  simp [lookup_mapAssign]

theorem setTags_cases (D : TagDeps) (t : Tag) (tags : ByteArray) :
    Tag.setTags D t tags true
      = if tags.getD 125 0 = 0 then Tag.setTagsP1Fields D t tags
        else Tag.setTagsV1Fields D t tags := by
  unfold Tag.setTags Tag.setTagsP1
  by_cases h : tags.getD 125 0 = 0 <;> simp [h]

/-- C28: `Tag::setTags` on a trailer of 128 bytes, for a tag with neither
marker set.  The marker v1.1 is set exactly when byte 125 is zero and the
marker v1 exactly when it is not.  In the v1.1 case TRCK is the frame built
from the decimal string of byte 126; in the v1 case the entry TRCK of the map
is left as it was.  In both cases TIT2, TPE1 and TALB are built from the bytes
before the first NUL of the 30-byte fields at offsets 3, 33 and 63, TYER from
those of the 4-byte field at offset 93, and TCON from the entry of the genre
table at byte 127, or from the empty string when the byte is outside the
table. -/
theorem setTags_v1_trailer (D : TagDeps) (t : Tag) (tags : ByteArray)
    (hlen : tags.length = 128) (hv1 : t.tagsSet.v1 = false) (hv11 : t.tagsSet.v1_1 = false) :
    ((Tag.setTags D t tags true).tagsSet.v1_1 = true ↔ tags.getD 125 0 = 0) ∧
    ((Tag.setTags D t tags true).tagsSet.v1 = true ↔ tags.getD 125 0 ≠ 0) ∧
    (tags.getD 125 0 = 0 →
      (Tag.setTags D t tags true).frames.lookup "TRCK"
        = some (D.ofText "TRCK" (to_string (tags.getD 126 0 : Nat)))) ∧
    (tags.getD 125 0 ≠ 0 →
      (Tag.setTags D t tags true).frames.lookup "TRCK" = t.frames.lookup "TRCK") ∧
    (Tag.setTags D t tags true).frames.lookup "TIT2"
      = some (D.ofText "TIT2" (((tags.drop 3).take 30).takeWhile (fun c => c != 0))) ∧
    (Tag.setTags D t tags true).frames.lookup "TPE1"
      = some (D.ofText "TPE1" (((tags.drop 33).take 30).takeWhile (fun c => c != 0))) ∧
    (Tag.setTags D t tags true).frames.lookup "TALB"
      = some (D.ofText "TALB" (((tags.drop 63).take 30).takeWhile (fun c => c != 0))) ∧
    (Tag.setTags D t tags true).frames.lookup "TYER"
      = some (D.ofText "TYER" (((tags.drop 93).take 4).takeWhile (fun c => c != 0))) ∧
    (Tag.setTags D t tags true).frames.lookup "TCON"
      = some (D.ofText "TCON"
          (if tags.getD 127 0 < D.GENRES.length then D.GENRES.getD (tags.getD 127 0) []
           else [])) := by
  have f1 := terminatedstring_field (tags.drop 3) 30 (by rw [List.length_drop]; omega)
  have f2 := terminatedstring_field (tags.drop 33) 30 (by rw [List.length_drop]; omega)
  have f3 := terminatedstring_field (tags.drop 63) 30 (by rw [List.length_drop]; omega)
  have f4 := terminatedstring_field (tags.drop 93) 4 (by rw [List.length_drop]; omega)
  have hP := setTagsP1Fields_lookup D t tags
  have hV := setTagsV1Fields_lookup D t tags
  rw [f1, f2, f3, f4] at hP hV
  rw [setTags_cases]
  by_cases h : tags.getD 125 0 = 0
  · simp only [h, if_true, ne_eq, not_true_eq_false, false_implies, true_implies]
    rw [hP.1]
    refine ⟨by simp, by simp [hv1], hP.2.2.2.2.2.2, trivial, hP.2.1, hP.2.2.1, hP.2.2.2.1,
      hP.2.2.2.2.1, ?_⟩
    rw [hP.2.2.2.2.2.1]
    rfl
  · simp only [h, if_false, ne_eq, not_false_eq_true, false_implies, true_implies]
    rw [hV.1]
    refine ⟨by simp [hv11], by simp, trivial, hV.2.2.2.2.2.2, hV.2.1, hV.2.2.1, hV.2.2.2.1,
      hV.2.2.2.2.1, ?_⟩
    rw [hV.2.2.2.2.2.1]
    rfl

/-- The statements of `Tag::getFileV2` after the header is read, for a supported
header without the extended-header flag whose declared size is at most
`filesize` and at most 20: no frame is read. -/
theorem parseHeader_no_frames (H : Host) (D : TagDeps) (fuel : Nat) (t : Tag) (file : IStream)
    (hdr : ByteArray) (hmagic : hdr.take 3 = [0x49, 0x44, 0x33])
    (hver : ¬ (hdr.getD 3 0 < MIN_SUPPORTED_VERSION ∨ hdr.getD 3 0 > MAX_SUPPORTED_VERSION ∨
      hdr.getD 4 0 ≠ SUPPORTED_MINOR_VERSION))
    (hlen : ((hdr.drop 6).take 4).length = 4) (hb : ∀ c ∈ (hdr.drop 6).take 4, c < 256)
    (hflag : hdr.getD 5 0 % 2 = 0) (hinit : t.v2TagInfo.flagExtHeader = false)
    (hsize : beValue 7 ((hdr.drop 6).take 4) ≤ t.filesize)
    (hloop : beValue 7 ((hdr.drop 6).take 4) ≤ 20) :
    Tag.parseHeader H D fuel t file hdr
      = (Tag.mk t.filesize t.isNull
          (TagsOnFile.mk t.tagsSet.v1 t.tagsSet.v1_1 t.tagsSet.v1Extended true)
          (TagInfo.mk (hdr.getD 3 0) (hdr.getD 4 0) t.v2TagInfo.flagUnsynchronisation false
            t.v2TagInfo.flagExperimental t.v2TagInfo.flagFooter
            (beValue 7 ((hdr.drop 6).take 4)))
          t.frames, file) := by
  have h01 : ¬ (0 = 1) := by decide
  rw [parseHeader_supported H D fuel t file hdr hmagic hver,
    tag_size_decoded H _ true hlen hb, setHeaderFlags_eq, hflag]
  simp only [h01, decide_False, Bool.or_false, if_true]
  have hr := readFrames_exit H D fuel
    (Tag.mk t.filesize t.isNull
      (TagsOnFile.mk t.tagsSet.v1 t.tagsSet.v1_1 t.tagsSet.v1Extended true)
      (TagInfo.mk (hdr.getD 3 0) (hdr.getD 4 0) t.v2TagInfo.flagUnsynchronisation
        t.v2TagInfo.flagExtHeader t.v2TagInfo.flagExperimental t.v2TagInfo.flagFooter
        (beValue 7 ((hdr.drop 6).take 4)))
      t.frames) file (by simpa using hsize) hinit
    (by
      have h10 : HEADER_BYTE_SIZE = 10 := rfl
      rw [h10]
      intro hc
      have : 20 < beValue 7 ((hdr.drop 6).take 4) := hc.1
      omega)
  rw [hr, hinit]

set_option maxRecDepth 100000 in
/-- The block of `Tag::getFileV1` that reads the extended tag, on a file of
more than 355 bytes. -/
theorem readExtendedTag_big (H : Host) (filesize : Nat) (content : ByteArray) (pos : Nat)
    (eofbit : Bool) (hsz : filesize > V1.BYTE_SIZE + V1.EXTENDED_BYTE_SIZE)
    (hlen : V1.BYTE_SIZE + V1.EXTENDED_BYTE_SIZE ≤ content.length) :
    readExtendedTag H filesize (IStream.mk content pos eofbit false)
      = (IStream.mk content (content.length - 355 + 227) false false,
         (content.drop (content.length - 355)).take 227,
         decide (((content.drop (content.length - 355)).take 227).take 4
           = [0x54, 0x41, 0x47, 0x2B])) := by
  have h355 : V1.BYTE_SIZE + V1.EXTENDED_BYTE_SIZE = 355 := rfl
  have hoff : -(V1.BYTE_SIZE : Int) - (V1.EXTENDED_BYTE_SIZE : Int) = -((355 : Nat) : Int) := by
    decide
  unfold readExtendedTag
  rw [if_pos hsz, hoff, seekgEnd_ok content pos eofbit 355 (by omega)]
  have hf : (IStream.mk content (content.length - 355) false false).fail = false := rfl
  simp only [hf, Bool.not_false, if_true]
  have h227 : V1.EXTENDED_BYTE_SIZE = 227 := rfl
  rw [h227, read_full content (content.length - 355) 227 _ (uninitBytes_length _ _ _) (by omega)]

set_option maxRecDepth 100000 in
/-- The function `Tag::getFileV1` on a stream that has not failed, over a file
of at least 128 bytes: the trailer read is the last 128 bytes of the file. -/
theorem getFileV1_read (H : Host) (D : TagDeps) (t : Tag) (content : ByteArray) (pos : Nat)
    (eofbit : Bool) (hsz : ¬ t.filesize < V1.BYTE_SIZE) (hlen : V1.BYTE_SIZE ≤ content.length) :
    Tag.getFileV1 H D t (IStream.mk content pos eofbit false)
      = if (content.drop (content.length - 128)).take 3 ≠ [0x54, 0x41, 0x47] then
          (t, IStream.mk content content.length false false)
        else
          ((if (readExtendedTag H t.filesize (IStream.mk content content.length false false)).2.2
            then Tag.setTagsExtended D
              (Tag.setTags D t (content.drop (content.length - 128)) true)
              (readExtendedTag H t.filesize (IStream.mk content content.length false false)).2.1
            else Tag.setTags D t (content.drop (content.length - 128)) true),
           (readExtendedTag H t.filesize
              (IStream.mk content content.length false false)).1) := by
  have h128 : V1.BYTE_SIZE = 128 := rfl
  have hoff : -(V1.BYTE_SIZE : Int) = -((128 : Nat) : Int) := by decide
  unfold Tag.getFileV1
  rw [if_neg hsz, hoff, seekgEnd_ok content pos eofbit 128 (by omega)]
  have hf : (IStream.mk content (content.length - 128) false false).fail = false := rfl
  simp only [hf, Bool.false_eq_true, if_false]
  rw [h128, read_full content (content.length - 128) 128 _ (uninitBytes_length _ _ _)
    (by omega)]
  have hp : content.length - 128 + 128 = content.length := by omega
  have ht : (content.drop (content.length - 128)).take 128
      = content.drop (content.length - 128) := by
    apply List.take_of_length_le
    rw [List.length_drop]
    omega
  simp only [hp, ht]

set_option maxRecDepth 100000 in
theorem v1v2_facts :
    exampleFileV1V2.length = 401 ∧
    (exampleFileV1V2.drop (401 - 128)).take 3 = [0x54, 0x41, 0x47] ∧
    ((exampleFileV1V2.drop (401 - 355)).take 227).take 4 ≠ [0x54, 0x41, 0x47, 0x2B] ∧
    (exampleFileV1V2.drop (401 - 128)).getD 125 0 = 0 ∧
    terminatedstring ((exampleFileV1V2.drop (401 - 128)).drop 3) 30 = [0x4F, 0x6C, 0x64] ∧
    exampleFileV1V2.take HEADER_BYTE_SIZE = [0x49, 0x44, 0x33, 3, 0, 0, 0, 0, 0, 13] := by
  decide

set_option maxRecDepth 100000 in
theorem v1v2_tag (H : Host) (D : TagDeps) (fuel : Nat) :
    (Tag.ofStream H D fuel 0 true (openStream exampleFileV1V2)).frames.lookup "TIT2"
        = some (D.ofText "TIT2" [0x4F, 0x6C, 0x64]) ∧
    (Tag.ofStream H D fuel 0 true (openStream exampleFileV1V2)).tagsSet
        = TagsOnFile.mk false true false true ∧
    (Tag.ofStream H D fuel 0 true (openStream exampleFileV1V2)).v2TagInfo.size = 13 := by
  obtain ⟨hl, htag, hext, hzero, htitle, hhdr⟩ := v1v2_facts
  have ho : openStream exampleFileV1V2 = IStream.mk exampleFileV1V2 0 false false := rfl
  have hV1 : Tag.getFileV1 H D (Tag.mk exampleFileV1V2.length false TagsOnFile.new TagInfo.new [])
      (IStream.mk exampleFileV1V2 exampleFileV1V2.length false false)
      = (Tag.setTagsP1Fields D (Tag.mk 401 false TagsOnFile.new TagInfo.new [])
          (exampleFileV1V2.drop (401 - 128)),
         IStream.mk exampleFileV1V2 (401 - 355 + 227) false false) := by
    rw [getFileV1_read H D _ _ _ _ (by rw [hl]; decide) (by rw [hl]; decide),
      readExtendedTag_big H _ _ _ _ (by rw [hl]; decide) (by rw [hl]; decide)]
    simp only [hl, htag, ne_eq, not_true_eq_false, if_false, hext, decide_False,
      Bool.false_eq_true, setTags_cases, hzero, if_true]
  have hnew : ({ Tag.new 0 with filesize := exampleFileV1V2.length, isNull := false } : Tag)
      = Tag.mk exampleFileV1V2.length false TagsOnFile.new TagInfo.new [] := rfl
  rw [ho, ofStream_good, hnew, hV1]
  simp only
  rw [getFileV2_read H D fuel _ _ _ _ (show HEADER_BYTE_SIZE ≤ 401 by decide)
      (by rw [hl]; decide), hhdr,
    parseHeader_no_frames H D fuel _ _ _ (by decide) (by decide) (by decide) (by decide)
      (by decide) rfl
      (show beValue 7 (([0x49, 0x44, 0x33, 3, 0, 0, 0, 0, 0, 13].drop 6).take 4) ≤ 401
        by decide)
      (by decide)]
  refine ⟨?_, ?_, ?_⟩
  · show (Tag.setTagsP1Fields D _ _).frames.lookup "TIT2" = _
    rw [(setTagsP1Fields_lookup D _ _).2.1, htitle]
  · rfl
  · show beValue 7 (([0x49, 0x44, 0x33, 3, 0, 0, 0, 0, 0, 13].drop 6).take 4) = 13
    decide

theorem frameLoop_eq_foldl (D : TagDeps) (majorVer filesize size fuel : Nat) (file : IStream)
    (frameStartPos : Nat) (frames : List (String × FrameObj)) :
    frameLoop D majorVer filesize size fuel file frameStartPos frames
      = (loopTrace D majorVer filesize size fuel file frameStartPos).foldl
          (fun m f => mapAssign m f.frame f) frames := by
  induction fuel generalizing file frameStartPos frames with
  | zero => rfl
  | succ n ih =>
    unfold frameLoop loopTrace
    by_cases hc : frameStartPos + 10 < size ∧ frameStartPos < filesize
    · simp only [hc, and_self, if_true]
      by_cases hn : (D.ofFile file frameStartPos majorVer filesize).1.null = true
      · simp only [hn, if_true, List.foldl_nil]
      · simp only [hn, Bool.false_eq_true, if_false, List.foldl_cons]
        exact ih _ _ _
    · simp only [hc, if_false, List.foldl_nil]

theorem filter_mapAssign_self (m : List (String × FrameObj)) (k : String) (v : FrameObj) :
    (mapAssign m k v).filter (fun kv => kv.1 == k) = [(k, v)] := by
  unfold mapAssign
  rw [List.filter_append, List.filter_filter]
  have h1 : m.filter (fun a => (a.1 == k) && (a.1 != k)) = [] := by
    rw [List.filter_eq_nil_iff]
    intro a _
    by_cases h : a.1 = k <;> simp [h]
  rw [h1]
  simp

theorem filter_mapAssign_other (m : List (String × FrameObj)) (k k' : String) (v : FrameObj)
    (h : k ≠ k') :
    (mapAssign m k v).filter (fun kv => kv.1 == k') = m.filter (fun kv => kv.1 == k') := by
  unfold mapAssign
  rw [List.filter_append, List.filter_filter]
  have h1 : m.filter (fun a => (a.1 == k') && (a.1 != k)) = m.filter (fun a => a.1 == k') := by
    apply List.filter_congr
    intro a _
    by_cases ha : a.1 = k'
    · have : a.1 ≠ k := fun e => h (e.symm.trans ha)
      simp [ha, this]
      exact fun e => h e.symm
    · simp [ha]
  rw [h1]
  simp [h]

theorem foldl_assign_other (post : List FrameObj) (m : List (String × FrameObj)) (k : String)
    (h : ∀ f ∈ post, f.frame ≠ k) :
    (post.foldl (fun m f => mapAssign m f.frame f) m).filter (fun kv => kv.1 == k)
      = m.filter (fun kv => kv.1 == k) := by
  induction post generalizing m with
  | nil => rfl
  | cons f rest ih =>
    rw [List.foldl_cons, ih _ (fun g hg => h g (List.mem_cons_of_mem _ hg)),
      filter_mapAssign_other _ _ _ _ (h f (List.mem_cons_self _ _))]

/-- The loop of `Tag::getFileV2` assigns every frame it reads to the map
entry of its ID (`frames[frame.frame()] = frame`).  When the frames read, in
file order, include a frame `a` and later a frame `b` with the same ID, and no
frame after `b` has that ID, the map holds exactly one entry with that ID, and
it is `b`. -/
theorem frames_keep_later (D : TagDeps) (majorVer filesize size fuel : Nat) (file : IStream)
    (frameStartPos : Nat) (frames : List (String × FrameObj))
    (pre mid post : List FrameObj) (a b : FrameObj)
    (htrace : loopTrace D majorVer filesize size fuel file frameStartPos
      = pre ++ a :: (mid ++ b :: post))
    (hid : a.frame = b.frame) (hlast : ∀ f ∈ post, f.frame ≠ b.frame) :
    (frameLoop D majorVer filesize size fuel file frameStartPos frames).filter
        (fun kv => kv.1 == a.frame) = [(b.frame, b)] ∧
    (frameLoop D majorVer filesize size fuel file frameStartPos frames).lookup a.frame
      = some b := by
  have hf : (frameLoop D majorVer filesize size fuel file frameStartPos frames).filter
      (fun kv => kv.1 == b.frame) = [(b.frame, b)] := by
    rw [frameLoop_eq_foldl, htrace]
    have e : pre ++ a :: (mid ++ b :: post) = (pre ++ a :: mid) ++ b :: post := by simp
    rw [e, List.foldl_append, List.foldl_cons, foldl_assign_other _ _ _ hlast,
      filter_mapAssign_self]
  rw [hid]
  refine ⟨hf, ?_⟩
  generalize frameLoop D majorVer filesize size fuel file frameStartPos frames = m at hf
  induction m with
  | nil => simp at hf
  | cons x rest ih =>
    by_cases hx : x.1 = b.frame
    · have hb : (x.1 == b.frame) = true := by simpa using hx
      rw [List.filter_cons_of_pos (by simpa using hx)] at hf
      have hxe : x = (b.frame, b) := (List.cons.inj hf).1
      have hb2 : (b.frame == x.1) = true := by simpa using hx.symm
      simp only [List.lookup, hb2]
      rw [hxe]
    · have hb : (b.frame == x.1) = false := by simpa using fun e => hx e.symm
      rw [List.filter_cons_of_neg (by simpa using hx)] at hf
      simp only [List.lookup, hb]
      exact ih hf

theorem toDigitsCore_eq (n : Nat) : ∀ (fuel : Nat) (ds : List Char), n < fuel →
    Nat.toDigitsCore 10 fuel n ds
      = (if n / 10 = 0 then [Nat.digitChar (n % 10)]
         else Nat.toDigits 10 (n / 10) ++ [Nat.digitChar (n % 10)]) ++ ds := by
  induction n using Nat.strong_induction_on with
  | _ n ih =>
    intro fuel ds hlt
    cases fuel with
    | zero => omega
    | succ f =>
      simp only [Nat.toDigitsCore]
      by_cases h0 : n / 10 = 0
      · simp [h0]
      · simp only [h0, if_false]
        have hlt' : n / 10 < n := Nat.div_lt_self (by omega) (by decide)
        rw [ih (n / 10) hlt' f _ (by omega)]
        have ht : Nat.toDigits 10 (n / 10)
            = (if n / 10 / 10 = 0 then [Nat.digitChar (n / 10 % 10)]
               else Nat.toDigits 10 (n / 10 / 10) ++ [Nat.digitChar (n / 10 % 10)]) := by
          have := ih (n / 10) hlt' (n / 10 + 1) [] (by omega)
          rw [List.append_nil] at this
          exact this
        rw [← ht]
        simp

theorem toDigits_lt (n : Nat) (h : n < 10) : Nat.toDigits 10 n = [Nat.digitChar n] := by
  have := toDigitsCore_eq n (n + 1) [] (by omega)
  rw [List.append_nil] at this
  have h0 : n / 10 = 0 := Nat.div_eq_of_lt h
  have hm : n % 10 = n := Nat.mod_eq_of_lt h
  unfold Nat.toDigits
  rw [this, h0, hm]
  rfl

theorem toDigits_ge (n : Nat) (h : 10 ≤ n) :
    Nat.toDigits 10 n = Nat.toDigits 10 (n / 10) ++ [Nat.digitChar (n % 10)] := by
  have := toDigitsCore_eq n (n + 1) [] (by omega)
  rw [List.append_nil] at this
  have h0 : ¬ n / 10 = 0 := by
    intro h0
    omega
  unfold Nat.toDigits at this ⊢
  rw [this, if_neg h0]

theorem digitChar_toNat (d : Nat) (h : d < 10) : (Nat.digitChar d).toNat = 0x30 + d := by
  interval_cases d <;> rfl

/-- The decimal digits of a natural number as bytes. -/
theorem to_string_natCast (n : Nat) :
    to_string (n : Int) = (Nat.toDigits 10 n).map Char.toNat := by
  unfold to_string
  have h : ¬ ((n : Int) < 0) := by omega
  rw [if_neg h, Int.toNat_ofNat]

theorem to_string_lt (n : Nat) (h : n < 10) : to_string (n : Int) = [0x30 + n] := by
  rw [to_string_natCast, toDigits_lt n h]
  simp [digitChar_toNat n h]

theorem to_string_ge (n : Nat) (h : 10 ≤ n) :
    to_string (n : Int) = to_string ((n / 10 : Nat) : Int) ++ [0x30 + n % 10] := by
  rw [to_string_natCast, to_string_natCast, toDigits_ge n h]
  simp [digitChar_toNat (n % 10) (Nat.mod_lt _ (by decide))]

theorem to_string_neg (n : Nat) (h : 1 ≤ n) :
    to_string (-(n : Int)) = 0x2D :: to_string (n : Int) := by
  rw [to_string_natCast]
  unfold to_string
  have h1 : (-(n : Int)) < 0 := by omega
  rw [if_pos h1]
  simp

theorem atoiDigits_append (s rest : ByteArray) (acc : Nat)
    (hs : ∀ c ∈ s, 0x30 ≤ c ∧ c ≤ 0x39) :
    atoiDigits (s ++ rest) acc = atoiDigits rest (atoiDigits s acc) := by
  induction s generalizing acc with
  | nil => rfl
  | cons c s ih =>
    have hc := hs c (List.mem_cons_self _ _)
    simp only [List.cons_append, atoiDigits, hc, and_self, if_true]
    exact ih _ (fun x hx => hs x (List.mem_cons_of_mem _ hx))

/-- The facts on the decimal string of a natural number: it is not empty, it
holds digits only, it starts with the digit 0 only for 0, and `atoi` reads
the number back from it. -/
theorem to_string_nat_facts (n : Nat) :
    to_string (n : Int) ≠ [] ∧
    (∀ c ∈ to_string (n : Int), 0x30 ≤ c ∧ c ≤ 0x39) ∧
    (1 ≤ n → (to_string (n : Int)).head? ≠ some 0x30) ∧
    (n = 0 → to_string (n : Int) = [0x30]) ∧
    atoiDigits (to_string (n : Int)) 0 = n := by
  induction n using Nat.strong_induction_on with
  | _ n ih =>
    by_cases h : n < 10
    · rw [to_string_lt n h]
      refine ⟨by simp, ?_, ?_, ?_, ?_⟩
      · intro c hc
        simp only [List.mem_singleton] at hc
        omega
      · intro h1
        simp only [List.head?_cons, ne_eq, Option.some.injEq]
        omega
      · intro h0
        rw [h0]
      · have hd : 0x30 ≤ 0x30 + n ∧ 0x30 + n ≤ 0x39 := by omega
        simp only [atoiDigits, hd, and_self, if_true]
        omega
    · have h10 : 10 ≤ n := by omega
      have hlt : n / 10 < n := Nat.div_lt_self (by omega) (by decide)
      obtain ⟨i1, i2, i3, _, i5⟩ := ih (n / 10) hlt
      have hq : 1 ≤ n / 10 := by omega
      rw [to_string_ge n h10]
      refine ⟨by simp, ?_, ?_, ?_, ?_⟩
      · intro c hc
        rcases List.mem_append.mp hc with hc | hc
        · exact i2 c hc
        · simp only [List.mem_singleton] at hc
          have := Nat.mod_lt n (show 0 < 10 by decide)
          omega
      · intro _
        have := i3 hq
        cases hts : to_string ((n / 10 : Nat) : Int) with
        | nil => exact absurd hts i1
        | cons x xs =>
          rw [hts] at this
          simpa using this
      · intro h0
        omega
      · rw [atoiDigits_append _ _ _ i2, i5]
        have hm := Nat.mod_lt n (show 0 < 10 by decide)
        have hd : 0x30 ≤ 0x30 + n % 10 ∧ 0x30 + n % 10 ≤ 0x39 := by omega
        simp only [atoiDigits, hd, and_self, if_true]
        omega

theorem isDecimalNat_iff (s : ByteArray) :
    isDecimalNat s = true ↔
      s ≠ [] ∧ (∀ c ∈ s, 0x30 ≤ c ∧ c ≤ 0x39) ∧ (s = [0x30] ∨ s.head? ≠ some 0x30) := by
  simp [isDecimalNat, numericalString, List.all_eq_true, and_assoc]

/-- The decimal string of the number that `atoi` reads from a decimal string
is the string itself. -/
theorem to_string_atoiDigits (s : ByteArray) :
    s ≠ [] → (∀ c ∈ s, 0x30 ≤ c ∧ c ≤ 0x39) → (s = [0x30] ∨ s.head? ≠ some 0x30) →
      to_string ((atoiDigits s 0 : Nat) : Int) = s := by
  induction s using List.reverseRecOn with
  | nil => intro h; exact absurd rfl h
  | append_singleton init d ih =>
    intro _ hdig hhead
    have hd := hdig d (by simp)
    have hinit : ∀ c ∈ init, 0x30 ≤ c ∧ c ≤ 0x39 := fun c hc => hdig c (by simp [hc])
    have hval : atoiDigits (init ++ [d]) 0 = atoiDigits init 0 * 10 + (d - 0x30) := by
      rw [atoiDigits_append _ _ _ hinit]
      simp only [atoiDigits, hd, and_self, if_true]
    rw [hval]
    cases init with
    | nil =>
      simp only [atoiDigits, Nat.zero_mul, Nat.zero_add, List.nil_append]
      rw [to_string_lt _ (by omega)]
      congr 1
      omega
    | cons x xs =>
      have hh : (x :: xs).head? ≠ some 0x30 := by
        rcases hhead with h | h
        · simp at h
        · simpa using h
      have hi := ih (by simp) hinit (Or.inr hh)
      have hpos : 1 ≤ atoiDigits (x :: xs) 0 := by
        by_contra hc
        have h0 : atoiDigits (x :: xs) 0 = 0 := by omega
        rw [h0] at hi
        have : to_string ((0 : Nat) : Int) = [0x30] := to_string_lt 0 (by decide)
        rw [this] at hi
        rw [← hi] at hh
        simp at hh
      have hge : 10 ≤ atoiDigits (x :: xs) 0 * 10 + (d - 0x30) := by omega
      rw [to_string_ge _ hge]
      have e1 : (atoiDigits (x :: xs) 0 * 10 + (d - 0x30)) / 10 = atoiDigits (x :: xs) 0 := by
        omega
      have e2 : (atoiDigits (x :: xs) 0 * 10 + (d - 0x30)) % 10 = d - 0x30 := by omega
      rw [e1, e2, hi]
      congr 2
      omega

theorem atoiDigits_lt (s : ByteArray) (acc : Nat) (hs : ∀ c ∈ s, 0x30 ≤ c ∧ c ≤ 0x39) :
    atoiDigits s acc < (acc + 1) * 10 ^ s.length := by
  induction s generalizing acc with
  | nil => simp [atoiDigits]
  | cons c s ih =>
    have hc := hs c (List.mem_cons_self _ _)
    simp only [atoiDigits, hc, and_self, if_true, List.length_cons]
    have := ih (acc * 10 + (c - 0x30)) (fun x hx => hs x (List.mem_cons_of_mem _ hx))
    have h2 : (acc * 10 + (c - 0x30) + 1) * 10 ^ s.length ≤ (acc + 1) * 10 ^ (s.length + 1) := by
      have e : (acc + 1) * 10 ^ (s.length + 1) = ((acc + 1) * 10) * 10 ^ s.length := by
        rw [Nat.pow_succ, Nat.mul_comm (10 ^ s.length) 10, Nat.mul_assoc]
      rw [e]
      apply Nat.mul_le_mul_right
      omega
    omega

/-- Every string that `std::to_string` gives is a decimal string of an
integer. -/
theorem isDecimalInt_to_string (v : Int) : isDecimalInt (to_string v) = true := by
  have hnat : ∀ n : Nat, isDecimalNat (to_string (n : Int)) = true ∧
      ∀ r, to_string (n : Int) ≠ 0x2D :: r := by
    intro n
    obtain ⟨f1, f2, f3, f4, _⟩ := to_string_nat_facts n
    refine ⟨(isDecimalNat_iff _).mpr ⟨f1, f2, ?_⟩, ?_⟩
    · by_cases h0 : n = 0
      · exact Or.inl (f4 h0)
      · exact Or.inr (f3 (by omega))
    · intro r hr
      have := f2 0x2D (by rw [hr]; simp)
      omega
  by_cases hv : v < 0
  · obtain ⟨n, hn⟩ : ∃ n : Nat, v = -(n : Int) := ⟨v.natAbs, by omega⟩
    have h1 : 1 ≤ n := by omega
    rw [hn, to_string_neg n h1]
    obtain ⟨f1, f2, f3, _, _⟩ := to_string_nat_facts n
    have hne : to_string (n : Int) ≠ [0x30] := by
      intro h
      have := f3 h1
      rw [h] at this
      simp at this
    simp only [isDecimalInt, (hnat n).1, Bool.true_and, bne_iff_ne, ne_eq, hne,
      not_false_eq_true, decide_True]
  · obtain ⟨n, hn⟩ : ∃ n : Nat, v = (n : Int) := ⟨v.toNat, by omega⟩
    rw [hn]
    have h := hnat n
    cases hs : to_string (n : Int) with
    | nil => rw [hs] at h; simp [isDecimalNat] at h
    | cons x xs =>
      by_cases hx : x = 0x2D
      · exact absurd (hx ▸ hs) (h.2 xs)
      · rw [hs] at h
        unfold isDecimalInt
        split
        · rename_i r heq
          exact absurd (List.cons.inj heq).1 hx
        · exact h.1

theorem pow_le_of_len (n : Nat) (h : n ≤ 9) : 10 ^ n ≤ 10 ^ 9 :=
  Nat.pow_le_pow_right (by decide) h

/-- The value that `atoi` gives for a decimal string of a natural number of at
most nine digits. -/
theorem atoi_decimalNat (H : Host) (s : ByteArray) (hs : isDecimalNat s = true)
    (hlen : s.length ≤ 9) : atoi H s = ((atoiDigits s 0 : Nat) : Int) := by
  obtain ⟨hne, hdig, _⟩ := (isDecimalNat_iff s).mp hs
  cases s with
  | nil => exact absurd rfl hne
  | cons x xs =>
    have hx := hdig x (List.mem_cons_self _ _)
    have hsp : isspace x = false := by
      simp only [isspace, Bool.or_eq_false_iff, beq_eq_false_iff_ne, ne_eq,
        Bool.and_eq_false_iff, decide_eq_false_iff_not, not_le]
      omega
    have hb := atoiDigits_lt (x :: xs) 0 hdig
    have hp := pow_le_of_len _ hlen
    have hrange : -(2 : Int) ^ 31 ≤ ((atoiDigits (x :: xs) 0 : Nat) : Int) ∧
        ((atoiDigits (x :: xs) 0 : Nat) : Int) < (2 : Int) ^ 31 := by
      constructor
      · have : (0 : Int) ≤ ((atoiDigits (x :: xs) 0 : Nat) : Int) := Int.ofNat_nonneg _
        have h2 : -(2 : Int) ^ 31 ≤ 0 := by norm_num
        omega
      · have h3 : atoiDigits (x :: xs) 0 < 2 ^ 31 := by
          have : (10 : Nat) ^ 9 < 2 ^ 31 := by norm_num
          omega
        have h4 : ((2 ^ 31 : Nat) : Int) = (2 : Int) ^ 31 := by norm_num
        omega
    have hm : atoiSigned (x :: xs) = ((atoiDigits (x :: xs) 0 : Nat) : Int) := by
      unfold atoiSigned
      split
      · rename_i rest heq
        have := (List.cons.inj heq).1
        omega
      · rename_i rest heq
        have := (List.cons.inj heq).1
        omega
      · rfl
    unfold atoi
    simp only [List.dropWhile, hsp]
    rw [hm, if_pos hrange]

/-- The value that `atoi` gives for a minus sign before a decimal string of a
natural number of at most nine digits. -/
theorem atoi_minus (H : Host) (r : ByteArray) (hr : isDecimalNat r = true)
    (hlen : r.length ≤ 9) : atoi H (0x2D :: r) = -((atoiDigits r 0 : Nat) : Int) := by
  obtain ⟨_, hdig, _⟩ := (isDecimalNat_iff r).mp hr
  have hb := atoiDigits_lt r 0 hdig
  have hp := pow_le_of_len _ hlen
  have hrange : -(2 : Int) ^ 31 ≤ -((atoiDigits r 0 : Nat) : Int) ∧
      -((atoiDigits r 0 : Nat) : Int) < (2 : Int) ^ 31 := by
    have h3 : atoiDigits r 0 < 2 ^ 31 := by
      have : (10 : Nat) ^ 9 < 2 ^ 31 := by norm_num
      omega
    have h4 : ((2 ^ 31 : Nat) : Int) = (2 : Int) ^ 31 := by norm_num
    have h5 : (0 : Int) ≤ ((atoiDigits r 0 : Nat) : Int) := Int.ofNat_nonneg _
    constructor <;> omega
  have hsp : isspace 0x2D = false := by decide
  have hm : atoiSigned (0x2D :: r) = -((atoiDigits r 0 : Nat) : Int) := rfl
  unfold atoi
  simp only [List.dropWhile, hsp]
  rw [hm, if_pos hrange]

/-- For a decimal string of an integer with at most nine characters, the test
`std::to_string(atoi(s)) != s` of the accessors fails: the string is kept. -/
theorem to_string_atoi (H : Host) (s : ByteArray) (hs : isDecimalInt s = true)
    (hlen : s.length ≤ 9) : to_string (atoi H s) = s := by
  have hnat : ∀ r : ByteArray, isDecimalNat r = true → r.length ≤ 9 →
      to_string (atoi H r) = r := by
    intro r hr hl
    obtain ⟨h1, h2, h3⟩ := (isDecimalNat_iff r).mp hr
    rw [atoi_decimalNat H r hr hl]
    exact to_string_atoiDigits r h1 h2 h3
  unfold isDecimalInt at hs
  split at hs
  · rename_i rest
    simp only [Bool.and_eq_true, bne_iff_ne, ne_eq] at hs
    obtain ⟨h1, h2, h3⟩ := (isDecimalNat_iff rest).mp hs.1
    have hl : rest.length ≤ 9 := by
      simp only [List.length_cons] at hlen
      omega
    have hrest := to_string_atoiDigits rest h1 h2 h3
    have hpos : 1 ≤ atoiDigits rest 0 := by
      by_contra hc
      have h0 : atoiDigits rest 0 = 0 := by omega
      rw [h0] at hrest
      have : to_string ((0 : Nat) : Int) = [0x30] := to_string_lt 0 (by decide)
      rw [this] at hrest
      exact hs.2 hrest.symm
    rw [atoi_minus H rest hs.1 hl, to_string_neg _ hpos, hrest]
  · exact hnat s hs hlen

/-- For a string that is not a decimal string of an integer, the test
`std::to_string(atoi(s)) != s` of the accessors holds. -/
theorem to_string_atoi_ne (H : Host) (s : ByteArray) (hs : isDecimalInt s = false) :
    to_string (atoi H s) ≠ s := by
  intro h
  have := isDecimalInt_to_string (atoi H s)
  rw [h, hs] at this
  cases this

/-! ## The accessors `Tag::track` and `Tag::trackTotal` -/

/-- The search `trackString.find('/')` of the accessors: the index of the first
slash when there is one. -/
theorem stringFind_slash (c : ByteArray) :
    stringFind c 0x2F 0 = if 0x2F ∈ c then some (c.indexOf 0x2F) else none := by
  unfold stringFind
  simp only [List.drop_zero, Nat.zero_add]
  by_cases h : 0x2F ∈ c
  · rw [if_pos (List.indexOf_lt_length.mpr h), if_pos h]
  · rw [if_neg (fun hl => h (List.indexOf_lt_length.mp hl)), if_neg h]

/-- Without a slash, the bytes before the first slash are all of the content. -/
theorem take_indexOf_not_mem (c : ByteArray) (h : 0x2F ∉ c) :
    c.take (c.indexOf 0x2F) = c := by
  have h1 := List.indexOf_le_length (a := 0x2F) (l := c)
  have h2 : ¬ (c.indexOf 0x2F < c.length) := fun hl => h (List.indexOf_lt_length.mp hl)
  have : c.indexOf 0x2F = c.length := by omega
  simp [this]

/-- The test of the accessors on a string of at most nine bytes: the string is
kept exactly when it is the decimal string of an integer. -/
theorem atoi_test (H : Host) (s : ByteArray) (hlen : s.length ≤ 9) :
    (if to_string (atoi H s) ≠ s then [] else s) = if isDecimalInt s then s else [] := by
  cases hs : isDecimalInt s
  · rw [if_pos (to_string_atoi_ne H s hs)]
    simp
  · rw [if_neg (not_not.mpr (to_string_atoi H s hs hlen))]
    simp

/-- The test of `Tag::track` and `Tag::trackTotal` in general: with
`process = true`, for a TRCK content `c` whose parts
before and after the first slash have at most nine bytes each, `track()` returns
the part before the first slash (all of `c` when there is no slash) when that
part is the string `std::to_string` gives for an integer — an optional minus
sign, then digits without a leading zero, and not `-0` — and the empty string
otherwise; `trackTotal()` returns the empty string when `c` has no slash, and
otherwise the part after the first slash under the same test. -/
theorem track_canonical_integer (H : Host) (t : Tag)
    (hh : ((t.getFrameText "TRCK").take ((t.getFrameText "TRCK").indexOf 0x2F)).length ≤ 9)
    (ht : ((t.getFrameText "TRCK").drop ((t.getFrameText "TRCK").indexOf 0x2F + 1)).length ≤ 9) :
    Tag.track H t true =
      (if isDecimalInt ((t.getFrameText "TRCK").take ((t.getFrameText "TRCK").indexOf 0x2F))
        then (t.getFrameText "TRCK").take ((t.getFrameText "TRCK").indexOf 0x2F) else []) ∧
    Tag.trackTotal H t true =
      (if 0x2F ∈ t.getFrameText "TRCK" then
        (if isDecimalInt ((t.getFrameText "TRCK").drop ((t.getFrameText "TRCK").indexOf 0x2F + 1))
          then (t.getFrameText "TRCK").drop ((t.getFrameText "TRCK").indexOf 0x2F + 1) else [])
       else []) := by
  constructor
  · unfold Tag.track
    simp only [if_true]
    rw [stringFind_slash]
    by_cases h : 0x2F ∈ t.getFrameText "TRCK"
    · simp only [if_pos h]
      exact atoi_test H _ hh
    · simp only [if_neg h]
      rw [take_indexOf_not_mem _ h] at hh ⊢
      exact atoi_test H _ hh
  · unfold Tag.trackTotal
    simp only [Bool.true_and]
    rw [stringFind_slash]
    by_cases h : 0x2F ∈ t.getFrameText "TRCK"
    · rw [if_pos h, if_pos h]
      simp only []
      have := atoi_test H _ ht
      rw [← this]
      by_cases hne : to_string (atoi H
          ((t.getFrameText "TRCK").drop ((t.getFrameText "TRCK").indexOf 0x2F + 1))) ≠
          (t.getFrameText "TRCK").drop ((t.getFrameText "TRCK").indexOf 0x2F + 1)
      · simp [hne]
      · simp [hne]
    · rw [if_neg h, if_neg h]

set_option maxRecDepth 100000 in
theorem track_canonical_integer_witness :
    Tag.track shiftMod64Host (exampleTagTrack [0x35, 0x2F, 0x31, 0x32]) true = [0x35] ∧
    Tag.trackTotal shiftMod64Host (exampleTagTrack [0x35, 0x2F, 0x31, 0x32]) true = [0x31, 0x32] := by
  have h := track_canonical_integer shiftMod64Host (exampleTagTrack [0x35, 0x2F, 0x31, 0x32])
    (by decide) (by decide)
  have e1 : (if isDecimalInt (((exampleTagTrack [0x35, 0x2F, 0x31, 0x32]).getFrameText "TRCK").take
      (((exampleTagTrack [0x35, 0x2F, 0x31, 0x32]).getFrameText "TRCK").indexOf 0x2F))
      then ((exampleTagTrack [0x35, 0x2F, 0x31, 0x32]).getFrameText "TRCK").take
        (((exampleTagTrack [0x35, 0x2F, 0x31, 0x32]).getFrameText "TRCK").indexOf 0x2F) else [])
      = [0x35] := by decide
  have e2 : (if 0x2F ∈ (exampleTagTrack [0x35, 0x2F, 0x31, 0x32]).getFrameText "TRCK" then
      (if isDecimalInt (((exampleTagTrack [0x35, 0x2F, 0x31, 0x32]).getFrameText "TRCK").drop
          (((exampleTagTrack [0x35, 0x2F, 0x31, 0x32]).getFrameText "TRCK").indexOf 0x2F + 1))
        then ((exampleTagTrack [0x35, 0x2F, 0x31, 0x32]).getFrameText "TRCK").drop
          (((exampleTagTrack [0x35, 0x2F, 0x31, 0x32]).getFrameText "TRCK").indexOf 0x2F + 1) else [])
      else []) = [0x31, 0x32] := by decide
  exact ⟨h.1.trans e1, h.2.trans e2⟩

set_option maxRecDepth 100000 in
/-- C30 (code defect): `Tag::track` and `Tag::trackTotal` test a part of the
TRCK content with `std::to_string(atoi(s)) != s`, which is true of every
decimal string with a leading zero.  The content `05` gives the empty track,
and the content `05/12` gives the empty track with the track total `12`,
although `05` is an integer, a non-empty string of decimal digits; the content
`5/012` gives the track `5` with the empty track total.  The content `-5` is
not a string of decimal digits, and `track()` returns it: it is an integer for
the test. -/
theorem track_leading_zero_rejected :
    (exampleTagTrack [0x30, 0x35]).getFrameText "TRCK" = [0x30, 0x35] ∧
    numericalString [0x30, 0x35] = true ∧
    Tag.track shiftMod64Host (exampleTagTrack [0x30, 0x35]) true = [] ∧
    (∀ H : Host, Tag.track H (exampleTagTrack [0x30, 0x35]) true = []) ∧
    (∀ H : Host, Tag.track H (exampleTagTrack [0x30, 0x35, 0x2F, 0x31, 0x32]) true = [] ∧
      Tag.trackTotal H (exampleTagTrack [0x30, 0x35, 0x2F, 0x31, 0x32]) true = [0x31, 0x32]) ∧
    (∀ H : Host, Tag.track H (exampleTagTrack [0x35, 0x2F, 0x30, 0x31, 0x32]) true = [0x35] ∧
      Tag.trackTotal H (exampleTagTrack [0x35, 0x2F, 0x30, 0x31, 0x32]) true = []) ∧
    (exampleTagTrack [0x2D, 0x35]).getFrameText "TRCK" = [0x2D, 0x35] ∧
    numericalString [0x2D, 0x35] = false ∧
    Tag.track shiftMod64Host (exampleTagTrack [0x2D, 0x35]) true = [0x2D, 0x35] := by
  refine ⟨by decide, by decide, by decide, fun H => ?_, fun H => ?_, fun H => ?_,
    by decide, by decide, by decide⟩
  · exact (track_canonical_integer H (exampleTagTrack [0x30, 0x35]) (by decide)
      (by decide)).1.trans (by decide)
  · have h := track_canonical_integer H (exampleTagTrack [0x30, 0x35, 0x2F, 0x31, 0x32])
      (by decide) (by decide)
    exact ⟨h.1.trans (by decide), h.2.trans (by decide)⟩
  · have h := track_canonical_integer H (exampleTagTrack [0x35, 0x2F, 0x30, 0x31, 0x32])
      (by decide) (by decide)
    exact ⟨h.1.trans (by decide), h.2.trans (by decide)⟩

/-! ## The tag assembler on example files -/

set_option maxRecDepth 100000 in
/-- C24 (code defect): the loop of `Tag::getFileV2` runs while
`frameStartPos + 10 < v2TagInfo.size`, where `v2TagInfo.size` is the declared
size of the frame region, which does not count the ten bytes of the tag header
before the region.  For the v2.3 tag whose only frame is TALB with the body
01 FF FE 41 00 42 00 (declared size 17, region from 10 to 27) the test is
`20 < 17`: no frame is read and `album()` is empty, whatever the host and the
frame reader are, although the factory reads the frame at offset 10 as a text
frame with the content `AB`.  With 13 bytes of padding after the frame
(declared size 30) the frame is read.  In general the loop reads nothing at a
position less than ten bytes before the declared size. -/
theorem getFileV2_skips_last_frame :
    (∀ (H : Host) (D : TagDeps) (fuel : Nat),
      (Tag.ofStream H D fuel 0 true (openStream exampleTagTALB)).frames = [] ∧
      (Tag.ofStream H D fuel 0 true (openStream exampleTagTALB)).album = [] ∧
      (Tag.ofStream H D fuel 0 true (openStream exampleTagTALB)).tagsSet.v2 = true ∧
      (Tag.ofStream H D fuel 0 true (openStream exampleTagTALB)).v2TagInfo.size = 17 ∧
      (Tag.ofStream H D fuel 0 true (openStream exampleTagTALB)).null = false) ∧
    exampleTagTALB.length = 10 + 17 ∧
    create shiftMod64Host
        { musicFile := some (openStream exampleTagTALB), ID3Ver := 3, ID3Size := 27 } 10
      = FramePtr.frameOf FrameClass.CLASS_TEXT (FrameID.ofString "TALB") 3
          (exampleTagTALB.drop 10) ∧
    (TextFrame.read shiftMod64Host HEADER_BYTE_SIZE
        { id := FrameID.ofString "TALB", ID3Ver := 3, frameContent := exampleTagTALB.drop 10,
          isNull := false, isEdited := false, textContent := [] }).textContent = [0x41, 0x42] ∧
    (Tag.ofStream shiftMod64Host (specDeps shiftMod64Host []) 2 0 true
        (openStream exampleTagTALBPadded)).album = [0x41, 0x42] ∧
    (∀ (D : TagDeps) (majorVer filesize size fuel : Nat) (file : IStream) (frameStartPos : Nat)
        (frames : List (String × FrameObj)),
      frameLoop D majorVer filesize (min size (frameStartPos + 10)) fuel file frameStartPos frames
        = frames) := by
  refine ⟨?_, by decide, by decide, by decide, by decide, ?_⟩
  · intro H D fuel
    rw [talb_frames H D fuel]
    exact ⟨rfl, rfl, rfl, rfl, rfl⟩
  · intro D majorVer filesize size fuel file frameStartPos frames
    apply frameLoop_exit
    intro h
    have := Nat.min_le_right size (frameStartPos + 10)
    omega

set_option maxRecDepth 100000 in
/-- C26 (code defect): the file holds a v2.3 tag whose one frame is TIT2 with
the content `AB`, and a v1 trailer with the title `Old`.  The loop of
`Tag::getFileV2` does not read the frame (its test is `20 < 13`, the defect of
C24), so the entry TIT2 of the map stays the frame built from the v1 title and
`title()` returns `Old`, not the value `AB` of the v2 frame. -/
theorem v1_title_kept_over_v2 :
    (∀ (H : Host) (D : TagDeps) (fuel : Nat),
      (Tag.ofStream H D fuel 0 true (openStream exampleFileV1V2)).frames.lookup "TIT2"
        = some (D.ofText "TIT2" [0x4F, 0x6C, 0x64]) ∧
      (Tag.ofStream H D fuel 0 true (openStream exampleFileV1V2)).tagsSet
        = TagsOnFile.mk false true false true ∧
      (Tag.ofStream H D fuel 0 true (openStream exampleFileV1V2)).v2TagInfo.size = 13) ∧
    (Tag.ofStream shiftMod64Host (specDeps shiftMod64Host []) 2 0 true
        (openStream exampleFileV1V2)).title = [0x4F, 0x6C, 0x64] ∧
    create shiftMod64Host
        { musicFile := some (openStream exampleFileV1V2), ID3Ver := 3, ID3Size := 401 } 10
      = FramePtr.frameOf FrameClass.CLASS_TEXT (FrameID.ofString "TIT2") 3
          ((exampleFileV1V2.drop 10).take 13) ∧
    (TextFrame.read shiftMod64Host HEADER_BYTE_SIZE
        { id := FrameID.ofString "TIT2", ID3Ver := 3,
          frameContent := (exampleFileV1V2.drop 10).take 13,
          isNull := false, isEdited := false, textContent := [] }).textContent = [0x41, 0x42] := by
  refine ⟨fun H D fuel => v1v2_tag H D fuel, by decide, by decide, by decide⟩

set_option maxRecDepth 100000 in
theorem frames_keep_later_witness :
    (frameLoop (specDeps shiftMod64Host []) 3 52 42 5
        (IStream.mk exampleTagTwoCOMM 10 false false) 10 []).lookup "COMM"
      = some (FrameObj.mk "COMM" false [] 42) :=
  (frames_keep_later (specDeps shiftMod64Host []) 3 52 42 5
    (IStream.mk exampleTagTwoCOMM 10 false false) 10 [] [] [] []
    (FrameObj.mk "COMM" false [] 26) (FrameObj.mk "COMM" false [] 42)
    (by decide) rfl (by simp)).2

set_option maxRecDepth 100000 in
theorem setTags_v1_trailer_witness :
    exampleTrailerV11.length = 128 ∧
    (Tag.setTags (specDeps shiftMod64Host []) (Tag.new 128) exampleTrailerV11 true).tagsSet.v1_1
      = true ∧
    (Tag.setTags (specDeps shiftMod64Host []) (Tag.new 128) exampleTrailerV11 true).frames.lookup
        "TRCK" = some (FrameObj.ofText "TRCK" [0x37]) :=
  have h := setTags_v1_trailer (specDeps shiftMod64Host []) (Tag.new 128) exampleTrailerV11
    (by decide) rfl rfl
  ⟨by decide, h.1.mpr (by decide), (h.2.2.1 (by decide)).trans (by decide)⟩

set_option maxRecDepth 100000 in
/-- C40 (code defect): `V2_FRAME_CONVERSION_MAP` is not injective.  The keys SLT
and ULT both have the target USLT, and the keys TXT and TOL both have the
target TOLY, so the conversion gives one `FrameID` for two distinct v2.2
frame IDs; the IDs SYLT and TEXT, which v2.4 has for SLT and TXT, are in
`FRAME_STR_LIST` and are the target of no entry.  Two entries of the list with
the same target are equal or are one of these two pairs. -/
theorem v2_conversion_not_injective :
    convertOldFrameIDToNew "SLT" = convertOldFrameIDToNew "ULT" ∧
    (convertOldFrameIDToNew "SLT").strID = "USLT" ∧
    convertOldFrameIDToNew "TXT" = convertOldFrameIDToNew "TOL" ∧
    (convertOldFrameIDToNew "TXT").strID = "TOLY" ∧
    (FrameID.ofStringVersion "SLT" 2).enumID = (FrameID.ofStringVersion "ULT" 2).enumID ∧
    (FrameID.ofStringVersion "TXT" 2).enumID = (FrameID.ofStringVersion "TOL" 2).enumID ∧
    "SYLT" ∈ FRAME_STR_LIST ∧ "TEXT" ∈ FRAME_STR_LIST ∧
    "SYLT" ∉ V2_FRAME_CONVERSION_LIST.map Prod.snd ∧
    "TEXT" ∉ V2_FRAME_CONVERSION_LIST.map Prod.snd ∧
    (∀ a ∈ V2_FRAME_CONVERSION_LIST, ∀ b ∈ V2_FRAME_CONVERSION_LIST, a.2 = b.2 →
      a.1 = b.1 ∨ (a.2 = "USLT" ∧ (a.1 = "SLT" ∨ a.1 = "ULT") ∧ (b.1 = "SLT" ∨ b.1 = "ULT")) ∨
        (a.2 = "TOLY" ∧ (a.1 = "TXT" ∨ a.1 = "TOL") ∧ (b.1 = "TXT" ∨ b.1 = "TOL"))) := by
  decide

theorem beValue_digitsBE (s n v : Nat) :
    beValue s (digitsBE s (2 ^ s) n v) = v % 2 ^ (s * n) := by
  induction n generalizing v with
  | zero => simp [digitsBE, beValue, Nat.mod_one]
  | succ n ih =>
    rw [digitsBE, beValue_append, ih, Nat.mul_succ, Nat.pow_add, Nat.mul_comm (2 ^ (s * n)),
      Nat.mod_mul, Nat.mul_comm, Nat.add_comm]

theorem digitsBE_lt (s n v : Nat) : ∀ c ∈ digitsBE s (2 ^ s) n v, c < 2 ^ s := by
  induction n generalizing v with
  | zero => simp [digitsBE]
  | succ n ih =>
    intro c hc
    rw [digitsBE, List.mem_append, List.mem_singleton] at hc
    rcases hc with hc | rfl
    · exact ih _ c hc
    · exact Nat.mod_lt _ (Nat.two_pow_pos s)

/-- The round trip `byteIntVal(intToByteArray(v, n, s), n, s) = v` on every
width `n ≥ 1` whose `k * n` bits fit the shift (`k * n < 64`). -/
theorem decode_encode_defined_widths (H : Host) (v n : Nat) (synchsafe : Bool) (hn : 1 ≤ n)
    (hk : n * (if synchsafe then 7 else 8) < 64)
    (hv : v < 2 ^ ((if synchsafe then 7 else 8) * n)) :
    byteIntVal H (some (intToByteArray H v n synchsafe)) n synchsafe = v := by
  have hnc : ¬ v > 2 ^ (n * (if synchsafe then 7 else 8)) - 1 := by
    rw [Nat.mul_comm]
    omega
  rw [intToByteArray_fixed H v n synchsafe hn hk, if_neg hnc]
  have hlen := digitsBE_length (if synchsafe then 7 else 8) (2 ^ (if synchsafe then 7 else 8)) n v
  have hb : ∀ c ∈ digitsBE (if synchsafe then 7 else 8) (2 ^ (if synchsafe then 7 else 8)) n v,
      c < 256 := by
    intro c hc
    have := digitsBE_lt _ n v c hc
    have h2 : (2 : Nat) ^ (if synchsafe then 7 else 8) ≤ 256 := by cases synchsafe <;> decide
    omega
  have h := byteIntVal_eq_beValue H _ synchsafe (by rw [hlen]; exact hn) hb
  rw [hlen] at h
  rw [h, beValue_digitsBE, Nat.mod_eq_of_lt hv]
  have : v < 2 ^ 64 :=
    lt_trans hv (Nat.pow_lt_pow_right (by decide) (by rw [Nat.mul_comm]; exact hk))
  exact Nat.mod_eq_of_lt this

/-- C37 (code defect, the one of C1): the round trip
`byteIntVal(intToByteArray(v, n, s), n, s) = v` holds for every width `n ≥ 1`
whose `k * n` bits fit the shift (`k` = 7 synchsafe, 8 plain, `k * n < 64`) and
every `v < 2 ^ (k * n)`, that is for every width from 1 to 8 but the width 8
without synchsafe.  There the clamp test of `intToByteArray` computes
`1ULL << 64`; with the shift count taken modulo 64 the bound is 0, every value
is written as eight zero bytes, and the round trip of 1 gives 0. -/
theorem byteIntVal_intToByteArray_roundtrip :
    (∀ (H : Host) (v n : Nat) (synchsafe : Bool), 1 ≤ n → n ≤ 8 →
      ¬ (n = 8 ∧ synchsafe = false) → v < 2 ^ ((if synchsafe then 7 else 8) * n) →
      byteIntVal H (some (intToByteArray H v n synchsafe)) n synchsafe = v) ∧
    intToByteArray shiftMod64Host 1 8 false = [0, 0, 0, 0, 0, 0, 0, 0] ∧
    byteIntVal shiftMod64Host (some (intToByteArray shiftMod64Host 1 8 false)) 8 false = 0 ∧
    (∀ v : Nat, intToByteArray shiftMod64Host v 8 false = [0, 0, 0, 0, 0, 0, 0, 0]) := by
  refine ⟨?_, by decide, by decide, ?_⟩
  · intro H v n synchsafe h1 h8 hne hv
    apply decode_encode_defined_widths H v n synchsafe h1 _ hv
    cases synchsafe
    · simp only [Bool.false_eq_true, if_false]
      have : n ≠ 8 := fun h => hne ⟨h, rfl⟩
      omega
    · simp only [if_true]
      omega
  · intro v
    have hb : (shl1 shiftMod64Host (8 * 8) + 2 ^ 64 - 1) % 2 ^ 64 = 0 := by decide
    have hv : (if v > 0 then 0 else v) = 0 := by
      by_cases h : v > 0
      · rw [if_pos h]
      · rw [if_neg h]
        omega
    unfold intToByteArray
    simp only [Bool.false_eq_true, if_false, OfNat.ofNat_ne_zero, hb, hv]
    decide

theorem byteIntVal_intToByteArray_roundtrip_witness :
    byteIntVal shiftMod64Host (some (intToByteArray shiftMod64Host 300 2 true)) 2 true = 300 :=
  byteIntVal_intToByteArray_roundtrip.1 shiftMod64Host 300 2 true (by decide) (by decide)
    (by decide) (by decide)

/-! ## The v2.2 branch of `FrameFactory::create` -/

/-- Seeking a stream that has not failed and reading `n` bytes into a buffer at
the offset `off`: the buffer receives the bytes that the file holds. -/
theorem seekg_read_at (s : IStream) (readpos off n : Nat) (buf : ByteArray)
    (hf : s.failbit = false) :
    ((s.seekg readpos).read buf off n).2
      = buf.take off ++ (s.content.drop readpos).take n
          ++ buf.drop (off + ((s.content.drop readpos).take n).length) := by
  simp only [IStream.seekg, IStream.read, hf, Bool.false_eq_true, if_false, Bool.or_self]
  split <;> rfl

/-- The v2.2 branch of `FrameFactory::create` on a good stream whose file holds
the six header bytes `hdr` at `readpos`. -/
theorem create_v22 (H : Host) (ff : FrameFactory) (file : IStream) (readpos : Nat)
    (hdr : ByteArray) (hfile : ff.musicFile = some file) (hver : ff.ID3Ver < 3)
    (hgood : file.good = true) (hpos : readpos + 10 ≤ ff.ID3Size)
    (hhdr : (file.content.drop readpos).take 6 = hdr) (hlen : hdr.length = 6) :
    create H ff readpos =
      if byteIntVal H (some ((hdr.drop 3).take 3)) 3 false = 0 ∨
          byteIntVal H (some ((hdr.drop 3).take 3)) 3 false + 6 > ff.ID3Size then
        FramePtr.unknownFrame
      else
        FramePtr.frameOf
          (frameType (FrameID.ofStringVersion (stdString (terminatedstring hdr 4)) ff.ID3Ver))
          (FrameID.ofStringVersion (stdString (terminatedstring hdr 4)) ff.ID3Ver) ff.ID3Ver
          (((copyFour (copyFour
              (List.replicate 4 0 ++ (file.content.drop readpos).take
                  (byteIntVal H (some ((hdr.drop 3).take 3)) 3 false + 6)
                ++ List.replicate (byteIntVal H (some ((hdr.drop 3).take 3)) 3 false + 10
                    - (4 + ((file.content.drop readpos).take
                        (byteIntVal H (some ((hdr.drop 3).take 3)) 3 false + 6)).length)) 0)
              0 (fun i => ((FrameID.ofStringVersion (stdString (terminatedstring hdr 4))
                  ff.ID3Ver).charAt i).toNat % 256))
              4 (fun i => readAt H (intToByteArray H
                  (byteIntVal H (some ((hdr.drop 3).take 3)) 3 false) 4 true) i)).set 8
              FLAG1_DISCARD_UPON_TAG_ALTER_IF_UNKNOWN_V4).set 9 0) := by
  obtain ⟨he, hf⟩ := (good_iff file).mp hgood
  have hread := seekg_read_full file readpos 6 (uninitHeader H 6) hf (by rw [hhdr, hlen])
  rw [hhdr, List.drop_eq_nil_of_le (by rw [uninitHeader_length]), List.append_nil] at hread
  have hseekf : (file.seekg readpos).fail = false := by
    simp [IStream.seekg, IStream.fail, hf]
  have hnot : ¬ (readpos + 10 > ff.ID3Size ∨ file.good = false) := by
    rw [hgood]
    rintro (h | h)
    · omega
    · cases h
  have hv3 : ¬ (ff.ID3Ver ≥ 3) := by omega
  unfold create
  simp only [hfile, HEADER_BYTE_SIZE, OLD_FRAME_HEADER_BYTE_SIZE, hnot, if_false, hseekf,
    Bool.false_eq_true, hv3, hread]
  split
  · rfl
  · have hs2 : (IStream.seekg (IStream.mk file.content (readpos + 6) false false)
        readpos).fail = false := by
      simp [IStream.seekg, IStream.fail]
    have hb := seekg_read_at (IStream.mk file.content (readpos + 6) false false) readpos 4
      (byteIntVal H (some ((hdr.drop 3).take 3)) 3 false + 6)
      (List.replicate
        (byteIntVal H (some ((hdr.drop 3).take 3)) 3 false + 10) 0) rfl
    simp only [hs2, Bool.false_eq_true, if_false, hb, List.drop_replicate, List.take_replicate]
    have h4 : min 4 (byteIntVal H (some ((hdr.drop 3).take 3)) 3 false + 10) = 4 := by omega
    rw [h4]

/-- The value that `create` decodes from the three size bytes of a v2.2 frame
header. -/
theorem size3_decoded (H : Host) (s0 s1 s2 : Nat) (h0 : s0 < 256) (h1 : s1 < 256)
    (h2 : s2 < 256) :
    byteIntVal H (some [s0, s1, s2]) 3 false = s0 * 65536 + s1 * 256 + s2 := by
  have h := byteIntVal_eq_beValue H [s0, s1, s2] false (by simp) (by
    intro c hc
    simp only [List.mem_cons, List.mem_singleton, List.not_mem_nil, or_false] at hc
    rcases hc with rfl | rfl | rfl <;> assumption)
  simp only [List.length_cons, List.length_nil, Nat.zero_add, Nat.reduceAdd, Nat.cast_ofNat,
    Bool.false_eq_true, if_false, beValue, List.foldl] at h
  rw [h]
  norm_num
  omega

/-- The four synchsafe bytes that `intToByteArray(n, 4, true)` gives for a
value below `2 ^ 28`. -/
theorem synchsafe4 (H : Host) (n : Nat) (hn : n < 2 ^ 28) :
    intToByteArray H n 4 true
      = [n / 2 ^ 21 % 128, n / 2 ^ 14 % 128, n / 2 ^ 7 % 128, n % 128] := by
  rw [intToByteArray_fixed H n 4 true (by decide) (by decide)]
  have hnc : ¬ n > 2 ^ (4 * 7) - 1 := by
    have : (2 : Nat) ^ (4 * 7) = 2 ^ 28 := rfl
    omega
  simp only [if_true, hnc, if_false, digitsBE, List.nil_append, List.cons_append,
    List.singleton_append, Nat.div_div_eq_div_mul]
  norm_num

/-- C34: a v2.2 frame at `readpos` of a good stream, with the ID bytes `a b c`,
the size bytes `s0 s1 s2` of the value `n = s0 * 65536 + s1 * 256 + s2 > 0` and
a body `B` of `n` bytes that the file holds, in a tag region that admits it.
`FrameFactory::create` captures the buffer made of the four bytes of the frame
ID, the four synchsafe bytes of `n` (which decode back to `n`), the flag byte
`FLAG1_DISCARD_UPON_TAG_ALTER_IF_UNKNOWN_V4`, a zero byte, and `B`: a buffer of
`n + 10` bytes. -/
theorem create_v22_buffer (H : Host) (ff : FrameFactory) (file : IStream) (readpos : Nat)
    (a b c s0 s1 s2 : Nat) (B rest : ByteArray)
    (hfile : ff.musicFile = some file) (hver : ff.ID3Ver < 3) (hgood : file.good = true)
    (hpos : readpos + 10 ≤ ff.ID3Size)
    (hcontent : file.content.drop readpos = a :: b :: c :: s0 :: s1 :: s2 :: (B ++ rest))
    (h0 : s0 < 256) (h1 : s1 < 256) (h2 : s2 < 256)
    (hn : 0 < s0 * 65536 + s1 * 256 + s2)
    (hB : B.length = s0 * 65536 + s1 * 256 + s2)
    (hsize : s0 * 65536 + s1 * 256 + s2 + 6 ≤ ff.ID3Size) :
    (create H ff readpos).frameBytes?
      = some ((List.range 4).map (fun i => ((FrameID.ofStringVersion
            (stdString (terminatedstring [a, b, c, s0, s1, s2] 4)) ff.ID3Ver).charAt i).toNat % 256)
          ++ intToByteArray H (s0 * 65536 + s1 * 256 + s2) 4 true
          ++ [FLAG1_DISCARD_UPON_TAG_ALTER_IF_UNKNOWN_V4, 0] ++ B) ∧
    ((List.range 4).map (fun i => ((FrameID.ofStringVersion
            (stdString (terminatedstring [a, b, c, s0, s1, s2] 4)) ff.ID3Ver).charAt i).toNat % 256)
          ++ intToByteArray H (s0 * 65536 + s1 * 256 + s2) 4 true
          ++ [FLAG1_DISCARD_UPON_TAG_ALTER_IF_UNKNOWN_V4, 0] ++ B).length
      = s0 * 65536 + s1 * 256 + s2 + 10 ∧
    intToByteArray H (s0 * 65536 + s1 * 256 + s2) 4 true
      = [(s0 * 65536 + s1 * 256 + s2) / 2 ^ 21 % 128, (s0 * 65536 + s1 * 256 + s2) / 2 ^ 14 % 128,
         (s0 * 65536 + s1 * 256 + s2) / 2 ^ 7 % 128, (s0 * 65536 + s1 * 256 + s2) % 128] ∧
    byteIntVal H (some (intToByteArray H (s0 * 65536 + s1 * 256 + s2) 4 true)) 4 true
      = s0 * 65536 + s1 * 256 + s2 := by
  have hn28 : s0 * 65536 + s1 * 256 + s2 < 2 ^ 28 := by
    have : (2 : Nat) ^ 28 = 268435456 := rfl
    omega
  have hsz := size3_decoded H s0 s1 s2 h0 h1 h2
  have hs4 := synchsafe4 H _ hn28
  have hhdr : (file.content.drop readpos).take 6 = [a, b, c, s0, s1, s2] := by
    rw [hcontent]
    rfl
  have htake : (file.content.drop readpos).take (s0 * 65536 + s1 * 256 + s2 + 6)
      = a :: b :: c :: s0 :: s1 :: s2 :: B := by
    rw [hcontent]
    simp only [List.take_succ_cons, ← hB, List.take_left']
  have hcond : ¬ (s0 * 65536 + s1 * 256 + s2 = 0 ∨ s0 * 65536 + s1 * 256 + s2 + 6 > ff.ID3Size) := by
    omega
  have hd : ([a, b, c, s0, s1, s2].drop 3).take 3 = [s0, s1, s2] := rfl
  refine ⟨?_, ?_, hs4, ?_⟩
  · rw [create_v22 H ff file readpos [a, b, c, s0, s1, s2] hfile hver hgood hpos hhdr rfl, hd, hsz,
      if_neg hcond, htake, hs4]
    have hr : s0 * 65536 + s1 * 256 + s2 + 10
        - (4 + (a :: b :: c :: s0 :: s1 :: s2 :: B).length) = 0 := by
      simp only [List.length_cons, hB]
      omega
    rw [hr]
    simp [FramePtr.frameBytes?, copyFour, readAt, List.range_succ]
  · rw [hs4]
    simp [hB]
    omega
  · exact decode_encode_defined_widths H _ 4 true (by decide) (by decide) hn28

set_option maxRecDepth 100000 in
theorem create_v22_buffer_witness :
    (create shiftMod64Host
        { musicFile := some (openStream exampleFile22), ID3Ver := 2, ID3Size := 12 } 0).frameBytes?
      = some [0x54, 0x54, 0x32, 0, 0, 0, 0, 6, 0x40, 0, 0, 0x48, 0x65, 0x6C, 0x6C, 0x6F] :=
  (create_v22_buffer shiftMod64Host
    { musicFile := some (openStream exampleFile22), ID3Ver := 2, ID3Size := 12 }
    (openStream exampleFile22) 0 0x54 0x54 0x32 0 0 6 [0, 0x48, 0x65, 0x6C, 0x6C, 0x6F] []
    rfl (by decide) (by decide) (by decide) rfl (by decide) (by decide) (by decide)
    (by decide) (by decide) (by decide)).1.trans (by decide)

set_option maxRecDepth 100000 in
theorem v22_id_facts :
    terminatedstring [0x54, 0x54, 0x32, 0, 0, 6] 4 = [0x54, 0x54, 0x32] ∧
    terminatedstring [0x54, 0x54, 0x32, 1, 0, 0] 4 = [0x54, 0x54, 0x32, 1] ∧
    FrameID.ofStringVersion (stdString (terminatedstring [0x54, 0x54, 0x32, 0, 0, 6] 4)) 2
      = FrameID.mk (FRAMEID "TIT2") "TT2" ∧
    FrameID.ofStringVersion (stdString (terminatedstring [0x54, 0x54, 0x32, 1, 0, 0] 4)) 2
      = FrameID.mk FRAME_UNKNOWN_FRAME "XXXX" ∧
    frameType (FrameID.mk (FRAMEID "TIT2") "TT2") = FrameClass.CLASS_TEXT ∧
    frameType (FrameID.mk FRAME_UNKNOWN_FRAME "XXXX") = FrameClass.CLASS_UNKNOWN ∧
    stdString [0x54, 0x54, 0x32, 1] ∉ V2_FRAME_CONVERSION_LIST.map Prod.fst := by
  decide

/-- C39 (code defect): for a v2.2 frame `FrameFactory::create` takes the frame
ID with `terminatedstring(header.id, 4)`, although `header.id` has three bytes:
the fourth byte read is the first size byte.  For a frame of fewer than 65536
bytes that byte is zero and the ID has the three ID bytes; for a larger frame
it is not zero and becomes the fourth character of the ID, which is then in no
entry of the conversion map.  The header `TT2` with the size bytes 00 00 06 is
read as a text frame with the enum value of TIT2, and the header `TT2` with the
size bytes 01 00 00 (65536) as an unknown frame, whatever bytes follow. -/
theorem v22_id_takes_size_byte :
    terminatedstring [0x54, 0x54, 0x32, 0, 0, 6] 4 = [0x54, 0x54, 0x32] ∧
    terminatedstring [0x54, 0x54, 0x32, 1, 0, 0] 4 = [0x54, 0x54, 0x32, 1] ∧
    stdString [0x54, 0x54, 0x32, 1] ∉ V2_FRAME_CONVERSION_LIST.map Prod.fst ∧
    (∀ (H : Host) (body : ByteArray), ∃ frameBytes,
      create H { musicFile := some (openStream ([0x54, 0x54, 0x32, 0, 0, 6] ++ body)),
                 ID3Ver := 2, ID3Size := 70000 } 0
        = FramePtr.frameOf FrameClass.CLASS_TEXT (FrameID.mk (FRAMEID "TIT2") "TT2") 2
            frameBytes) ∧
    (∀ (H : Host) (body : ByteArray), ∃ frameBytes,
      create H { musicFile := some (openStream ([0x54, 0x54, 0x32, 1, 0, 0] ++ body)),
                 ID3Ver := 2, ID3Size := 70000 } 0
        = FramePtr.frameOf FrameClass.CLASS_UNKNOWN (FrameID.mk FRAME_UNKNOWN_FRAME "XXXX") 2
            frameBytes) := by
  obtain ⟨t1, t2, i1, i2, c1, c2, hm⟩ := v22_id_facts
  refine ⟨t1, t2, hm, ?_, ?_⟩
  · intro H body
    have h := create_v22 H
      { musicFile := some (openStream ([0x54, 0x54, 0x32, 0, 0, 6] ++ body)),
        ID3Ver := 2, ID3Size := 70000 }
      (openStream ([0x54, 0x54, 0x32, 0, 0, 6] ++ body)) 0 [0x54, 0x54, 0x32, 0, 0, 6]
      rfl (show 2 < 3 by decide) rfl (show 0 + 10 ≤ 70000 by decide) rfl rfl
    have hd : ([0x54, 0x54, 0x32, 0, 0, 6].drop 3).take 3 = [0, 0, 6] := rfl
    rw [hd, size3_decoded H 0 0 6 (by decide) (by decide) (by decide),
      if_neg (show ¬ (0 * 65536 + 0 * 256 + 6 = 0 ∨ 0 * 65536 + 0 * 256 + 6 + 6 > 70000)
        by decide)] at h
    simp only [i1, c1] at h
    exact ⟨_, h⟩
  · intro H body
    have h := create_v22 H
      { musicFile := some (openStream ([0x54, 0x54, 0x32, 1, 0, 0] ++ body)),
        ID3Ver := 2, ID3Size := 70000 }
      (openStream ([0x54, 0x54, 0x32, 1, 0, 0] ++ body)) 0 [0x54, 0x54, 0x32, 1, 0, 0]
      rfl (show 2 < 3 by decide) rfl (show 0 + 10 ≤ 70000 by decide) rfl rfl
    have hd : ([0x54, 0x54, 0x32, 1, 0, 0].drop 3).take 3 = [1, 0, 0] := rfl
    rw [hd, size3_decoded H 1 0 0 (by decide) (by decide) (by decide),
      if_neg (show ¬ (1 * 65536 + 0 * 256 + 0 = 0 ∨ 1 * 65536 + 0 * 256 + 0 + 6 > 70000)
        by decide)] at h
    simp only [i2, c2] at h
    exact ⟨_, h⟩

/-! ## UTF-16 ranges of any length -/

/-- Behaviour of `utf16toutf8` on a range of at least 2 bytes inside the
vector, of even or odd length: the code units converted are those of the
largest even number of bytes of the range, after the byte order mark when
there is one; for an odd length the string is returned after a write past the
buffer. -/
theorem utf16toutf8_range (H : Host) (bytes : ByteArray) (hb : ∀ c ∈ bytes, c < 256)
    (start end_ : Nat) (h2 : end_ ≤ bytes.length) (hlen : 2 ≤ end_ - start) :
    utf16toutf8 H bytes start end_ =
      utf16Returned H (end_ - start)
        (if (bytes.drop start).take 2 = [0xFF, 0xFE] then
          H.toUTF8 (unitsLE ((bytes.drop (start + 2)).take (2 * ((end_ - start - 2) / 2))))
        else if (bytes.drop start).take 2 = [0xFE, 0xFF] then
          H.toUTF8 (unitsBE ((bytes.drop (start + 2)).take (2 * ((end_ - start - 2) / 2))))
        else H.toUTF8 (unitsBE ((bytes.drop start).take (2 * ((end_ - start) / 2))))) := by
  have h0 : start < bytes.length := by omega
  have h1 : start + 1 < bytes.length := by omega
  have hlt : ¬ ((end_ : Int) - (start : Int) < 2) := by omega
  have eL : ((end_ : Int) - (start : Int)).toNat = end_ - start := by omega
  have ht : (bytes.drop start).take 2 = [bytes[start], bytes[start + 1]] := by
    rw [List.drop_eq_getElem_cons h0, List.drop_eq_getElem_cons h1]
    rfl
  unfold utf16toutf8
  simp only [setStart_natCast, setEnd_natCast _ _ h2, hlt, if_false, eL, Int.toNat_ofNat]
  rw [readAt_lt H bytes start h0, readAt_lt H bytes (start + 1) h1, ht]
  by_cases hle : bytes[start] = 0xFF ∧ bytes[start + 1] = 0xFE
  · have hl : [bytes[start], bytes[start + 1]] = [0xFF, 0xFE] := by rw [hle.1, hle.2]
    simp only [hle, and_self, if_true, hl]
    rw [utf16LoopLE_take H bytes hb start 2 _ 0 _ (by omega) (by omega)]
  · have hl : ¬ [bytes[start], bytes[start + 1]] = [0xFF, 0xFE] := by
      intro h
      simp only [List.cons.injEq, and_true] at h
      exact hle h
    rw [if_neg hle, if_neg hl]
    by_cases hbe : bytes[start] = 0xFE ∧ bytes[start + 1] = 0xFF
    · have hl2 : [bytes[start], bytes[start + 1]] = [0xFE, 0xFF] := by rw [hbe.1, hbe.2]
      simp only [hbe, and_self, if_true, hl2]
      rw [utf16LoopBE_take H bytes hb start 2 _ 0 _ (by omega) (by omega)]
    · have hl2 : ¬ [bytes[start], bytes[start + 1]] = [0xFE, 0xFF] := by
        intro h
        simp only [List.cons.injEq, and_true] at h
        exact hbe h
      simp only [hbe, if_false, hl2]
      rw [utf16LoopBE_take H bytes hb start 0 _ 0 _ (by omega) (by omega)]
      rfl

theorem utf16Returned_even (H : Host) (n : Nat) (r : ByteArray) (h : n % 2 = 0) :
    utf16Returned H n r = r := by
  have : ¬ (n / 2 < (n + 1) / 2) := by omega
  simp only [utf16Returned, this, if_false]

theorem utf16Returned_odd (H : Host) (n : Nat) (r : ByteArray) (h : n % 2 = 1) :
    utf16Returned H n r = H.heapOverflow r := by
  have : n / 2 < (n + 1) / 2 := by omega
  simp only [utf16Returned, this, if_true]

/-- The result of `utf16toutf8` on a range of odd length of 3 bytes or more
inside the vector: what the host makes, after the write past the buffer, of
the result for the range without its last byte. -/
theorem utf16toutf8_odd (H : Host) (u16s : ByteArray) (hb : ∀ c ∈ u16s, c < 256)
    (start end_ : Nat) (h2 : end_ ≤ u16s.length) (hodd : (end_ - start) % 2 = 1)
    (h3 : 3 ≤ end_ - start) :
    utf16toutf8 H u16s start end_
      = H.heapOverflow (utf16toutf8 H u16s start ((end_ - 1 : Nat) : Int)) := by
  rw [utf16toutf8_range H u16s hb start end_ h2 (by omega),
    utf16toutf8_range H u16s hb start (end_ - 1) (by omega) (by omega),
    utf16Returned_odd H _ _ hodd, utf16Returned_even H _ _ (by omega)]
  have a1 : (end_ - 1 - start - 2) / 2 = (end_ - start - 2) / 2 := by omega
  have a2 : (end_ - 1 - start) / 2 = (end_ - start) / 2 := by omega
  rw [a1, a2]

set_option maxRecDepth 100000 in
/-- C33 (code defect, the one of C38): `utf16toutf8` returns the empty string
when the range, after the adjustment of `start` and `end`, has fewer than 2
bytes.  For a range of odd length of 3 bytes or more the loop writes one code
unit past the buffer `new uint16_t[u16sSize / 2]`, and the result is what the
host makes, after that write, of the result for the range without its last
byte: the two are equal only where the write does no harm.  For the range
`00 41 00` the result is `A` on a host where the write does no harm and is
empty on a host where the damaged block loses the string, while the range
`00 41` gives `A` on both. -/
theorem utf16toutf8_short_and_odd :
    (∀ (H : Host) (u16s : ByteArray) (start end_ : Int),
      setEnd end_ u16s.length - setStart start < 2 → utf16toutf8 H u16s start end_ = []) ∧
    (∀ (H : Host) (u16s : ByteArray), (∀ c ∈ u16s, c < 256) →
      ∀ start end_ : Nat, end_ ≤ u16s.length → (end_ - start) % 2 = 1 → 3 ≤ end_ - start →
      utf16toutf8 H u16s start end_
        = H.heapOverflow (utf16toutf8 H u16s start ((end_ - 1 : Nat) : Int))) ∧
    utf16toutf8 shiftMod64Host [0x00, 0x41, 0x00] 0 3 = [0x41] ∧
    utf16toutf8 shiftMod64Host [0x00, 0x41, 0x00] 0 2 = [0x41] ∧
    utf16toutf8 heapCheckHost [0x00, 0x41, 0x00] 0 3 = [] ∧
    utf16toutf8 heapCheckHost [0x00, 0x41, 0x00] 0 2 = [0x41] ∧
    utf16Writes [0x00, 0x41, 0x00] 0 3 = ([0, 1], 1) := by
  refine ⟨?_, ?_, by decide, by decide, by decide, by decide, by decide⟩
  · intro H u16s start end_ h
    unfold utf16toutf8
    simp only [h, if_true]
  · intro H u16s hb start end_ h2 hodd h3
    exact utf16toutf8_odd H u16s hb start end_ h2 hodd h3

theorem utf16toutf8_short_and_odd_witness :
    utf16toutf8 shiftMod64Host [0x00, 0x41, 0x00, 0x42, 0x00] ((0 : Nat) : Int) ((5 : Nat) : Int)
      = shiftMod64Host.heapOverflow
          (utf16toutf8 shiftMod64Host [0x00, 0x41, 0x00, 0x42, 0x00] ((0 : Nat) : Int)
            ((5 - 1 : Nat) : Int)) :=
  utf16toutf8_short_and_odd.2.1 shiftMod64Host [0x00, 0x41, 0x00, 0x42, 0x00] (by decide) 0 5
    (by decide) (by decide) (by decide)

/-! ## The indices that `utf16toutf8` reads and writes -/

theorem utf16LoopReads_last (start offset steps i : Nat) :
    start + offset + i + 2 * steps + 1 ∈ utf16LoopReads start offset (steps + 1) i := by
  induction steps generalizing i with
  | zero => simp [utf16LoopReads]
  | succ n ih =>
    rw [utf16LoopReads]
    have h := ih (i + 2)
    have e : start + offset + (i + 2) + 2 * n + 1 = start + offset + i + 2 * (n + 1) + 1 := by
      omega
    rw [e] at h
    exact List.mem_cons_of_mem _ (List.mem_cons_of_mem _ h)

theorem utf16LoopWrites_last (steps i : Nat) :
    (i + 2 * steps) / 2 ∈ utf16LoopWrites (steps + 1) i := by
  induction steps generalizing i with
  | zero => simp [utf16LoopWrites]
  | succ n ih =>
    rw [utf16LoopWrites]
    have h := ih (i + 2)
    have e : i + 2 + 2 * n = i + 2 * (n + 1) := by omega
    rw [e] at h
    exact List.mem_cons_of_mem _ h

/-- C38 (code defect): the loops of `utf16toutf8` run for every `i < u16sSize`
from the position after the byte order mark, and write `utf16CharArr[i/2]` in a
buffer of `u16sSize / 2` units.  For the range `FF FE 41 00` (little-endian
mark) and for `FE FF 00 41` (big-endian mark), both of 4 bytes, the indices 4
and 5 are read, past the range and past the vector.  For the range `00 41 00`
of 3 bytes the index 3 is read and the index 1 of a buffer of length 1 is
written.  In general a range of odd length `2k + 1 ≥ 3` has the write index
`k` in a buffer of length `k`, and reads the index `end` or beyond.  The range
`00 41 00 42` of even length without a mark is read and written within
bounds. -/
theorem utf16toutf8_out_of_range :
    (∀ H : Host, utf16Reads H [0xFF, 0xFE, 0x41, 0x00] 0 4 = [0, 1, 2, 3, 4, 5]) ∧
    (∀ H : Host, utf16Reads H [0xFE, 0xFF, 0x00, 0x41] 0 4 = [0, 1, 2, 3, 4, 5]) ∧
    (∀ H : Host, utf16Reads H [0x00, 0x41, 0x00] 0 3 = [0, 1, 0, 1, 2, 3]) ∧
    utf16Writes [0x00, 0x41, 0x00] 0 3 = ([0, 1], 1) ∧
    (∀ (u16s : ByteArray) (start k : Nat), start + (2 * k + 3) ≤ u16s.length →
      (utf16Writes u16s start ((start + (2 * k + 3) : Nat) : Int)).2 = k + 1 ∧
      k + 1 ∈ (utf16Writes u16s start ((start + (2 * k + 3) : Nat) : Int)).1 ∧
      ∀ H : Host, ∃ j, start + (2 * k + 3) ≤ j ∧
        j ∈ utf16Reads H u16s start ((start + (2 * k + 3) : Nat) : Int)) ∧
    (∀ H : Host, utf16Reads H [0x00, 0x41, 0x00, 0x42] 0 4 = [0, 1, 0, 1, 2, 3]) ∧
    utf16Writes [0x00, 0x41, 0x00, 0x42] 0 4 = ([0, 1], 2) := by
  refine ⟨fun H => rfl, fun H => rfl, fun H => rfl, by decide, ?_, fun H => rfl, by decide⟩
  intro u16s start k hle
  have hlt : ¬ (((start + (2 * k + 3) : Nat) : Int) - (start : Int) < 2) := by omega
  have eL : (((start + (2 * k + 3) : Nat) : Int) - (start : Int)).toNat = 2 * k + 3 := by omega
  have es : (2 * k + 3 + 1) / 2 = (k + 1) + 1 := by omega
  refine ⟨?_, ?_, ?_⟩
  · unfold utf16Writes
    simp only [setStart_natCast, setEnd_natCast _ _ hle, hlt, if_false, eL]
    omega
  · unfold utf16Writes
    simp only [setStart_natCast, setEnd_natCast _ _ hle, hlt, if_false, eL, es]
    have h := utf16LoopWrites_last (k + 1) 0
    have e : (0 + 2 * (k + 1)) / 2 = k + 1 := by omega
    rw [e] at h
    exact h
  · intro H
    unfold utf16Reads
    simp only [setStart_natCast, setEnd_natCast _ _ hle, hlt, if_false, eL, es, Int.toNat_ofNat]
    refine ⟨start + (if (readAt H u16s start = 0xFF ∧ readAt H u16s (start + 1) = 0xFE) ∨
      (readAt H u16s start = 0xFE ∧ readAt H u16s (start + 1) = 0xFF) then 2 else 0)
        + 0 + 2 * (k + 1) + 1, by omega, ?_⟩
    exact List.mem_cons_of_mem _ (List.mem_cons_of_mem _ (utf16LoopReads_last _ _ _ _))

theorem utf16toutf8_out_of_range_witness :
    (utf16Writes [0x00, 0x41, 0x00, 0x42, 0x00] ((0 : Nat) : Int)
        ((0 + (2 * 1 + 3) : Nat) : Int)).2 = 1 + 1 ∧
    1 + 1 ∈ (utf16Writes [0x00, 0x41, 0x00, 0x42, 0x00] ((0 : Nat) : Int)
        ((0 + (2 * 1 + 3) : Nat) : Int)).1 :=
  have h := utf16toutf8_out_of_range.2.2.2.2.1 [0x00, 0x41, 0x00, 0x42, 0x00] 0 1 (by decide)
  ⟨h.1, h.2.1⟩

/-! ## Descriptive text frames with a UTF-16 description -/

/-- The loop of `DescriptiveTextFrame::read` for wide characters stops at the
first pair of zero bytes at an even distance from the start of the
description. -/
theorem findDescriptionEnd_wide (H : Host) (D S : ByteArray) :
    ∀ (n : Nat) (pre : ByteArray) (fuel : Nat), D.length = 2 * n →
      noAlignedZeroPair D = true → n < fuel →
      findDescriptionEnd H (pre ++ D ++ 0 :: 0 :: S) true 2 fuel pre.length
        = pre.length + D.length := by
  intro n
  induction n generalizing D with
  | zero =>
    intro pre fuel hlen _ hfuel
    have hD : D = [] := List.length_eq_zero.mp (by omega)
    subst hD
    obtain ⟨fuel, rfl⟩ : ∃ k, fuel = k + 1 := ⟨fuel - 1, by omega⟩
    rw [List.append_nil, List.length_nil, Nat.add_zero]
    have e2 : pre ++ 0 :: 0 :: S = (pre ++ [0]) ++ 0 :: S := by simp
    have r0 : readAt H (pre ++ 0 :: 0 :: S) pre.length = 0 := readAt_append_cons H pre 0 (0 :: S)
    have r1 : readAt H (pre ++ 0 :: 0 :: S) (pre.length + 1) = 0 := by
      rw [e2]
      have := readAt_append_cons H (pre ++ [0]) 0 S
      simpa using this
    have hle : pre.length + 2 ≤ (pre ++ 0 :: 0 :: S).length := by simp
    rw [findDescriptionEnd]
    simp only [hle, if_true, r0, r1, Bool.true_and, ne_eq, not_true_eq_false, decide_False,
      Bool.false_eq_true, if_false]
    rfl
  | succ n ih =>
    intro pre fuel hlen hD hfuel
    match D, hlen, hD with
    | x :: y :: D', hlen, hD =>
      obtain ⟨fuel, rfl⟩ : ∃ k, fuel = k + 1 := ⟨fuel - 1, by omega⟩
      simp only [noAlignedZeroPair, Bool.and_eq_true, Bool.not_eq_true', Bool.and_eq_false_imp,
        beq_iff_eq] at hD
      have hlen' : D'.length = 2 * n := by
        simp only [List.length_cons] at hlen
        omega
      have e1 : pre ++ x :: y :: D' ++ 0 :: 0 :: S = pre ++ x :: (y :: D' ++ 0 :: 0 :: S) := by
        simp
      have e2 : pre ++ x :: y :: D' ++ 0 :: 0 :: S = (pre ++ [x]) ++ y :: (D' ++ 0 :: 0 :: S) := by
        simp
      have e3 : pre ++ x :: y :: D' ++ 0 :: 0 :: S = (pre ++ [x, y]) ++ D' ++ 0 :: 0 :: S := by
        simp
      have r0 : readAt H (pre ++ x :: y :: D' ++ 0 :: 0 :: S) pre.length = x := by
        rw [e1, readAt_append_cons]
      have r1 : readAt H (pre ++ x :: y :: D' ++ 0 :: 0 :: S) (pre.length + 1) = y := by
        rw [e2]
        have := readAt_append_cons H (pre ++ [x]) y (D' ++ 0 :: 0 :: S)
        simpa using this
      have hle : pre.length + 2 ≤ (pre ++ x :: y :: D' ++ 0 :: 0 :: S).length := by
        simp only [List.length_append, List.length_cons]
        omega
      have hnext := ih D' (pre ++ [x, y]) fuel hlen' hD.2 (by omega)
      rw [← e3] at hnext
      have hl2 : (pre ++ [x, y]).length = pre.length + 2 := by simp
      rw [hl2] at hnext
      rw [findDescriptionEnd]
      simp only [hle, if_true, r0, r1, Bool.true_and]
      by_cases hx : x = 0
      · have hy : y ≠ 0 := fun h => by
          have := hD.1 hx
          simp [h] at this
        rw [if_pos hx, if_pos (by simpa using hy), hnext]
        simp only [List.length_cons]
        omega
      · rw [if_neg hx, hnext]
        simp only [List.length_cons]
        omega

/-- A UTF-16 encoding byte sends a non-empty range inside the vector to
`utf16toutf8`. -/
theorem getUTF8String_utf16_eq (H : Host) (enc : Nat) (henc : enc = 1 ∨ enc = 2)
    (bytes : ByteArray) (start end_ : Nat) (h2 : end_ ≤ bytes.length) (hlt : start < end_) :
    getUTF8String H enc bytes start end_ = utf16toutf8 H bytes start end_ := by
  have hne : ¬ ((end_ : Int) ≤ (start : Int)) := by omega
  have he : enc = ENCODING_UTF16BOM ∨ enc = ENCODING_UTF16 := henc
  unfold getUTF8String
  simp only [setStart_natCast, setEnd_natCast _ _ h2, hne, if_false, he, if_true]

/-- Decoding a range of a vector with a UTF-16 or Latin-1 encoding byte is
decoding the bytes of the range. -/
theorem getUTF8String_slice (H : Host) (enc : Nat) (henc : enc = 0 ∨ enc = 1 ∨ enc = 2)
    (pre M post : ByteArray) (hb : ∀ c ∈ pre ++ M ++ post, c < 256) :
    getUTF8String H enc (pre ++ M ++ post) pre.length ((pre.length + M.length : Nat) : Int)
      = getUTF8String H enc M ((0 : Nat) : Int) M.length := by
  have hbM : ∀ c ∈ M, c < 256 := fun c hc => hb c (by simp [hc])
  have hlen : pre.length + M.length ≤ (pre ++ M ++ post).length := by
    simp only [List.length_append]
    omega
  have hdrop : (pre ++ M ++ post).drop pre.length = M ++ post := by
    rw [List.append_assoc, List.drop_left]
  have hsub : pre.length + M.length - pre.length = M.length := by omega
  by_cases h0 : M.length = 0
  · have hM : M = [] := List.length_eq_zero.mp h0
    subst hM
    have e1 : getUTF8String H enc (pre ++ [] ++ post) pre.length
        ((pre.length + ([] : ByteArray).length : Nat) : Int) = [] := by
      unfold getUTF8String
      rw [setStart_natCast, setEnd_natCast _ _ hlen]
      have : ((pre.length + ([] : ByteArray).length : Nat) : Int) ≤ (pre.length : Int) := by simp
      simp only [this, if_true]
    have e2 : getUTF8String H enc [] ((0 : Nat) : Int) (([] : ByteArray).length : Nat) = [] := by
      unfold getUTF8String
      rw [setStart_natCast, setEnd_natCast _ _ (Nat.le_refl _)]
      have : ((([] : ByteArray).length : Nat) : Int) ≤ ((0 : Nat) : Int) := by simp
      simp only [this, if_true]
    rw [e1, e2]
  · rcases henc with rfl | henc
    · have l1 := getUTF8String_latin1 H (pre ++ M ++ post) pre.length (pre.length + M.length)
        (by omega) hlen
      have l2 := getUTF8String_latin1 H M 0 M.length (by omega) (Nat.le_refl _)
      rw [hdrop, hsub, List.take_left] at l1
      rw [List.drop_zero, Nat.sub_zero, List.take_length] at l2
      exact l1.trans l2.symm
    · rw [getUTF8String_utf16_eq H enc henc _ _ _ hlen (by omega),
        getUTF8String_utf16_eq H enc henc M 0 M.length (Nat.le_refl _) (by omega)]
      by_cases h1 : M.length = 1
      · unfold utf16toutf8
        rw [setStart_natCast, setEnd_natCast _ _ hlen, setStart_natCast,
          setEnd_natCast _ _ (Nat.le_refl _)]
        have c1 : ((pre.length + M.length : Nat) : Int) - (pre.length : Int) < 2 := by omega
        have c2 : ((M.length : Nat) : Int) - ((0 : Nat) : Int) < 2 := by omega
        simp only [c1, c2, if_true]
      · have h2 : 2 ≤ M.length := by omega
        rw [utf16toutf8_range H _ hb _ _ hlen (by omega),
          utf16toutf8_range H M hbM 0 M.length (Nat.le_refl _) (by omega)]
        have hdrop2 : (pre ++ M ++ post).drop (pre.length + 2) = M.drop 2 ++ post := by
          rw [← List.drop_drop, hdrop, List.drop_append_of_le_length h2]
        have hk : 2 * ((M.length - 2) / 2) ≤ (M.drop 2).length := by
          rw [List.length_drop]
          omega
        have hk2 : 2 * (M.length / 2) ≤ M.length := by omega
        have ht2 : ((pre ++ M ++ post).drop (pre.length + 2)).take (2 * ((M.length - 2) / 2))
            = ((M.drop 2).take (2 * ((M.length - 2) / 2))) := by
          rw [hdrop2, List.take_append_of_le_length hk]
        rw [hdrop, hsub, Nat.sub_zero, Nat.zero_add, List.drop_zero, ht2,
          List.take_append_of_le_length h2, List.take_append_of_le_length hk2]

/-- C32: a descriptive text frame whose bytes are a header, a UTF-16 encoding
byte (0x01 or 0x02), the language when the frame has one, a sequence `D` of
even length with no pair of zero bytes at an even offset, a pair of zero bytes,
and a sequence `S`.  `DescriptiveTextFrame::read` ends the description at that
pair, whatever zero bytes `D` holds: the description is the decoding of `D`,
and the content the decoding of `S` (as Latin-1 when the frame has the Latin-1
option). -/
theorem descriptive_read_utf16 (H : Host) (headerSize : Nat) (f : DescriptiveTextFrame)
    (hdr L D S : ByteArray) (enc : Nat) (hhdr : hdr.length = headerSize)
    (hfc : f.frameContent = hdr ++ enc :: (L ++ D ++ 0 :: 0 :: S))
    (hb : ∀ c ∈ f.frameContent, c < 256)
    (henc : enc = 1 ∨ enc = 2)
    (hL : L.length = if f.optionLanguage then 3 else 0)
    (heven : D.length % 2 = 0) (hD : noAlignedZeroPair D = true) :
    findDescriptionEnd H f.frameContent true 2 (f.frameContent.length + 1)
        (headerSize + 1 + L.length) = headerSize + 1 + L.length + D.length ∧
    (DescriptiveTextFrame.read H headerSize f).textDescription
      = getUTF8String H enc D ((0 : Nat) : Int) D.length ∧
    (DescriptiveTextFrame.read H headerSize f).textContent
      = getUTF8String H (if f.optionLatin1 then ENCODING_LATIN1 else enc) S ((0 : Nat) : Int)
          S.length ∧
    (DescriptiveTextFrame.read H headerSize f).textLanguage = L ∧
    (DescriptiveTextFrame.read H headerSize f).isNull = f.isNull := by
  have hlen : f.frameContent.length = headerSize + 1 + L.length + D.length + 2 + S.length := by
    rw [hfc]; simp [hhdr]; omega
  have hnotnull : ¬ f.frameContent.length ≤ headerSize + (if f.optionLanguage then 4 else 1) := by
    rw [hlen, hL]; split <;> omega
  have hencb : readAt H f.frameContent headerSize = enc := by
    rw [hfc, ← hhdr, readAt_append_cons]
  have hwide : (enc == ENCODING_UTF16BOM || enc == ENCODING_UTF16) = true := by
    rcases henc with rfl | rfl <;> decide
  have hfc2 : f.frameContent = (hdr ++ enc :: L) ++ D ++ 0 :: 0 :: S := by
    rw [hfc]; simp
  have hpre : (hdr ++ enc :: L).length = headerSize + 1 + L.length := by
    simp [hhdr]; omega
  obtain ⟨n, hn⟩ : ∃ n, D.length = 2 * n := ⟨D.length / 2, by omega⟩
  have hfind : findDescriptionEnd H f.frameContent true 2 (f.frameContent.length + 1)
      (headerSize + 1 + L.length) = headerSize + 1 + L.length + D.length := by
    have h := findDescriptionEnd_wide H D S n (hdr ++ enc :: L) (f.frameContent.length + 1) hn hD
      (by rw [hlen]; omega)
    rw [← hfc2, hpre] at h
    exact h
  have hlang : (if f.optionLanguage then (f.frameContent.drop (headerSize + 1)).take 3 else [])
      = L := by
    cases ho : f.optionLanguage with
    | true =>
      rw [ho] at hL
      simp only [if_true] at hL ⊢
      have e : f.frameContent = (hdr ++ [enc]) ++ L ++ (D ++ 0 :: 0 :: S) := by
        rw [hfc]; simp
      have e2 : headerSize + 1 = (hdr ++ [enc]).length := by simp [hhdr]
      rw [e, e2, ← hL, List.append_assoc, List.drop_left, List.take_left]
    | false =>
      rw [ho] at hL
      simp only [Bool.false_eq_true, if_false, List.length_eq_zero] at hL ⊢
      exact hL.symm
  have hds : (if f.optionLanguage then headerSize + 1 + 3 else headerSize + 1)
      = headerSize + 1 + L.length := by
    rw [hL]; split <;> rfl
  have hne : ¬ headerSize + 1 + L.length + D.length = 0 := by omega
  have hdesc : getUTF8String H enc f.frameContent ((headerSize + 1 + L.length : Nat) : Int)
      ((headerSize + 1 + L.length + D.length : Nat) : Int)
      = getUTF8String H enc D ((0 : Nat) : Int) D.length := by
    have h := getUTF8String_slice H enc (Or.inr henc) (hdr ++ enc :: L) D (0 :: 0 :: S)
      (by rw [← hfc2]; exact hb)
    rw [← hfc2, hpre] at h
    exact h
  have hcont : ∀ e, e = 0 ∨ e = 1 ∨ e = 2 →
      getUTF8String H e f.frameContent ((headerSize + 1 + L.length + D.length + 2 : Nat) : Int)
        END_DEFAULT = getUTF8String H e S ((0 : Nat) : Int) S.length := by
    intro e he
    have hfc3 : f.frameContent = (hdr ++ enc :: L ++ D ++ [0, 0]) ++ S ++ [] := by
      rw [hfc]; simp
    have hp3 : (hdr ++ enc :: L ++ D ++ [0, 0]).length = headerSize + 1 + L.length + D.length + 2 := by
      simp [hhdr]; omega
    have h := getUTF8String_slice H e he (hdr ++ enc :: L ++ D ++ [0, 0]) S []
      (by rw [← hfc3]; exact hb)
    rw [← hfc3, hp3] at h
    rw [getUTF8String_default, hlen]
    exact h
  refine ⟨hfind, ?_, ?_, ?_, ?_⟩
  · unfold DescriptiveTextFrame.read
    simp only [hnotnull, if_false, hencb, hwide, if_true, hds, hfind, hne]
    exact hdesc
  · unfold DescriptiveTextFrame.read
    simp only [hnotnull, if_false, hencb, hwide, if_true, hds, hfind, hne]
    have hc := hcont (if f.optionLatin1 then ENCODING_LATIN1 else enc) (by
      cases f.optionLatin1
      · simp only [Bool.false_eq_true, if_false]
        exact Or.inr henc
      · simp only [if_true]
        exact Or.inl rfl)
    rw [← hc]
    congr 1
  · unfold DescriptiveTextFrame.read
    simp only [hnotnull, if_false, hlang]
  · unfold DescriptiveTextFrame.read
    simp only [hnotnull, if_false]

set_option maxRecDepth 100000 in
theorem descriptive_read_utf16_witness :
    (DescriptiveTextFrame.read shiftMod64Host 10 exampleTXXXutf16).textDescription
      = [0x41, 0xE4, 0x88, 0x80] ∧
    (DescriptiveTextFrame.read shiftMod64Host 10 exampleTXXXutf16).textContent = [0x42] :=
  have h := descriptive_read_utf16 shiftMod64Host 10 exampleTXXXutf16 (List.replicate 10 0) []
    [0xFF, 0xFE, 0x41, 0x00, 0x00, 0x42] [0xFF, 0xFE, 0x42, 0x00] 0x01 rfl rfl (by decide)
    (Or.inl rfl) rfl rfl rfl
  ⟨h.2.1.trans (by decide), h.2.2.1.trans (by decide)⟩

/-! ## The accessor `Tag::genre` -/

theorem takeWhile_digits_append (ds rest : ByteArray) (hds : ∀ c ∈ ds, 0x30 ≤ c ∧ c ≤ 0x39) :
    (ds ++ 0x29 :: rest).takeWhile (fun c => decide (0x30 ≤ c ∧ c ≤ 0x39)) = ds := by
  induction ds with
  | nil => simp [List.takeWhile]
  | cons c ds ih =>
    have hc := hds c (List.mem_cons_self _ _)
    simp only [List.cons_append, List.takeWhile_cons, hc, and_self, decide_True, if_true]
    rw [ih (fun x hx => hds x (List.mem_cons_of_mem _ hx))]

/-- The search for `^\(\d+\)` on a parenthesised number. -/
theorem regexSearch_parenthesised (ds rest : ByteArray) (hne : ds ≠ [])
    (hds : ∀ c ∈ ds, 0x30 ≤ c ∧ c ≤ 0x39) :
    regexSearchV1Genre (0x28 :: ds ++ 0x29 :: rest) = some (0x28 :: ds ++ [0x29]) := by
  have e : 0x28 :: ds ++ 0x29 :: rest = 0x28 :: (ds ++ 0x29 :: rest) := rfl
  rw [e]
  unfold regexSearchV1Genre
  simp only [takeWhile_digits_append ds rest hds, List.drop_left, List.head?_cons]
  simp [hne]

/-- The value that `atoi` reads from digits followed by a closing
parenthesis. -/
theorem atoi_digits_paren (H : Host) (ds : ByteArray) (hne : ds ≠ [])
    (hds : ∀ c ∈ ds, 0x30 ≤ c ∧ c ≤ 0x39) (hlen : ds.length ≤ 9) :
    atoi H (ds ++ [0x29]) = ((atoiDigits ds 0 : Nat) : Int) := by
  cases ds with
  | nil => exact absurd rfl hne
  | cons x xs =>
    have hx := hds x (List.mem_cons_self _ _)
    have hsp : isspace x = false := by
      simp only [isspace, Bool.or_eq_false_iff, beq_eq_false_iff_ne, ne_eq,
        Bool.and_eq_false_iff, decide_eq_false_iff_not, not_le]
      omega
    have hval : atoiDigits ((x :: xs) ++ [0x29]) 0 = atoiDigits (x :: xs) 0 := by
      rw [atoiDigits_append _ _ _ hds]
      simp [atoiDigits]
    have hb := atoiDigits_lt (x :: xs) 0 hds
    have hp := pow_le_of_len _ hlen
    have h3 : atoiDigits (x :: xs) 0 < 2 ^ 31 := by
      have : (10 : Nat) ^ 9 < 2 ^ 31 := by norm_num
      omega
    have hrange : -(2 : Int) ^ 31 ≤ ((atoiDigits (x :: xs) 0 : Nat) : Int) ∧
        ((atoiDigits (x :: xs) 0 : Nat) : Int) < (2 : Int) ^ 31 := by
      have h4 : ((2 ^ 31 : Nat) : Int) = (2 : Int) ^ 31 := by norm_num
      have h5 : (0 : Int) ≤ ((atoiDigits (x :: xs) 0 : Nat) : Int) := Int.ofNat_nonneg _
      have h2 : -(2 : Int) ^ 31 ≤ 0 := by norm_num
      constructor <;> omega
    have hm : atoiSigned (x :: xs ++ [0x29]) = ((atoiDigits (x :: xs) 0 : Nat) : Int) := by
      rw [← hval]
      unfold atoiSigned
      split
      · rename_i r heq
        have := (List.cons.inj heq).1
        omega
      · rename_i r heq
        have := (List.cons.inj heq).1
        omega
      · rfl
    have hdw : List.dropWhile isspace (x :: xs ++ [0x29]) = x :: xs ++ [0x29] := by
      show List.dropWhile isspace (x :: (xs ++ [0x29])) = x :: (xs ++ [0x29])
      rw [List.dropWhile_cons, hsp]
      rfl
    unfold atoi
    simp only [hdw]
    rw [hm, if_pos hrange]

/-- The result of `genre(true)` for a TCON content that starts with a
parenthesised number of at most nine digits. -/
theorem genre_parenthesised (H : Host) (D : TagDeps) (t : Tag) (ds rest : ByteArray)
    (hc : t.getFrameText "TCON" = 0x28 :: ds ++ 0x29 :: rest) (hne : ds ≠ [])
    (hds : ∀ c ∈ ds, 0x30 ≤ c ∧ c ≤ 0x39) (hlen : ds.length ≤ 9) :
    Tag.genre H D t true
      = if rest = [] then getGenreString D.GENRES (atoiDigits ds 0 % 2 ^ 16) else rest := by
  have hsub : substr (0x28 :: ds ++ [0x29]) 1 ((0x28 :: ds ++ [0x29]).length - 1)
      = ds ++ [0x29] := by
    simp [substr]
  have hdrop : (0x28 :: ds ++ 0x29 :: rest).drop (0x28 :: ds ++ [0x29]).length = rest := by
    have e : 0x28 :: ds ++ 0x29 :: rest = (0x28 :: ds ++ [0x29]) ++ rest := by simp
    rw [e, List.drop_left]
  have hmod : (((atoiDigits ds 0 : Nat) : Int) % 2 ^ 16).toNat = atoiDigits ds 0 % 2 ^ 16 := by
    omega
  unfold Tag.genre
  simp only [if_true, hc, regexSearch_parenthesised ds rest hne hds, hsub, hdrop,
    atoi_digits_paren H ds hne hds hlen, hmod]
  by_cases hr : rest = []
  · simp [hr]
  · have : ¬ rest.length ≤ 0 := by
      intro h
      exact hr (List.length_eq_zero.mp (by omega))
    simp [hr, this]

set_option maxRecDepth 100000 in
/-- C31 (code defect): `Tag::genre` passes the number it parsed, an `int`, to
`getGenreString(ushort genre)`, so the number is taken modulo 65536 before the
table is consulted.  For a TCON content that starts with a parenthesised
number of at most nine digits the result is the text after the parenthesis
when there is one, and otherwise the entry `n % 65536` of the genre table (the
empty string when that is outside the table); a content without such a prefix
is returned as it is, and so is every content with `process = false`.  For the
content `(65536)` the result is the entry 0 of the table, for every host and
every table with a first entry, where the entry 65536 of a table of 20 entries
is the empty string. -/
theorem genre_number_modulo_65536 :
    (∀ (H : Host) (D : TagDeps) (t : Tag), Tag.genre H D t false = t.getFrameText "TCON") ∧
    (∀ (H : Host) (D : TagDeps) (t : Tag),
      regexSearchV1Genre (t.getFrameText "TCON") = none →
      Tag.genre H D t true = t.getFrameText "TCON") ∧
    (∀ (H : Host) (D : TagDeps) (t : Tag) (ds rest : ByteArray),
      t.getFrameText "TCON" = 0x28 :: ds ++ 0x29 :: rest → ds ≠ [] →
      (∀ c ∈ ds, 0x30 ≤ c ∧ c ≤ 0x39) → ds.length ≤ 9 →
      Tag.genre H D t true
        = if rest = [] then getGenreString D.GENRES (atoiDigits ds 0 % 2 ^ 16) else rest) ∧
    (∀ (H : Host) (ofFile : IStream → Nat → Nat → Nat → FrameObj × IStream)
        (ofText : String → ByteArray → FrameObj) (g : ByteArray) (G : List ByteArray),
      Tag.genre H (TagDeps.mk ofFile ofText (g :: G))
        (exampleTagGenre [0x28, 0x36, 0x35, 0x35, 0x33, 0x36, 0x29]) true = g) ∧
    (∀ H : Host, Tag.genre H (specDeps H exampleGENRES)
        (exampleTagGenre [0x28, 0x36, 0x35, 0x35, 0x33, 0x36, 0x29]) true = [0x47, 0]) ∧
    atoiDigits [0x36, 0x35, 0x35, 0x33, 0x36] 0 = 65536 ∧
    getGenreString exampleGENRES 65536 = [] := by
  have hex : (exampleTagGenre [0x28, 0x36, 0x35, 0x35, 0x33, 0x36, 0x29]).getFrameText "TCON"
      = 0x28 :: [0x36, 0x35, 0x35, 0x33, 0x36] ++ 0x29 :: [] := by decide
  have hdig : ∀ c ∈ [0x36, 0x35, 0x35, 0x33, 0x36], 0x30 ≤ c ∧ c ≤ 0x39 := by decide
  have hval : atoiDigits [0x36, 0x35, 0x35, 0x33, 0x36] 0 % 2 ^ 16 = 0 := by decide
  refine ⟨?_, ?_, ?_, ?_, ?_, by decide, by decide⟩
  · intro H D t
    simp [Tag.genre]
  · intro H D t h
    simp [Tag.genre, h]
  · intro H D t ds rest hc hne hds hlen
    exact genre_parenthesised H D t ds rest hc hne hds hlen
  · intro H ofFile ofText g G
    rw [genre_parenthesised H _ _ [0x36, 0x35, 0x35, 0x33, 0x36] [] hex (by decide) hdig
      (by decide), hval]
    simp [getGenreString]
  · intro H
    rw [genre_parenthesised H _ _ [0x36, 0x35, 0x35, 0x33, 0x36] [] hex (by decide) hdig
      (by decide), hval]
    rfl

set_option maxRecDepth 100000 in
theorem genre_number_modulo_65536_witness :
    Tag.genre shiftMod64Host (specDeps shiftMod64Host exampleGENRES)
        (exampleTagGenre [0x28, 0x31, 0x37, 0x29]) true = [0x47, 17] ∧
    Tag.genre shiftMod64Host (specDeps shiftMod64Host exampleGENRES)
        (exampleTagGenre [0x28, 0x31, 0x37, 0x29, 0x52]) true = [0x52] ∧
    Tag.genre shiftMod64Host (specDeps shiftMod64Host exampleGENRES)
        (exampleTagGenre [0x52, 0x6F, 0x63, 0x6B]) true = [0x52, 0x6F, 0x63, 0x6B] :=
  ⟨(genre_number_modulo_65536.2.2.1 shiftMod64Host (specDeps shiftMod64Host exampleGENRES)
      (exampleTagGenre [0x28, 0x31, 0x37, 0x29]) [0x31, 0x37] [] (by decide) (by decide)
      (by decide) (by decide)).trans (by decide),
   (genre_number_modulo_65536.2.2.1 shiftMod64Host (specDeps shiftMod64Host exampleGENRES)
      (exampleTagGenre [0x28, 0x31, 0x37, 0x29, 0x52]) [0x31, 0x37] [0x52] (by decide) (by decide)
      (by decide) (by decide)).trans (by decide),
   (genre_number_modulo_65536.2.1 shiftMod64Host (specDeps shiftMod64Host exampleGENRES)
      (exampleTagGenre [0x52, 0x6F, 0x63, 0x6B]) (by decide)).trans (by decide)⟩

/-! ## The extended header in `Tag::getFileV2` -/

/-- The block that skips the extended header, when the flag is set and the file
holds ten bytes at `frameStartPos`: the new position is `frameStartPos`, plus
`HEADER_BYTE_SIZE`, plus the size read. -/
theorem skipExtHeader_set (H : Host) (info : TagInfo) (content : ByteArray) (pos : Nat)
    (eofbit : Bool) (frameStartPos : Nat) (hflag : info.flagExtHeader = true)
    (hav : frameStartPos + 10 ≤ content.length) :
    skipExtHeader H info (IStream.mk content pos eofbit false) frameStartPos
      = (IStream.mk content (frameStartPos + 10) false false,
         frameStartPos + 10 + uchar_arr_binary_num H ((content.drop frameStartPos).take 4) 4
           (decide (info.majorVer ≥ 4))) := by
  have hf : (IStream.mk content frameStartPos false false).fail = false := rfl
  have h10 : HEADER_BYTE_SIZE = 10 := rfl
  unfold skipExtHeader
  rw [if_pos hflag, seekg_ok]
  simp only [hf, Bool.not_false, if_true]
  rw [h10, read_full content frameStartPos 10 _ (uninitBytes_length _ _ _) hav, List.take_take]
  rfl

theorem skipExtHeader_unset (H : Host) (info : TagInfo) (file : IStream) (frameStartPos : Nat)
    (hflag : info.flagExtHeader = false) :
    skipExtHeader H info file frameStartPos = (file, frameStartPos) := by
  unfold skipExtHeader
  simp [hflag]

set_option maxRecDepth 100000 in
theorem ext_header_facts :
    (exampleTagExtHeader 0x40).length = 70 ∧
    (∀ f, ((exampleTagExtHeader f).drop 10).take 4 = [0, 0, 0, 6]) ∧
    create shiftMod64Host
        { musicFile := some (openStream (exampleTagExtHeader 0x40)), ID3Ver := 4, ID3Size := 70 } 16
      = FramePtr.frameOf FrameClass.CLASS_TEXT (FrameID.ofString "TIT2") 4
          (((exampleTagExtHeader 0x40).drop 16).take 13) ∧
    (TextFrame.read shiftMod64Host HEADER_BYTE_SIZE
        { id := FrameID.ofString "TIT2", ID3Ver := 4,
          frameContent := ((exampleTagExtHeader 0x40).drop 16).take 13,
          isNull := false, isEdited := false, textContent := [] }).textContent = [0x41, 0x42] ∧
    (frameLoop (specDeps shiftMod64Host []) 4 70 60 5
        (IStream.mk (exampleTagExtHeader 0x40) 10 false false) 16 []).lookup "TIT2"
      = some (FrameObj.mk "TIT2" false [0x41, 0x42] 29) ∧
    (Tag.ofStream shiftMod64Host (specDeps shiftMod64Host []) 5 0 true
        (openStream (exampleTagExtHeader 0x40))).frames = [] ∧
    (Tag.ofStream shiftMod64Host (specDeps shiftMod64Host []) 5 0 true
        (openStream (exampleTagExtHeader 0x41))).frames = [] := by
  refine ⟨by decide, fun f => rfl, by decide, by decide, by decide, by decide, by decide⟩

set_option maxRecDepth 100000 in
/-- C35 (code defect): when `v2TagInfo.flagExtHeader` is set, `Tag::getFileV2`
moves the first frame position by `HEADER_BYTE_SIZE` plus the size read from
the extended header, to offset `20 + e` and not `10 + e`; and the flag is set
from bit 0 of the flags byte, not from the bit 0x40 (the defect of C25).  For
the v2.4 tag with an extended header of size 6 and the frame TIT2 at offset 16:
with the flags byte 0x40 the flag stays unset and the first frame is read at
offset 10; with the flags byte 0x41 it is read at offset 26.  In both cases no
frame is stored, although the frame at offset 16 is well formed and the loop
started at 16 stores it. -/
theorem ext_header_skip_offset :
    (∀ (H : Host) (info : TagInfo) (pos : Nat) (eofbit : Bool) (f : Nat),
      (skipExtHeader H { info with flagExtHeader := true, majorVer := 4 }
        (IStream.mk (exampleTagExtHeader f) pos eofbit false) HEADER_BYTE_SIZE).2 = 26) ∧
    (∀ (H : Host) (info : TagInfo) (file : IStream) (frameStartPos : Nat),
      (skipExtHeader H { info with flagExtHeader := false } file frameStartPos).2
        = frameStartPos) ∧
    (∀ (H : Host) (D : TagDeps) (fuel : Nat),
      (Tag.ofStream H D fuel 0 true
        (openStream (exampleTagExtHeader 0x40))).v2TagInfo.flagExtHeader = false ∧
      (Tag.ofStream H D fuel 0 true
        (openStream (exampleTagExtHeader 0x41))).v2TagInfo.flagExtHeader = true) ∧
    (∀ H : Host, uchar_arr_binary_num H (((exampleTagExtHeader 0x40).drop 10).take 4) 4 true = 6) ∧
    create shiftMod64Host
        { musicFile := some (openStream (exampleTagExtHeader 0x40)), ID3Ver := 4, ID3Size := 70 } 16
      = FramePtr.frameOf FrameClass.CLASS_TEXT (FrameID.ofString "TIT2") 4
          (((exampleTagExtHeader 0x40).drop 16).take 13) ∧
    (frameLoop (specDeps shiftMod64Host []) 4 70 60 5
        (IStream.mk (exampleTagExtHeader 0x40) 10 false false) 16 []).lookup "TIT2"
      = some (FrameObj.mk "TIT2" false [0x41, 0x42] 29) ∧
    (Tag.ofStream shiftMod64Host (specDeps shiftMod64Host []) 5 0 true
        (openStream (exampleTagExtHeader 0x40))).frames = [] ∧
    (Tag.ofStream shiftMod64Host (specDeps shiftMod64Host []) 5 0 true
        (openStream (exampleTagExtHeader 0x41))).frames = [] := by
  obtain ⟨hl, hsz, hcreate, _, hloop, h40, h41⟩ := ext_header_facts
  have hsix : ∀ H : Host, uchar_arr_binary_num H [0, 0, 0, 6] 4 true = 6 := by
    intro H
    rw [tag_size_decoded H [0, 0, 0, 6] true rfl (by decide)]
    decide
  refine ⟨?_, ?_, ?_, ?_, hcreate, hloop, h40, h41⟩
  · intro H info pos eofbit f
    have h10 : HEADER_BYTE_SIZE = 10 := rfl
    rw [h10, skipExtHeader_set H _ (exampleTagExtHeader f) pos eofbit 10 rfl
      (by simp [exampleTagExtHeader]), hsz f]
    show 10 + 10 + uchar_arr_binary_num H [0, 0, 0, 6] 4 true = 26
    rw [hsix H]
  · intro H info file frameStartPos
    rw [skipExtHeader_unset H _ file frameStartPos rfl]
  · intro H D fuel
    have ho : ∀ f, openStream (exampleTagExtHeader f)
        = IStream.mk (exampleTagExtHeader f) 0 false false := fun f => rfl
    have hb : ∀ f, (Tag.ofStream H D fuel 0 true
        (openStream (exampleTagExtHeader f))).v2TagInfo.flagExtHeader = decide (f % 2 = 1) := by
      intro f
      rw [ho, header_flags_bit0 H D fuel 0 (exampleTagExtHeader f) 0
        (by simp [exampleTagExtHeader, V1.BYTE_SIZE])
        (by simp [exampleTagExtHeader, HEADER_BYTE_SIZE]) rfl
        (by simp [exampleTagExtHeader]; decide)]
      simp [exampleTagExtHeader]
    exact ⟨by rw [hb]; decide, by rw [hb]; decide⟩
  · intro H
    rw [hsz]
    exact hsix H

/-! ## The extended v1 tag in `Tag::getFileV1` -/

theorem setTagsExtended_lookup (D : TagDeps) (t : Tag) (tags : ByteArray) :
    (Tag.setTagsExtended D t tags).tagsSet = { t.tagsSet with v1Extended := true } ∧
    (Tag.setTagsExtended D t tags).frames.lookup "TIT2"
      = some (D.ofText "TIT2" (terminatedstring (tags.drop 4) 60)) ∧
    (Tag.setTagsExtended D t tags).frames.lookup "TPE1"
      = some (D.ofText "TPE1" (terminatedstring (tags.drop 64) 60)) ∧
    (Tag.setTagsExtended D t tags).frames.lookup "TALB"
      = some (D.ofText "TALB" (terminatedstring (tags.drop 124) 60)) ∧
    (Tag.setTagsExtended D t tags).frames.lookup "TCON"
      = some (D.ofText "TCON" (terminatedstring (tags.drop 185) 30)) := by
  unfold Tag.setTagsExtended
  simp [lookup_mapAssign]

/-- The block of `Tag::getFileV1` that reads the extended tag, on a file of at
most 355 bytes: nothing is read, and the locals keep the bytes they were found
with. -/
theorem readExtendedTag_small (H : Host) (filesize : Nat) (file : IStream)
    (hsz : ¬ filesize > V1.BYTE_SIZE + V1.EXTENDED_BYTE_SIZE) :
    readExtendedTag H filesize file
      = (file, uninitBytes H V1.BYTE_SIZE V1.EXTENDED_BYTE_SIZE,
         decide (H.uninit (V1.BYTE_SIZE + V1.EXTENDED_BYTE_SIZE) % 256 ≠ 0)) := by
  unfold readExtendedTag
  simp only [hsz, if_false]

set_option maxRecDepth 100000 in
theorem extended_facts :
    exampleFile355.length = 355 ∧ exampleFile356.length = 356 ∧ exampleFileNoTAG.length = 356 ∧
    (exampleFile355.drop (355 - 128)).take 3 = [0x54, 0x41, 0x47] ∧
    (exampleFile356.drop (356 - 128)).take 3 = [0x54, 0x41, 0x47] ∧
    (exampleFileNoTAG.drop (356 - 128)).take 3 ≠ [0x54, 0x41, 0x47] ∧
    ((exampleFile356.drop (356 - 355)).take 227).take 4 = [0x54, 0x41, 0x47, 0x2B] ∧
    ((exampleFileNoTAG.drop (356 - 355)).take 227).take 4 = [0x54, 0x41, 0x47, 0x2B] ∧
    (exampleFile355.take 227).take 4 = [0x54, 0x41, 0x47, 0x2B] ∧
    terminatedstring (((exampleFile356.drop (356 - 355)).take 227).drop 4) 60
      = [0x45, 0x78, 0x74] ∧
    terminatedstring (((exampleFile356.drop (356 - 355)).take 227).drop 64) 60 = [] ∧
    terminatedstring (((exampleFile356.drop (356 - 355)).take 227).drop 124) 60 = [] ∧
    terminatedstring (((exampleFile356.drop (356 - 355)).take 227).drop 185) 30 = [] ∧
    terminatedstring ((exampleFile355.drop (355 - 128)).drop 3) 30 = [0x4F, 0x6C, 0x64] ∧
    (exampleFile355.drop (355 - 128)).getD 125 0 = 0 := by
  decide

set_option maxRecDepth 100000 in
/-- C36 (code defect): `Tag::getFileV1` reads the extended tag only when
`filesize > V1::BYTE_SIZE + V1::EXTENDED_BYTE_SIZE`, and tests the local
`extTagsSet` after the block although nothing has initialised it.  For the
file of exactly 355 bytes made of an extended tag with the title `Ext` and a
trailer with the title `Old`, the block is skipped: the marker v1-Extended is
the byte that `extTagsSet` was found with, for a zero byte TIT2 keeps the
title `Old` of the trailer, and for a non-zero byte the fields are taken from
the 227 bytes that `extTags` was found with.  For the same content after one
more byte (356 bytes) the extended tag is parsed: the marker is set and TIT2,
TPE1, TALB and TCON are those of the extended tag.  For a file whose last 128
bytes do not start with `TAG` the tag is left as it was. -/
theorem extended_tag_at_355 :
    (∀ (H : Host) (D : TagDeps),
      (Tag.getFileV1 H D (Tag.mk 355 false TagsOnFile.new TagInfo.new [])
        (IStream.mk exampleFile355 355 false false)).1.tagsSet.v1Extended
        = decide (H.uninit 355 % 256 ≠ 0)) ∧
    (∀ D : TagDeps,
      (Tag.getFileV1 shiftMod64Host D (Tag.mk 355 false TagsOnFile.new TagInfo.new [])
        (IStream.mk exampleFile355 355 false false)).1.frames.lookup "TIT2"
        = some (D.ofText "TIT2" [0x4F, 0x6C, 0x64])) ∧
    (∀ D : TagDeps,
      (Tag.getFileV1 uninitOneHost D (Tag.mk 355 false TagsOnFile.new TagInfo.new [])
        (IStream.mk exampleFile355 355 false false)).1.frames.lookup "TIT2"
        = some (D.ofText "TIT2" (List.replicate 60 1))) ∧
    (∀ (H : Host) (D : TagDeps),
      (Tag.getFileV1 H D (Tag.mk 356 false TagsOnFile.new TagInfo.new [])
        (IStream.mk exampleFile356 356 false false)).1.tagsSet.v1Extended = true ∧
      (Tag.getFileV1 H D (Tag.mk 356 false TagsOnFile.new TagInfo.new [])
        (IStream.mk exampleFile356 356 false false)).1.frames.lookup "TIT2"
        = some (D.ofText "TIT2" [0x45, 0x78, 0x74]) ∧
      (Tag.getFileV1 H D (Tag.mk 356 false TagsOnFile.new TagInfo.new [])
        (IStream.mk exampleFile356 356 false false)).1.frames.lookup "TPE1"
        = some (D.ofText "TPE1" []) ∧
      (Tag.getFileV1 H D (Tag.mk 356 false TagsOnFile.new TagInfo.new [])
        (IStream.mk exampleFile356 356 false false)).1.frames.lookup "TALB"
        = some (D.ofText "TALB" []) ∧
      (Tag.getFileV1 H D (Tag.mk 356 false TagsOnFile.new TagInfo.new [])
        (IStream.mk exampleFile356 356 false false)).1.frames.lookup "TCON"
        = some (D.ofText "TCON" [])) ∧
    (∀ (H : Host) (D : TagDeps),
      (Tag.getFileV1 H D (Tag.mk 356 false TagsOnFile.new TagInfo.new [])
        (IStream.mk exampleFileNoTAG 356 false false)).1
        = Tag.mk 356 false TagsOnFile.new TagInfo.new []) ∧
    exampleFile355.length = 355 ∧
    (exampleFile355.take 227).take 4 = [0x54, 0x41, 0x47, 0x2B] ∧
    (exampleFile355.drop (355 - 128)).take 3 = [0x54, 0x41, 0x47] := by
  obtain ⟨l355, l356, lno, t355, t356, tno, e356, _, e355, x1, x2, x3, x4, old, z355⟩ :=
    extended_facts
  have h355 : ∀ (H : Host) (D : TagDeps),
      (Tag.getFileV1 H D (Tag.mk 355 false TagsOnFile.new TagInfo.new [])
        (IStream.mk exampleFile355 355 false false)).1
      = if decide (H.uninit 355 % 256 ≠ 0) = true then
          Tag.setTagsExtended D
            (Tag.setTagsP1Fields D (Tag.mk 355 false TagsOnFile.new TagInfo.new [])
              (exampleFile355.drop (355 - 128)))
            (uninitBytes H V1.BYTE_SIZE V1.EXTENDED_BYTE_SIZE)
        else Tag.setTagsP1Fields D (Tag.mk 355 false TagsOnFile.new TagInfo.new [])
              (exampleFile355.drop (355 - 128)) := by
    intro H D
    rw [getFileV1_read H D _ _ _ _ (show ¬ 355 < V1.BYTE_SIZE by decide)
        (by rw [l355]; decide),
      readExtendedTag_small H _ _ (show ¬ 355 > V1.BYTE_SIZE + V1.EXTENDED_BYTE_SIZE by decide)]
    simp only [l355, t355, ne_eq, not_true_eq_false, if_false, setTags_cases, z355, if_true]
    rfl
  have h356 : ∀ (H : Host) (D : TagDeps),
      (Tag.getFileV1 H D (Tag.mk 356 false TagsOnFile.new TagInfo.new [])
        (IStream.mk exampleFile356 356 false false)).1
      = Tag.setTagsExtended D
          (Tag.setTags D (Tag.mk 356 false TagsOnFile.new TagInfo.new [])
            (exampleFile356.drop (356 - 128)) true)
          ((exampleFile356.drop (356 - 355)).take 227) := by
    intro H D
    rw [getFileV1_read H D _ _ _ _ (show ¬ 356 < V1.BYTE_SIZE by decide)
        (by rw [l356]; decide),
      readExtendedTag_big H _ _ _ _ (show 356 > V1.BYTE_SIZE + V1.EXTENDED_BYTE_SIZE by decide)
        (by rw [l356]; decide)]
    simp only [l356, t356, ne_eq, not_true_eq_false, if_false, e356, decide_True, if_true]
  refine ⟨?_, ?_, ?_, ?_, ?_, l355, e355, t355⟩
  · intro H D
    rw [h355 H D]
    by_cases hu : H.uninit 355 % 256 ≠ 0
    · rw [if_pos (by simpa using hu), (setTagsExtended_lookup D _ _).1]
      simpa using hu
    · rw [if_neg (by simpa using hu), (setTagsP1Fields_lookup D _ _).1]
      simpa [TagsOnFile.new] using hu
  · intro D
    rw [h355 shiftMod64Host D, if_neg (by decide), (setTagsP1Fields_lookup D _ _).2.1, old]
  · intro D
    rw [h355 uninitOneHost D, if_pos (by decide), (setTagsExtended_lookup D _ _).2.1]
    have : terminatedstring ((uninitBytes uninitOneHost V1.BYTE_SIZE V1.EXTENDED_BYTE_SIZE).drop 4)
        60 = List.replicate 60 1 := by decide
    rw [this]
  · intro H D
    rw [h356 H D]
    obtain ⟨s1, s2, s3, s4, s5⟩ := setTagsExtended_lookup D
      (Tag.setTags D (Tag.mk 356 false TagsOnFile.new TagInfo.new [])
        (exampleFile356.drop (356 - 128)) true)
      ((exampleFile356.drop (356 - 355)).take 227)
    rw [x1] at s2
    rw [x2] at s3
    rw [x3] at s4
    rw [x4] at s5
    exact ⟨by rw [s1], s2, s3, s4, s5⟩
  · intro H D
    rw [getFileV1_read H D _ _ _ _ (show ¬ 356 < V1.BYTE_SIZE by decide)
        (by rw [lno]; decide)]
    simp only [lno, tno, ne_eq, not_false_eq_true, if_true]

end ID3
